import Mathlib

/-!
# workspace-channels-cleaner: discovery engine, leave executor, configuration, interface

A shallow embedding of `src/slack/slack_client.go`, `src/config/config.go` and the state
machine of `src/model/model.go`.

* The remote workspace API (`slack.Client`) is not part of the repository.  It is a
  parameter: a deterministic state machine `API σ` whose answer to a request may depend
  on everything it was asked before.
* Effects are explicit.  Every function returns, next to its Go results, the API state
  it leaves behind and the list of `Event`s it performed (requests sent, sleeps), oldest
  first.  Console notices printed in verbose mode are not modelled.
* `time.Time` and `time.Duration` are integers counting nanoseconds (`time.Time` since
  the Unix epoch); `int64` arithmetic that can overflow is wrapped explicitly, also in
  `time.Unix`, and the conversion of a float that `int64` cannot hold is modelled.
* The history probes run as goroutines in the source.  `GetFilteredChannels` below is
  the run in which they go one after the other in listing order, each to its end before
  the next request is sent; each probe then reads the error of its own request, and the
  result is meant up to order.  The probes of one page also share the variable `err`,
  which they assign without synchronization: `GetFilteredChannelsScheduled` is the same
  function as threads stepping under a schedule, with that variable shared, and
  `GetFilteredChannels_is_scheduled` shows the first run to be one of its runs.
* Loops that the source does not bound (pagination, listing retries) take a fuel
  argument counting listing requests; `none` means the fuel ran out.
* The semaphore that bounds the probes in flight is modelled apart as well, by the step
  function `ProbePool.step`.
-/

namespace SlackCleaner

/-! ## Go library values -/

/-- Go `error` values, by the shapes the source distinguishes: the dynamic type
`*slack.RateLimitedError` (with its `RetryAfter` field, a `time.Duration` counted in
nanoseconds, which the client library sets to the seconds of the `Retry-After` header
times `time.Second`, and the text its `Error()` method returns), an error built by
`fmt.Errorf` with `%w`, and any other error. -/
inductive GoError where
  | other (msg : String)
  | rateLimited (RetryAfter : Int) (msg : String)
  | wrapped (msg : String) (inner : GoError)
deriving DecidableEq, Repr

/-- The method `err.Error()`. -/
def GoError.Error : GoError → String
  | .other msg => msg
  | .rateLimited _ msg => msg
  | .wrapped msg _ => msg

/-- The error `errors.Unwrap` returns. -/
def GoError.Unwrap : GoError → Option GoError
  | .wrapped _ inner => some inner
  | _ => none

/-- The constant `time.Second`, in nanoseconds. -/
def Second : Int := 1000000000

/-- Two's complement wrap-around of `int64` arithmetic. -/
def wrapInt64 (x : Int) : Int := (x + 2 ^ 63) % 2 ^ 64 - 2 ^ 63

/-- A `float64` value: a finite number, given by the rational it denotes, an infinity,
or NaN. -/
inductive Float64 where
  | finite (q : ℚ)
  | inf (negative : Bool)
  | nan
deriving DecidableEq

/-- The conversion `int64(f)`: truncation toward zero when the result is in the `int64`
range.  For the other values (numbers out of range, infinities, NaN) the Go language
leaves the result to the implementation; the amd64 build gives -2^63, which is taken
here. -/
def int64 : Float64 → Int
  | .finite q =>
    if -(2 ^ 63) ≤ Int.tdiv q.num q.den ∧ Int.tdiv q.num q.den < 2 ^ 63 then
      Int.tdiv q.num q.den
    else -(2 ^ 63)
  | _ => -(2 ^ 63)

/-- The constant `unixToInternal` of package `time`: the seconds from 1 January of the
year 1 to the Unix epoch. -/
def unixToInternal : Int := 62135596800

/-- The call `time.Unix(sec, nsec)` for `0 <= nsec < 1e9`.  A `time.Time` without
monotonic reading holds the seconds since the year 1 in an `int64`, so the sum
`sec + unixToInternal` wraps around; the value here is the instant these fields denote,
in nanoseconds relative to the Unix epoch, which is what `Before` compares. -/
def Unix (sec nsec : Int) : Int :=
  (wrapInt64 (sec + unixToInternal) - unixToInternal) * Second + nsec

/-- The method `t.Before(u)`. -/
def Before (t u : Int) : Bool := decide (t < u)

/-- Whether `sub` occurs in `s` as a contiguous block. -/
def containsChars : List Char → List Char → Bool
  | [], sub => sub.isEmpty
  | c :: s, sub => sub.isPrefixOf (c :: s) || containsChars s sub

/-- The function `strings.Contains`. -/
def stringsContains (s substr : String) : Bool := containsChars s.data substr.data

/-- The function `unicode.IsSpace`. -/
def unicodeIsSpace (r : Char) : Bool :=
  let n := r.toNat
  if n ≤ 0xFF then
    n = 0x09 || n = 0x0A || n = 0x0B || n = 0x0C || n = 0x0D || n = 0x20 || n = 0x85 || n = 0xA0
  else
    n = 0x1680 || (0x2000 ≤ n && n ≤ 0x200A) || n = 0x2028 || n = 0x2029 || n = 0x202F
      || n = 0x205F || n = 0x3000

/-- The function `strings.TrimSpace`: leading and trailing white space removed. -/
def stringsTrimSpace (s : String) : String :=
  ⟨((s.data.dropWhile unicodeIsSpace).reverse.dropWhile unicodeIsSpace).reverse⟩

/-- A Go `map[string]bool` as its list of entries, one per key. -/
abbrev GoMap := List (String × Bool)

/-- Reading `m[k]`: the stored value, or `false` when the key is absent (also on the
nil map). -/
def GoMap.get (m : GoMap) (k : String) : Bool :=
  match m with
  | [] => false
  | (k', v) :: rest => if k' = k then v else GoMap.get rest k

/-- The assignment `m[k] = v`. -/
def GoMap.set (m : GoMap) (k : String) (v : Bool) : GoMap :=
  match m with
  | [] => [(k, v)]
  | (k', v') :: rest => if k' = k then (k, v) :: rest else (k', v') :: GoMap.set rest k v

/-- The keys of a map. -/
def GoMap.keys (m : GoMap) : List String := m.map Prod.fst

/-! ## Data model -/

/-- The fields of `slack.Channel` the source reads. -/
structure Channel where
  ID : String
  Name : String
  IsMember : Bool
  IsPrivate : Bool
deriving DecidableEq, Repr

/-- The fields of `slack.Message` the source reads. -/
structure Message where
  Timestamp : String
deriving DecidableEq, Repr

/-- The type `slack.GetConversationHistoryResponse`. -/
structure GetConversationHistoryResponse where
  Messages : List Message
deriving DecidableEq, Repr

/-- The type `slack.GetConversationsParameters`. -/
structure GetConversationsParameters where
  Limit : Int
  ExcludeArchived : Bool
  Cursor : String
  Types : List String
deriving DecidableEq, Repr

/-- The type `slack.GetConversationHistoryParameters`. -/
structure GetConversationHistoryParameters where
  ChannelID : String
  Limit : Int
deriving DecidableEq, Repr

/-- The three results of `GetConversations`. -/
structure ConversationsAnswer where
  channels : List Channel
  nextCursor : String
  err : Option GoError
deriving DecidableEq, Repr

/-- The two results of `GetConversationHistory`. -/
structure HistoryAnswer where
  history : Option GetConversationHistoryResponse
  err : Option GoError
deriving DecidableEq, Repr

/-- The remote API as a deterministic state machine over states `σ`. -/
structure API (σ : Type) where
  GetConversations : σ → GetConversationsParameters → ConversationsAnswer × σ
  GetConversationHistory : σ → GetConversationHistoryParameters → HistoryAnswer × σ
  LeaveConversation : σ → String → Option GoError × σ

/-- What the program does to the outside world. -/
inductive Event where
  | GetConversations (params : GetConversationsParameters)
  | GetConversationHistory (params : GetConversationHistoryParameters)
  | LeaveConversation (channelID : String)
  | Sleep (d : Int)
deriving DecidableEq, Repr

/-- The struct `ChannelInfo`; its field `Type` is spelled `Type_` here. -/
structure ChannelInfo where
  ID : String
  Name : String
  LastSeen : Int
  Type_ : String
deriving DecidableEq, Repr

/-- The struct `Cleaner`, without its API handle (passed separately with its state). -/
structure Cleaner where
  SkipChannels : GoMap
  Limit : Int
  Types : List String
  Cutoff : Int
  Keyword : String
  Verbose : Bool
deriving DecidableEq, Repr

/-! ## LoadSkipList -/

/-- The function `LoadSkipList`.  `ReadFile` is `os.ReadFile` and `Unmarshal` is
`json.Unmarshal` into a `[]string`; both are library calls taken as parameters. -/
def LoadSkipList (ReadFile : String → Except GoError String)
    (Unmarshal : String → Except GoError (List String)) (path : String) :
    GoMap × Option GoError :=
  match ReadFile path with
  | .error _ => ([], none)
  | .ok data =>
    match Unmarshal data with
    | .error err => ([], some (.wrapped ("failed to parse skip list: " ++ err.Error) err))
    | .ok list => (list.foldl (fun skipMap name => skipMap.set (stringsTrimSpace name) true) [], none)

/-! ## handleRateLimit -/

/-- The method `Cleaner.handleRateLimit`: the returned error and the sleeps performed. -/
def handleRateLimit (_c : Cleaner) (err : GoError) : Option GoError × List Event :=
  if stringsContains err.Error "rate_limited" then
    (none, [.Sleep (30 * Second)])
  else
    match err with
    | .rateLimited RetryAfter _ =>
      let wait := wrapInt64 (RetryAfter * Second)
      let wait := if wait ≤ 0 then 30 * Second else wait
      (none, [.Sleep wait])
    | _ => (some err, [])

/-! ## LeaveChannels -/

/-- The method `Cleaner.LeaveChannels`: the returned error, the API state afterwards and
the events performed. -/
def LeaveChannels {σ : Type} (api : API σ) (c : Cleaner) :
    List ChannelInfo → σ → Option GoError × σ × List Event
  | [], s => (none, s, [])
  | ch :: rest, s =>
    match api.LeaveConversation s ch.ID with
    | (some err, s1) =>
      match handleRateLimit c err with
      | (some rateErr, evs) =>
        (some (.wrapped ("failed to leave #" ++ ch.Name ++ ": " ++ rateErr.Error) rateErr), s1,
          .LeaveConversation ch.ID :: evs)
      | (none, evs) =>
        (some (.wrapped ("failed to leave #" ++ ch.Name ++ ": " ++ err.Error) err), s1,
          .LeaveConversation ch.ID :: evs)
    | (none, s1) =>
      match LeaveChannels api c rest s1 with
      | (r, s2, evs) => (r, s2, .LeaveConversation ch.ID :: .Sleep (1 * Second) :: evs)

/-! ## GetFilteredChannels -/

/-- The retry loop of one history probe (`for attempt := 0; attempt < 2; attempt++`),
with `n` attempts left and `history` the current value of the variable, when no other
probe assigns the shared `err` between the request and the test `err != nil`.  The first
component is `none` when the goroutine returned from inside the loop, and otherwise the
value of `history` after the loop. -/
def historyAttempts {σ : Type} (api : API σ) (c : Cleaner) (ch : Channel) :
    Nat → σ → Option GetConversationHistoryResponse →
      Option (Option GetConversationHistoryResponse) × σ × List Event
  | 0, s, history => (some history, s, [])
  | n + 1, s, _ =>
    let params : GetConversationHistoryParameters := { ChannelID := ch.ID, Limit := 1 }
    match api.GetConversationHistory s params with
    | (ans, s1) =>
      match ans.err with
      | some err =>
        match handleRateLimit c err with
        | (some _, evs) => (none, s1, .GetConversationHistory params :: evs)
        | (none, evs) =>
          match historyAttempts api c ch n s1 ans.history with
          | (r, s2, evs2) => (r, s2, .GetConversationHistory params :: (evs ++ evs2))
      | none => (some ans.history, s1, [.GetConversationHistory params])

/-- The body of `for _, ch := range channels` for one channel: the three cheap checks,
then the probe goroutine, run to its end on its own.  `ParseFloat` is
`strconv.ParseFloat(·, 64)`, `none` standing for a non-nil error. -/
def processChannel {σ : Type} (api : API σ) (c : Cleaner) (ParseFloat : String → Option Float64)
    (ch : Channel) (s : σ) (results : List ChannelInfo) :
    List ChannelInfo × σ × List Event :=
  if !ch.IsMember || c.SkipChannels.get ch.Name then (results, s, [])
  else if c.Keyword != "" && !stringsContains ch.Name c.Keyword then (results, s, [])
  else
    match historyAttempts api c ch 2 s none with
    | (none, s1, evs) => (results, s1, evs)
    | (some none, s1, evs) => (results, s1, evs)
    | (some (some history), s1, evs) =>
      match history.Messages with
      | [] => (results, s1, evs)
      | m :: _ =>
        match ParseFloat m.Timestamp with
        | none => (results, s1, evs)
        | some tsFloat =>
          let lastTime := Unix (int64 tsFloat) 0
          if !Before lastTime c.Cutoff then (results, s1, evs)
          else
            (results ++ [{ ID := ch.ID, Name := ch.Name, LastSeen := lastTime,
                           Type_ := if ch.IsPrivate then "private" else "public" }],
              s1, evs ++ [.Sleep (1 * Second)])

/-- The loop `for _, ch := range channels` over one page. -/
def processChannels {σ : Type} (api : API σ) (c : Cleaner) (ParseFloat : String → Option Float64) :
    List Channel → σ → List ChannelInfo → List ChannelInfo × σ × List Event
  | [], s, results => (results, s, [])
  | ch :: rest, s, results =>
    match processChannel api c ParseFloat ch s results with
    | (results1, s1, evs1) =>
      match processChannels api c ParseFloat rest s1 results1 with
      | (results2, s2, evs2) => (results2, s2, evs1 ++ evs2)

/-- The request `GetFilteredChannels` sends for a cursor. -/
def listingParams (c : Cleaner) (cursor : String) : GetConversationsParameters :=
  { Limit := c.Limit, ExcludeArchived := true, Cursor := cursor, Types := c.Types }

/-- The pagination loop of `GetFilteredChannels` together with its inner retry loop, from
the point where a listing request for `cursor` is about to be sent and `results` holds
what earlier pages appended.  Each listing request uses one unit of fuel. -/
def paginate {σ : Type} (api : API σ) (c : Cleaner) (ParseFloat : String → Option Float64) :
    Nat → σ → String → List ChannelInfo →
      Option ((List ChannelInfo × Option GoError) × σ × List Event)
  | 0, _, _, _ => none
  | fuel + 1, s, cursor, results =>
    match api.GetConversations s (listingParams c cursor) with
    | (ans, s1) =>
      match ans.err with
      | some err =>
        match handleRateLimit c err with
        | (some rateErr, evs) =>
          some (([], some rateErr), s1, .GetConversations (listingParams c cursor) :: evs)
        | (none, evs) =>
          (paginate api c ParseFloat fuel s1 cursor results).map fun (r, s2, evs2) =>
            (r, s2, .GetConversations (listingParams c cursor) :: (evs ++ evs2))
      | none =>
        match processChannels api c ParseFloat ans.channels s1 results with
        | (results1, s2, evs1) =>
          if ans.nextCursor = "" then
            some ((results1, none), s2, .GetConversations (listingParams c cursor) :: evs1)
          else
            (paginate api c ParseFloat fuel s2 ans.nextCursor results1).map fun (r, s3, evs2) =>
              (r, s3, .GetConversations (listingParams c cursor) :: (evs1 ++ evs2))

/-- The method `Cleaner.GetFilteredChannels`: the two Go results, the API state afterwards
and the events performed; `none` when the fuel does not suffice. -/
def GetFilteredChannels {σ : Type} (api : API σ) (c : Cleaner)
    (ParseFloat : String → Option Float64) (fuel : Nat) (s : σ) :
    Option ((List ChannelInfo × Option GoError) × σ × List Event) :=
  paginate api c ParseFloat fuel s "" []

/-! ## config: AppConfig, LoadConfig, ValidateConfig -/

/-- The struct `config.AppConfig`. -/
structure AppConfig where
  Days : Int
  Limit : Int
  Types : List String
  Verbose : Bool
  Keyword : String
deriving DecidableEq, Repr

/-- The function `config.DefaultConfig`. -/
def DefaultConfig : AppConfig :=
  { Days := 30, Limit := 30, Types := ["public"], Verbose := false, Keyword := "" }

/-- The function `config.LoadConfig`: the returned configuration (`none` for nil) and the
returned error.  `ReadFile` is `os.ReadFile` and `Unmarshal` is `json.Unmarshal` into a
zero `AppConfig`; both are library calls taken as parameters. -/
def LoadConfig (ReadFile : String → Except GoError String)
    (Unmarshal : String → Except GoError AppConfig) (path : String) :
    Option AppConfig × Option GoError :=
  match ReadFile path with
  | .error _ => (some DefaultConfig, none)
  | .ok data =>
    match Unmarshal data with
    | .error err => (none, some (.wrapped ("failed to parse config file: " ++ err.Error) err))
    | .ok config =>
      let config := if config.Days ≤ 0 then { config with Days := 30 } else config
      let config := if config.Limit ≤ 0 then { config with Limit := 30 } else config
      let config := if config.Types.length = 0 then { config with Types := ["public"] } else config
      (some config, none)

/-- The loop `for _, t := range config.Types` of `ValidateConfig`. -/
def validateTypes : List String → Option GoError
  | [] => none
  | t :: rest =>
    if t ≠ "public" ∧ t ≠ "private" then
      some (.other ("invalid channel type: " ++ t ++ " (must be 'public' or 'private')"))
    else validateTypes rest

/-- The function `config.ValidateConfig`. -/
def ValidateConfig (config : AppConfig) : Option GoError :=
  if config.Days < 1 then some (.other "days must be at least 1")
  else if config.Limit < 1 then some (.other "limit must be at least 1")
  else if config.Types.length = 0 then
    some (.other "at least one channel type must be specified")
  else validateTypes config.Types

/-! ## GetChannelTypes -/

/-- The loop of `GetChannelTypes`, with `result` what has been appended so far.
`ToLower` is `strings.ToLower`, a library call taken as a parameter. -/
def getChannelTypesLoop (ToLower : String → String) : List String → List String → List String
  | [], result => result
  | t :: rest, result =>
    let t := stringsTrimSpace (ToLower t)
    if t = "public" then getChannelTypesLoop ToLower rest (result ++ ["public_channel"])
    else if t = "private" then getChannelTypesLoop ToLower rest (result ++ ["private_channel"])
    else getChannelTypesLoop ToLower rest result

/-- The function `GetChannelTypes`. -/
def GetChannelTypes (ToLower : String → String) (types : List String) : List String :=
  let result := getChannelTypesLoop ToLower types []
  if result.length = 0 then ["public_channel"] else result

/-! ## Vocabulary of the specification -/

/-- A rate-limit failure: an explicit rate-limit signal, or an error whose message
contains "rate_limited". -/
def isRateLimitFailure (err : GoError) : Bool :=
  stringsContains err.Error "rate_limited" ||
    match err with
    | .rateLimited _ _ => true
    | _ => false

/-- A cleaner used in the examples: nothing skipped, no keyword, cutoff 100.25 s. -/
def exampleCleaner : Cleaner :=
  { SkipChannels := [], Limit := 30, Types := ["public_channel"], Cutoff := 100250000000,
    Keyword := "", Verbose := false }

/-- The answers the API gives when asked to leave the channels one after the other. -/
def leaveAnswers {σ : Type} (api : API σ) : σ → List ChannelInfo → List (Option GoError)
  | _, [] => []
  | s, ch :: rest => (api.LeaveConversation s ch.ID).1 :: leaveAnswers api (api.LeaveConversation s ch.ID).2 rest

/-- The channel IDs of the leave requests among the events, in order. -/
def leaveRequests : List Event → List String
  | [] => []
  | .LeaveConversation id :: evs => id :: leaveRequests evs
  | _ :: evs => leaveRequests evs

/-- An API whose first leave request is answered "rate_limited" and every later one
succeeds; the state counts the leave requests received. -/
def rateLimitedOnceAPI : API Nat where
  GetConversations := fun s _ => ({ channels := [], nextCursor := "", err := none }, s)
  GetConversationHistory := fun s _ => ({ history := none, err := none }, s)
  LeaveConversation := fun s _ => (if s = 0 then some (.other "rate_limited") else none, s + 1)

/-- An API whose second leave request fails with "channel_not_found"; the state counts
the leave requests received. -/
def failSecondLeaveAPI : API Nat where
  GetConversations := fun s _ => ({ channels := [], nextCursor := "", err := none }, s)
  GetConversationHistory := fun s _ => ({ history := none, err := none }, s)
  LeaveConversation := fun s _ =>
    (if s = 1 then some (.other "channel_not_found") else none, s + 1)

/-- Three channels to leave. -/
def threeChannels : List ChannelInfo :=
  [{ ID := "C1", Name := "general", LastSeen := 0, Type_ := "public" },
   { ID := "C2", Name := "random", LastSeen := 0, Type_ := "public" },
   { ID := "C3", Name := "dev", LastSeen := 0, Type_ := "private" }]

/-- The value of `strconv.ParseFloat` on the timestamps used in the examples; the float
nearest to 1e30 is 1000000000000000019884624838656. -/
def exampleParseFloat (s : String) : Option Float64 :=
  if s = "50" then some (.finite 50)
  else if s = "100.5" then some (.finite (mkRat 201 2))
  else if s = "1e30" then some (.finite 1000000000000000019884624838656)
  else none

/-- An API with a first page holding one channel and a cursor to a second page, whose
second listing request fails with "invalid_auth"; every history holds one message sent at
50 s.  The state counts the listing requests received. -/
def fatalSecondPageAPI : API Nat where
  GetConversations := fun s _ =>
    if s = 0 then
      ({ channels := [{ ID := "C1", Name := "general", IsMember := true, IsPrivate := false }],
         nextCursor := "p2", err := none }, 1)
    else ({ channels := [], nextCursor := "", err := some (.other "invalid_auth") }, s + 1)
  GetConversationHistory := fun s _ =>
    ({ history := some { Messages := [{ Timestamp := "50" }] }, err := none }, s)
  LeaveConversation := fun s _ => (none, s)

/-- The listing answers every state of the API gives: a fixed function of the request. -/
def AnswersListing {σ : Type} (api : API σ)
    (P : GetConversationsParameters → ConversationsAnswer) : Prop :=
  ∀ s p, (api.GetConversations s p).1 = P p

/-- The history answers every state of the API gives: a fixed function of the request. -/
def AnswersHistory {σ : Type} (api : API σ)
    (H : GetConversationHistoryParameters → HistoryAnswer) : Prop :=
  ∀ s p, (api.GetConversationHistory s p).1 = H p

/-- The channel records of the pages reached from `cursor` by following the cursors of
the listing `P`, when the chain ends within `n` pages and no page is an error. -/
def walk (P : GetConversationsParameters → ConversationsAnswer) (c : Cleaner) :
    Nat → String → Option (List Channel)
  | 0, _ => none
  | n + 1, cursor =>
    match (P (listingParams c cursor)).err with
    | some _ => none
    | none =>
      if (P (listingParams c cursor)).nextCursor = "" then
        some (P (listingParams c cursor)).channels
      else
        (walk P c n (P (listingParams c cursor)).nextCursor).map
          fun rest => (P (listingParams c cursor)).channels ++ rest

/-- The entry `GetFilteredChannels` appends for a channel whose last activity is `t`. -/
def infoOf (ch : Channel) (t : Int) : ChannelInfo :=
  { ID := ch.ID, Name := ch.Name, LastSeen := t,
    Type_ := if ch.IsPrivate then "private" else "public" }

/-- The stateless API that answers listing requests per `P` and history requests per
`H`, and accepts every leave request. -/
def statelessAPI (P : GetConversationsParameters → ConversationsAnswer)
    (H : GetConversationHistoryParameters → HistoryAnswer) : API Unit where
  GetConversations := fun s p => (P p, s)
  GetConversationHistory := fun s p => (H p, s)
  LeaveConversation := fun s _ => (none, s)

/-- A single page with one member channel. -/
def onePage (_p : GetConversationsParameters) : ConversationsAnswer :=
  { channels := [{ ID := "C1", Name := "general", IsMember := true, IsPrivate := false }],
    nextCursor := "", err := none }

/-- A history whose most recent message was sent at 100.5 s. -/
def historyAtHalfSecond (_p : GetConversationHistoryParameters) : HistoryAnswer :=
  { history := some { Messages := [{ Timestamp := "100.5" }] }, err := none }

/-- Whether a channel record passes the three checks made before its history is probed:
membership, skip set, keyword. -/
def passesChecks (c : Cleaner) (ch : Channel) : Bool :=
  ch.IsMember && !c.SkipChannels.get ch.Name &&
    (c.Keyword == "" || stringsContains ch.Name c.Keyword)

/-- What the probe of `ch` appends to the results, given the outcome of its retry loop. -/
def appendedAfter (c : Cleaner) (ParseFloat : String → Option Float64) (ch : Channel) :
    Option (Option GetConversationHistoryResponse) → List ChannelInfo
  | some (some history) =>
    match history.Messages with
    | [] => []
    | m :: _ =>
      match ParseFloat m.Timestamp with
      | none => []
      | some tsFloat =>
        if Unix (int64 tsFloat) 0 < c.Cutoff then [infoOf ch (Unix (int64 tsFloat) 0)] else []
  | _ => []

/-- The outcome of the retry loop of a probe whose every request gets the answer `a`,
with `n` attempts left. -/
def probeOutcome (c : Cleaner) (a : HistoryAnswer) :
    Nat → Option GetConversationHistoryResponse →
      Option (Option GetConversationHistoryResponse)
  | 0, history => some history
  | n + 1, _ =>
    match a.err with
    | some err =>
      match (handleRateLimit c err).1 with
      | some _ => none
      | none => probeOutcome c a n a.history
    | none => some a.history

/-- What `GetFilteredChannels` appends for the record `ch` when the history requests are
answered per `H`. -/
def selected (c : Cleaner) (ParseFloat : String → Option Float64)
    (H : GetConversationHistoryParameters → HistoryAnswer) (ch : Channel) : List ChannelInfo :=
  if passesChecks c ch then
    appendedAfter c ParseFloat ch (probeOutcome c (H { ChannelID := ch.ID, Limit := 1 }) 2 none)
  else []

/-- A history that answers `a` for channel "C1" and one message sent at 50 s for every
other channel. -/
def historyExcept (a : HistoryAnswer) (p : GetConversationHistoryParameters) : HistoryAnswer :=
  if p.ChannelID = "C1" then a
  else { history := some { Messages := [{ Timestamp := "50" }] }, err := none }

/-- A single page with two member channels. -/
def twoChannelPage (_p : GetConversationsParameters) : ConversationsAnswer :=
  { channels := [{ ID := "C1", Name := "general", IsMember := true, IsPrivate := false },
                 { ID := "C2", Name := "random", IsMember := true, IsPrivate := true }],
    nextCursor := "", err := none }

/-- The API `api` with failures put in front of its listing answers.  The schedule holds,
for each coming listing answer of `api`, the errors to answer first; a failed listing
request does not reach `api`.  History and leave requests pass through. -/
def withListingFailures {σ : Type} (api : API σ) : API (σ × List (List GoError)) where
  GetConversations := fun st p =>
    match st.2 with
    | (e :: es) :: sched => ({ channels := [], nextCursor := "", err := some e }, (st.1, es :: sched))
    | [] :: sched => ((api.GetConversations st.1 p).1, ((api.GetConversations st.1 p).2, sched))
    | [] => ((api.GetConversations st.1 p).1, ((api.GetConversations st.1 p).2, []))
  GetConversationHistory := fun st p =>
    ((api.GetConversationHistory st.1 p).1, ((api.GetConversationHistory st.1 p).2, st.2))
  LeaveConversation := fun st id =>
    ((api.LeaveConversation st.1 id).1, ((api.LeaveConversation st.1 id).2, st.2))

/-- The events of the failed attempts at the listing request `p`, one attempt per error:
the request, then what `handleRateLimit` does with the error. -/
def retryEvents (c : Cleaner) (p : GetConversationsParameters) : List GoError → List Event
  | [] => []
  | e :: es => .GetConversations p :: ((handleRateLimit c e).2 ++ retryEvents c p es)

/-- The events of a run with, in front of each listing request, the failed attempts the
schedule holds for it: each repeats the very request that follows. -/
def insertRetries (c : Cleaner) : List (List GoError) → List Event → List Event
  | _, [] => []
  | sched, ev :: evs =>
    match ev with
    | .GetConversations p =>
      retryEvents c p (sched.headD []) ++ ev :: insertRetries c sched.tail evs
    | _ => ev :: insertRetries c sched evs

/-- Whether no event is a listing request. -/
def noListing (evs : List Event) : Bool :=
  evs.all fun ev =>
    match ev with
    | .GetConversations _ => false
    | _ => true

/-- The number of failures a schedule holds. -/
def failureCount (sched : List (List GoError)) : Nat := (sched.map List.length).sum

/-- A listing of two pages, the cursor "p2" leading to the second. -/
def twoPages (p : GetConversationsParameters) : ConversationsAnswer :=
  if p.Cursor = "" then
    { channels := [{ ID := "C1", Name := "general", IsMember := true, IsPrivate := false }],
      nextCursor := "p2", err := none }
  else
    { channels := [{ ID := "C2", Name := "random", IsMember := true, IsPrivate := true }],
      nextCursor := "", err := none }

/-- A history whose most recent message was sent at 50 s. -/
def historyAtFifty (_p : GetConversationHistoryParameters) : HistoryAnswer :=
  { history := some { Messages := [{ Timestamp := "50" }] }, err := none }

/-- Two rate-limit failures in front of the second listing answer, none in front of the
first. -/
def failuresBeforeSecondPage : List (List GoError) :=
  [[], [.other "rate_limited", .rateLimited 2 "slack rate limit exceeded, retry after 2s"]]

/-- A history response without a usable most recent message: no response, no messages,
or a first message whose timestamp does not parse. -/
def unusable (ParseFloat : String → Option Float64)
    (history : Option GetConversationHistoryResponse) : Prop :=
  ∀ r, history = some r → ∀ m rest, r.Messages = m :: rest → ParseFloat m.Timestamp = none

/-- A history answer that cannot lead to an entry: an error that is not a rate-limit
failure, or a response without a usable most recent message. -/
def givesNoActivity (ParseFloat : String → Option Float64) (a : HistoryAnswer) : Prop :=
  (∃ e, a.err = some e ∧ isRateLimitFailure e = false) ∨ unusable ParseFloat a.history

/-- An API with the page `twoChannelPage` whose history requests for channel "C1" fail,
the first with `first` and the later ones with `later`, and whose other histories hold
one message sent at 50 s.  The state counts the history requests for "C1". -/
def failOnceThenAPI (first later : GoError) : API Nat where
  GetConversations := fun s p => (twoChannelPage p, s)
  GetConversationHistory := fun s p =>
    if p.ChannelID = "C1" then
      ({ history := none, err := some (if s = 0 then first else later) }, s + 1)
    else (historyExcept { history := none, err := none } p, s)
  LeaveConversation := fun s _ => (none, s)

/-- The API type a user-facing type name stands for in `GetChannelTypes`, after lower
casing and trimming; `none` for a name that is dropped. -/
def apiTypeOf (ToLower : String → String) (t : String) : Option String :=
  if stringsTrimSpace (ToLower t) = "public" then some "public_channel"
  else if stringsTrimSpace (ToLower t) = "private" then some "private_channel"
  else none

/-- The parameters of the history requests among the events, in order. -/
def historyRequests : List Event → List GetConversationHistoryParameters
  | [] => []
  | .GetConversationHistory p :: evs => p :: historyRequests evs
  | _ :: evs => historyRequests evs

/-- A configuration file content with a channel type the validation does not know. -/
def archivedTypeConfig : AppConfig :=
  { Days := 30, Limit := 30, Types := ["archived"], Verbose := false, Keyword := "" }

/-- The configuration `LoadConfig` makes of a parsed file content: a default in the
place of a non-positive `Days`, a non-positive `Limit` and an empty `Types`. -/
def withDefaults (parsed : AppConfig) : AppConfig :=
  { Days := if parsed.Days ≤ 0 then 30 else parsed.Days,
    Limit := if parsed.Limit ≤ 0 then 30 else parsed.Limit,
    Types := if parsed.Types.length = 0 then ["public"] else parsed.Types,
    Verbose := parsed.Verbose, Keyword := parsed.Keyword }

/-! ## SaveSkipList, SaveConfig -/

/-- The statement `delete(m, k)`. -/
def GoMap.delete (m : GoMap) (k : String) : GoMap :=
  m.filter fun entry => decide (entry.1 ≠ k)

/-- The function `SaveSkipList` on a disk in state `d`: the returned error and the disk
afterwards.  `MarshalIndent` is `json.MarshalIndent` of a `[]string` and `WriteFile` is
`os.WriteFile`, library calls taken as parameters.  The order in which a Go map is
ranged over is not specified; the model takes the entries in their order. -/
def SaveSkipList {δ : Type} (MarshalIndent : List String → Except GoError String)
    (WriteFile : δ → String → String → Option GoError × δ) (path : String)
    (skipList : GoMap) (d : δ) : Option GoError × δ :=
  let list := skipList.keys
  match MarshalIndent list with
  | .error err => (some (.wrapped ("failed to marshal skip list: " ++ err.Error) err), d)
  | .ok data => WriteFile d path data

/-- The function `config.SaveConfig` on a disk in state `d`. -/
def SaveConfig {δ : Type} (MarshalIndent : AppConfig → Except GoError String)
    (WriteFile : δ → String → String → Option GoError × δ) (path : String)
    (config : AppConfig) (d : δ) : Option GoError × δ :=
  match MarshalIndent config with
  | .error err => (some (.wrapped ("failed to marshal config: " ++ err.Error) err), d)
  | .ok data => WriteFile d path data

/-- The function `config.GetConfigPath`. -/
def GetConfigPath : String := "config/app.json"

/-! ## model: the terminal interface

The state of the interface and its `Update` function.  Styles and the text drawn around
the lists are left out; of `View` the model keeps the list lookups and slices, which can
fail.  A function that can stop with a run-time panic returns an `Option`, `none` for
the panic.  Go `int` values are integers: the quantities here are list lengths and
cursors next to them, far from the ends of the `int` range.  A Go string is taken as its
sequence of characters, the length of a pressed key being its length in bytes. -/

/-- An index expression `l[i]`: `none` when the index is out of range. -/
def goIndex {α : Type} (l : List α) (i : Int) : Option α :=
  if 0 ≤ i ∧ i < l.length then l[i.toNat]? else none

/-- A slice expression `l[low:high]` with `high` up to the length: `none` when the
bounds are out of range. -/
def goSlice {α : Type} (l : List α) (low high : Int) : Option (List α) :=
  if 0 ≤ low ∧ low ≤ high ∧ high ≤ l.length then
    some ((l.drop low.toNat).take (high - low).toNat)
  else none

/-- The pieces of `s` between the occurrences of the character `sep`. -/
def splitChars (sep : Char) : List Char → List (List Char)
  | [] => [[]]
  | ch :: rest =>
    if ch = sep then [] :: splitChars sep rest
    else
      match splitChars sep rest with
      | [] => [[ch]]
      | piece :: pieces => (ch :: piece) :: pieces

/-- The call `strings.Split(s, sep)` for a separator of one character. -/
def stringsSplit (s : String) (sep : Char) : List String :=
  (splitChars sep s.data).map String.mk

/-- The type `AppState`. -/
inductive AppState where
  | MainMenu
  | ConfigScreen
  | FilterScreen
  | ResultsScreen
  | ConfirmationScreen
  | SkipListScreen
  | LoadingScreen
deriving DecidableEq, Repr

/-- The struct `model`, without its styles.  The set `selected` (a `map[int]struct{}`)
is the list of its keys and `config` (a pointer) is the configuration it points to. -/
structure model where
  state : AppState
  width : Int
  height : Int
  cursor : Int
  choices : List String
  config : AppConfig
  channels : List ChannelInfo
  selected : List Int
  resultsOffset : Int
  useSimpleView : Bool
  skipList : GoMap
  skipCursor : Int
  skipChoices : List String
  skipListOffset : Int
  skipListMode : String
  skipListInput : String
  configMode : String
  configCursor : Int
  configInput : String
  editingField : String
  loadingMsg : String
  err : Option GoError
deriving DecidableEq, Repr

/-- The messages `Update` receives; a key press is given by `msg.String()`. -/
inductive Msg where
  | KeyMsg (key : String)
  | WindowSizeMsg (Width Height : Int)
  | errorMsg (err : GoError)
  | channelsLoadedMsg (channels : List ChannelInfo)
  | channelsLeftMsg
  | otherMsg
deriving DecidableEq, Repr

/-- The commands `Update` returns: nothing, `tea.Quit`, the search for stale channels
(`GetFilteredChannels` with the configuration), the leaving of the chosen channels. -/
inductive Cmd where
  | none
  | Quit
  | searchChannels (config : AppConfig)
  | leaveChannels (config : AppConfig) (selectedChannels : List ChannelInfo)
deriving DecidableEq, Repr

/-- The library and system calls the interface makes, over disk states `δ`:
`os.ReadFile`, `os.WriteFile`, `json.Unmarshal` and `json.MarshalIndent` for the skip list
and for the configuration, and `strconv.Atoi` (`none` for an error). -/
structure Env (δ : Type) where
  ReadFile : δ → String → Except GoError String
  WriteFile : δ → String → String → Option GoError × δ
  UnmarshalNames : String → Except GoError (List String)
  MarshalNames : List String → Except GoError String
  UnmarshalConfig : String → Except GoError AppConfig
  MarshalConfig : AppConfig → Except GoError String
  Atoi : String → Option Int

/-- The function `InitialModel`. -/
def InitialModel {δ : Type} (env : Env δ) (d : δ) : model :=
  let appConfig :=
    match LoadConfig (env.ReadFile d) env.UnmarshalConfig GetConfigPath with
    | (some appConfig, none) => appConfig
    | _ => DefaultConfig
  { state := .MainMenu, width := 80, height := 24, cursor := 0,
    choices := ["🔍 Find Stale Channels", "⚙️  Configuration", "📝 Edit Skip List",
      "🚪 Leave Channels", "❌ Exit"],
    config := appConfig, channels := [], selected := [], resultsOffset := 0,
    useSimpleView := false, skipList := [], skipCursor := 0, skipChoices := [],
    skipListOffset := 0, skipListMode := "", skipListInput := "", configMode := "view",
    configCursor := 0, configInput := "", editingField := "", loadingMsg := "", err := none }

/-- The method `model.loadSkipList`.  The choices are ranged out of the map, in the
order of its entries. -/
def loadSkipList {δ : Type} (env : Env δ) (m : model) (d : δ) : model × δ × Cmd :=
  match LoadSkipList (env.ReadFile d) env.UnmarshalNames "config/skiplist.json" with
  | (_, some err) => ({ m with err := some err }, d, .none)
  | (skipList, none) =>
    ({ m with skipList := skipList, skipChoices := skipList.keys, skipCursor := 0,
              skipListOffset := 0, skipListMode := "view", skipListInput := "",
              state := .SkipListScreen }, d, .none)

/-- The method `model.loadChannels`. -/
def loadChannels (m : model) : model × Cmd :=
  ({ m with state := .LoadingScreen, loadingMsg := "Loading channels..." },
    .searchChannels m.config)

/-- The method `model.startChannelSearch`. -/
def startChannelSearch (m : model) : model × Cmd :=
  ({ m with state := .LoadingScreen, loadingMsg := "Searching for stale channels..." },
    .searchChannels m.config)

/-- The loop `for i := range m.selected` of `leaveSelectedChannels`, with
`selectedChannels` what has been appended so far: `none` when `m.channels[i]` panics. -/
def collectSelected (channels : List ChannelInfo) :
    List Int → List ChannelInfo → Option (List ChannelInfo)
  | [], selectedChannels => some selectedChannels
  | i :: rest, selectedChannels =>
    if i < channels.length then
      match goIndex channels i with
      | none => none
      | some ch => collectSelected channels rest (selectedChannels ++ [ch])
    else collectSelected channels rest selectedChannels

/-- The method `model.leaveSelectedChannels`. -/
def leaveSelectedChannels (m : model) : Option (model × Cmd) :=
  match collectSelected m.channels m.selected [] with
  | none => none
  | some selectedChannels =>
    some ({ m with state := .LoadingScreen, loadingMsg := "Leaving selected channels..." },
      .leaveChannels m.config selectedChannels)

/-- The method `model.handleMenuSelection`. -/
def handleMenuSelection {δ : Type} (env : Env δ) (m : model) (d : δ) : model × δ × Cmd :=
  if m.cursor = 0 then ({ m with state := .FilterScreen }, d, .none)
  else if m.cursor = 1 then ({ m with state := .ConfigScreen }, d, .none)
  else if m.cursor = 2 then loadSkipList env m d
  else if m.cursor = 3 then ((loadChannels m).1, d, (loadChannels m).2)
  else if m.cursor = 4 then (m, d, .Quit)
  else (m, d, .none)

/-- The method `model.handleMainMenu`. -/
def handleMainMenu {δ : Type} (env : Env δ) (m : model) (d : δ) (key : String) :
    model × δ × Cmd :=
  if key = "ctrl+c" ∨ key = "q" then (m, d, .Quit)
  else if key = "up" ∨ key = "k" then
    (if m.cursor > 0 then { m with cursor := m.cursor - 1 } else m, d, .none)
  else if key = "down" ∨ key = "j" then
    (if m.cursor < (m.choices.length : Int) - 1 then { m with cursor := m.cursor + 1 } else m,
      d, .none)
  else if key = "enter" then handleMenuSelection env m d
  else (m, d, .none)

/-- The method `model.handleConfigView`. -/
def handleConfigView (m : model) (key : String) : model :=
  if key = "ctrl+c" ∨ key = "q" then { m with state := .MainMenu }
  else if key = "e" then { m with configMode := "edit", configCursor := 0 }
  else if key = "enter" then { m with state := .MainMenu }
  else m

/-- The method `model.startConfigFieldEdit`. -/
def startConfigFieldEdit (m : model) : model :=
  if m.configCursor = 0 then
    { m with editingField := "days", configInput := toString m.config.Days }
  else if m.configCursor = 1 then
    { m with editingField := "limit", configInput := toString m.config.Limit }
  else if m.configCursor = 2 then
    { m with editingField := "types", configInput := String.intercalate "," m.config.Types }
  else if m.configCursor = 3 then
    { m with editingField := "verbose",
             configInput := if m.config.Verbose then "true" else "false" }
  else if m.configCursor = 4 then
    { m with editingField := "keyword", configInput := m.config.Keyword }
  else m

/-- The method `model.handleConfigEdit`. -/
def handleConfigEdit {δ : Type} (env : Env δ) (m : model) (d : δ) (key : String) :
    model × δ :=
  if key = "ctrl+c" ∨ key = "q" then
    ({ m with configMode := "view", configInput := "", editingField := "" }, d)
  else if key = "up" ∨ key = "k" then
    (if m.configCursor > 0 then { m with configCursor := m.configCursor - 1 } else m, d)
  else if key = "down" ∨ key = "j" then
    (if m.configCursor < 4 then { m with configCursor := m.configCursor + 1 } else m, d)
  else if key = "enter" then (startConfigFieldEdit m, d)
  else if key = "s" then
    match SaveConfig env.MarshalConfig env.WriteFile GetConfigPath m.config d with
    | (some err, d1) => ({ m with err := some err, configMode := "view" }, d1)
    | (none, d1) => ({ m with configMode := "view" }, d1)
  else (m, d)

/-- The loop over the pieces of the input in the case "types" of `saveConfigField`,
with `validTypes` what has been appended so far. -/
def validTypesLoop : List String → List String → List String
  | [], validTypes => validTypes
  | t :: rest, validTypes =>
    let t := stringsTrimSpace t
    if t = "public" ∨ t = "private" then validTypesLoop rest (validTypes ++ [t])
    else validTypesLoop rest validTypes

/-- The statement `switch m.editingField` of `saveConfigField`.  `Atoi` is
`strconv.Atoi`, `none` for an error. -/
def saveConfigFieldSwitch (Atoi : String → Option Int) (m : model) : model :=
  if m.editingField = "days" then
    match Atoi m.configInput with
    | some days => if days > 0 then { m with config := { m.config with Days := days } } else m
    | none => m
  else if m.editingField = "limit" then
    match Atoi m.configInput with
    | some limit =>
      if limit > 0 then { m with config := { m.config with Limit := limit } } else m
    | none => m
  else if m.editingField = "types" then
    if (validTypesLoop (stringsSplit m.configInput ',') []).length > 0 then
      { m with config :=
          { m.config with Types := validTypesLoop (stringsSplit m.configInput ',') [] } }
    else m
  else if m.editingField = "verbose" then
    if m.configInput = "true" then { m with config := { m.config with Verbose := true } }
    else if m.configInput = "false" then
      { m with config := { m.config with Verbose := false } }
    else m
  else if m.editingField = "keyword" then
    { m with config := { m.config with Keyword := m.configInput } }
  else m

/-- The method `model.saveConfigField`: the switch, then the two fields cleared. -/
def saveConfigField (Atoi : String → Option Int) (m : model) : model :=
  { saveConfigFieldSwitch Atoi m with editingField := "", configInput := "" }

/-- The method `model.handleConfigFieldEdit`.  On "backspace" the source drops the last
byte of `configInput` and this definition its last character: the two agree when that
character takes one byte, as every character typed in does (only keys of one byte are
appended); a value whose last character takes several bytes loses one byte in the source
and is then no valid UTF-8 string, which a `String` here cannot hold. -/
def handleConfigFieldEdit (Atoi : String → Option Int) (m : model) (key : String) : model :=
  if key = "ctrl+c" ∨ key = "q" then { m with editingField := "", configInput := "" }
  else if key = "enter" then saveConfigField Atoi m
  else if key = "backspace" then
    if m.configInput.length > 0 then
      { m with configInput := String.mk m.configInput.data.dropLast }
    else m
  else if key.utf8ByteSize = 1 then { m with configInput := m.configInput ++ key }
  else m

/-- The method `model.handleConfigScreen`. -/
def handleConfigScreen {δ : Type} (env : Env δ) (m : model) (d : δ) (key : String) :
    model × δ :=
  if m.editingField ≠ "" then (handleConfigFieldEdit env.Atoi m key, d)
  else if m.configMode = "view" then (handleConfigView m key, d)
  else if m.configMode = "edit" then handleConfigEdit env m d key
  else (m, d)

/-- The method `model.handleFilterScreen`. -/
def handleFilterScreen (m : model) (key : String) : model × Cmd :=
  if key = "ctrl+c" ∨ key = "q" then ({ m with state := .MainMenu }, .none)
  else if key = "enter" then startChannelSearch m
  else (m, .none)

/-- The method `model.handleResultsScreen`. -/
def handleResultsScreen (m : model) (key : String) : model :=
  if key = "ctrl+c" ∨ key = "q" then { m with state := .MainMenu }
  else if key = "up" ∨ key = "k" then
    let m := if m.cursor > 0 then { m with cursor := m.cursor - 1 } else m
    if m.cursor < m.resultsOffset then { m with resultsOffset := m.cursor } else m
  else if key = "down" ∨ key = "j" then
    let m := if m.cursor < (m.channels.length : Int) - 1 then { m with cursor := m.cursor + 1 }
      else m
    if m.cursor ≥ m.resultsOffset + 12 then { m with resultsOffset := m.cursor - 11 } else m
  else if key = " " then
    if m.cursor ∈ m.selected then { m with selected := m.selected.erase m.cursor }
    else { m with selected := m.selected ++ [m.cursor] }
  else if key = "enter" then
    if m.selected.length > 0 then { m with state := .ConfirmationScreen } else m
  else if key = "pageup" ∨ key = "b" then
    if m.cursor ≥ 12 then
      if m.resultsOffset ≥ 12 then
        { m with cursor := m.cursor - 12, resultsOffset := m.resultsOffset - 12 }
      else { m with cursor := m.cursor - 12, resultsOffset := 0 }
    else { m with cursor := 0, resultsOffset := 0 }
  else if key = "pagedown" ∨ key = "f" then
    if m.cursor + 12 < m.channels.length then
      { m with cursor := m.cursor + 12, resultsOffset := m.resultsOffset + 12 }
    else
      let m := { m with cursor := (m.channels.length : Int) - 1 }
      if m.channels.length > 12 then { m with resultsOffset := (m.channels.length : Int) - 12 }
      else m
  else if key = "home" ∨ key = "g" then { m with cursor := 0, resultsOffset := 0 }
  else if key = "end" ∨ key = "G" then
    let m := { m with cursor := (m.channels.length : Int) - 1 }
    if m.channels.length > 12 then { m with resultsOffset := (m.channels.length : Int) - 12 }
    else m
  else if key = "t" then { m with useSimpleView := !m.useSimpleView }
  else m

/-- The method `model.handleConfirmationScreen`. -/
def handleConfirmationScreen (m : model) (key : String) : Option (model × Cmd) :=
  if key = "ctrl+c" ∨ key = "q" then some ({ m with state := .ResultsScreen }, .none)
  else if key = "y" ∨ key = "Y" then leaveSelectedChannels m
  else if key = "n" ∨ key = "N" then some ({ m with state := .ResultsScreen }, .none)
  else some (m, .none)

/-- The method `model.handleSkipListView`. -/
def handleSkipListView (m : model) (key : String) : model :=
  if key = "ctrl+c" ∨ key = "q" then { m with state := .MainMenu }
  else if key = "up" ∨ key = "k" then
    let m := if m.skipCursor > 0 then { m with skipCursor := m.skipCursor - 1 } else m
    if m.skipCursor < m.skipListOffset then { m with skipListOffset := m.skipCursor } else m
  else if key = "down" ∨ key = "j" then
    let m := if m.skipCursor < (m.skipChoices.length : Int) - 1 then
      { m with skipCursor := m.skipCursor + 1 } else m
    if m.skipCursor ≥ m.skipListOffset + 10 then { m with skipListOffset := m.skipCursor - 9 }
    else m
  else if key = "a" then { m with skipListMode := "add" }
  else if key = "d" then
    if m.skipChoices.length > 0 then { m with skipListMode := "remove" } else m
  else if key = "enter" then { m with state := .MainMenu }
  else m

/-- The method `model.handleSkipListAdd`.  On "backspace" the source drops the last byte
of `skipListInput` and this definition its last character; the input starts empty and
grows only by keys of one byte, so the two agree. -/
def handleSkipListAdd {δ : Type} (env : Env δ) (m : model) (d : δ) (key : String) :
    model × δ :=
  if key = "ctrl+c" ∨ key = "q" then ({ m with skipListMode := "view", skipListInput := "" }, d)
  else if key = "enter" then
    if m.skipListInput ≠ "" then
      let m := { m with skipList := m.skipList.set m.skipListInput true,
                        skipChoices := m.skipChoices ++ [m.skipListInput] }
      match SaveSkipList env.MarshalNames env.WriteFile "config/skiplist.json" m.skipList d with
      | (some err, d1) =>
        ({ m with err := some err, skipListMode := "view", skipListInput := "" }, d1)
      | (none, d1) => ({ m with skipListMode := "view", skipListInput := "" }, d1)
    else ({ m with skipListMode := "view", skipListInput := "" }, d)
  else if key = "backspace" then
    (if m.skipListInput.length > 0 then
      { m with skipListInput := String.mk m.skipListInput.data.dropLast }
     else m, d)
  else if key.utf8ByteSize = 1 then ({ m with skipListInput := m.skipListInput ++ key }, d)
  else (m, d)

/-- The method `model.handleSkipListRemove`. -/
def handleSkipListRemove {δ : Type} (env : Env δ) (m : model) (d : δ) (key : String) :
    Option (model × δ) :=
  if key = "ctrl+c" ∨ key = "q" then some ({ m with skipListMode := "view" }, d)
  else if key = "up" ∨ key = "k" then
    some (if m.skipCursor > 0 then { m with skipCursor := m.skipCursor - 1 } else m, d)
  else if key = "down" ∨ key = "j" then
    some (if m.skipCursor < (m.skipChoices.length : Int) - 1 then
      { m with skipCursor := m.skipCursor + 1 } else m, d)
  else if key = "enter" then
    if m.skipChoices.length > 0 ∧ m.skipCursor < m.skipChoices.length then
      match goIndex m.skipChoices m.skipCursor with
      | none => none
      | some channelToRemove =>
        let m := { m with skipList := m.skipList.delete channelToRemove,
                          skipChoices := m.skipChoices.eraseIdx m.skipCursor.toNat }
        let m := if m.skipCursor ≥ m.skipChoices.length ∧ m.skipChoices.length > 0 then
          { m with skipCursor := (m.skipChoices.length : Int) - 1 } else m
        match SaveSkipList env.MarshalNames env.WriteFile "config/skiplist.json" m.skipList d with
        | (some err, d1) => some ({ m with err := some err, skipListMode := "view" }, d1)
        | (none, d1) => some ({ m with skipListMode := "view" }, d1)
    else some ({ m with skipListMode := "view" }, d)
  else some (m, d)

/-- The method `model.handleSkipListScreen`. -/
def handleSkipListScreen {δ : Type} (env : Env δ) (m : model) (d : δ) (key : String) :
    Option (model × δ) :=
  if m.skipListMode = "view" then some (handleSkipListView m key, d)
  else if m.skipListMode = "add" then some (handleSkipListAdd env m d key)
  else if m.skipListMode = "remove" then handleSkipListRemove env m d key
  else some (m, d)

/-- The method `model.handleKeyPress`. -/
def handleKeyPress {δ : Type} (env : Env δ) (m : model) (d : δ) (key : String) :
    Option (model × δ × Cmd) :=
  match m.state with
  | .MainMenu => some (handleMainMenu env m d key)
  | .ConfigScreen =>
    some ((handleConfigScreen env m d key).1, (handleConfigScreen env m d key).2, .none)
  | .FilterScreen => some ((handleFilterScreen m key).1, d, (handleFilterScreen m key).2)
  | .ResultsScreen => some (handleResultsScreen m key, d, .none)
  | .ConfirmationScreen =>
    (handleConfirmationScreen m key).map fun r => (r.1, d, r.2)
  | .SkipListScreen => (handleSkipListScreen env m d key).map fun r => (r.1, r.2, .none)
  | .LoadingScreen => some (m, d, .none)

/-- The method `model.Update`: the new model, the disk afterwards and the command. -/
def Update {δ : Type} (env : Env δ) (m : model) (d : δ) (msg : Msg) :
    Option (model × δ × Cmd) :=
  match msg with
  | .KeyMsg key => handleKeyPress env m d key
  | .WindowSizeMsg Width Height => some ({ m with width := Width, height := Height }, d, .none)
  | .errorMsg err => some ({ m with err := some err }, d, .none)
  | .channelsLoadedMsg channels =>
    some ({ m with channels := channels, resultsOffset := 0, cursor := 0,
                   state := .ResultsScreen }, d, .none)
  | .channelsLeftMsg => some ({ m with state := .MainMenu }, d, .none)
  | .otherMsg => some (m, d, .none)

/-- The model and disk after a sequence of messages, commands dropped; `none` when an
`Update` panics. -/
def runUpdates {δ : Type} (env : Env δ) : model → δ → List Msg → Option (model × δ)
  | m, d, [] => some (m, d)
  | m, d, msg :: rest =>
    match Update env m d msg with
    | none => none
    | some (m1, d1, _) => runUpdates env m1 d1 rest

/-- The loop `for i := range m.selected` of `renderConfirmationScreen`, with
`selectedChannels` what has been appended so far: `none` when `m.channels[i]` panics. -/
def collectSelectedNames (channels : List ChannelInfo) :
    List Int → List String → Option (List String)
  | [], selectedChannels => some selectedChannels
  | i :: rest, selectedChannels =>
    if i < channels.length then
      match goIndex channels i with
      | none => none
      | some ch => collectSelectedNames channels rest (selectedChannels ++ ["#" ++ ch.Name])
    else collectSelectedNames channels rest selectedChannels

/-- The method `model.renderConfirmationScreen`: the names it lists. -/
def renderConfirmationScreen (m : model) : Option (List String) :=
  collectSelectedNames m.channels m.selected []

/-- The method `model.renderResultsScreen`: the channels of the page it shows. -/
def renderResultsScreen (m : model) : Option (List ChannelInfo) :=
  if m.channels.length = 0 then some []
  else
    let start := m.resultsOffset
    let «end» := start + 12
    let «end» := if «end» > m.channels.length then (m.channels.length : Int) else «end»
    goSlice m.channels start «end»

/-- The method `model.renderSkipListView`: the choices of the page it shows. -/
def renderSkipListView (m : model) : Option (List String) :=
  if m.skipChoices.length = 0 then some []
  else
    let start := m.skipListOffset
    let «end» := start + 10
    let «end» := if «end» > m.skipChoices.length then (m.skipChoices.length : Int) else «end»
    goSlice m.skipChoices start «end»

/-- The method `model.renderSkipListRemove`: the choices of the page it shows. -/
def renderSkipListRemove (m : model) : Option (List String) :=
  if m.skipChoices.length = 0 then some []
  else
    let start := m.skipListOffset
    let «end» := start + 10
    let «end» := if «end» > m.skipChoices.length then (m.skipChoices.length : Int) else «end»
    goSlice m.skipChoices start «end»

/-- An environment without files: reading fails, writing succeeds and changes nothing. -/
def noFilesEnv : Env Unit where
  ReadFile := fun _ _ => .error (.other "no such file or directory")
  WriteFile := fun d _ _ => (none, d)
  UnmarshalNames := fun _ => .ok []
  MarshalNames := fun _ => .ok ""
  UnmarshalConfig := fun _ => .ok DefaultConfig
  MarshalConfig := fun _ => .ok ""
  Atoi := fun s => s.toInt?

/-- Twelve channel names. -/
def twelveNames : List String :=
  ["c01", "c02", "c03", "c04", "c05", "c06", "c07", "c08", "c09", "c10", "c11", "c12"]

/-- An environment whose skip-list file holds twelve names and that has no configuration
file; writing succeeds and changes nothing. -/
def twelveNamesEnv : Env Unit where
  ReadFile := fun _ path =>
    if path = "config/skiplist.json" then .ok "names"
    else .error (.other "no such file or directory")
  WriteFile := fun d _ _ => (none, d)
  UnmarshalNames := fun _ => .ok twelveNames
  MarshalNames := fun _ => .ok ""
  UnmarshalConfig := fun _ => .ok DefaultConfig
  MarshalConfig := fun _ => .ok ""
  Atoi := fun s => s.toInt?

/-- The keys of a search that finds nothing, followed by "G", space and enter on the
empty results screen. -/
def emptyResultsKeys : List Msg :=
  [.KeyMsg "enter", .KeyMsg "enter", .channelsLoadedMsg [],
   .KeyMsg "G", .KeyMsg " ", .KeyMsg "enter"]

/-- The keys that open the skip list, move the cursor down to the twelfth name, and then
remove eleven names, one "d" and one enter each. -/
def removeElevenKeys : List Msg :=
  [.KeyMsg "down", .KeyMsg "down", .KeyMsg "enter"]
    ++ List.replicate 11 (.KeyMsg "down")
    ++ (List.replicate 11 [Msg.KeyMsg "d", Msg.KeyMsg "enter"]).flatten

/-- The interface after `emptyResultsKeys`, started without files. -/
def emptyResultsRun : Option (model × Unit) :=
  runUpdates noFilesEnv (InitialModel noFilesEnv ()) () emptyResultsKeys

/-- The interface after `removeElevenKeys`, started with twelve names in the skip list. -/
def removeElevenRun : Option (model × Unit) :=
  runUpdates twelveNamesEnv (InitialModel twelveNamesEnv ()) () removeElevenKeys

/-- The cursor and offset of the results screen are in step with the list: the offset is
not negative, the cursor is a valid index, and the cursor lies in the twelve rows that
start at the offset. -/
def resultsInvariant (m : model) : Prop :=
  0 ≤ m.resultsOffset ∧ m.resultsOffset ≤ m.cursor ∧ m.cursor < m.channels.length ∧
    m.cursor < m.resultsOffset + 12

/-! ## The probe goroutines of GetFilteredChannels and their semaphore

`GetFilteredChannels` starts one goroutine per channel that passes the checks.  Each
sends into the channel `semaphore` (made with capacity 5) before it probes and receives
from it, by a deferred call, when it returns.  The interleavings of these goroutines are
the runs of the step function below; a send into a full buffered channel blocks, so the
step is not enabled. -/

/-- Where a probe goroutine stands: started and not yet past `semaphore <- struct{}{}`,
past it and probing, or past its deferred `<-semaphore`. -/
inductive ProbePhase where
  | waiting
  | probing
  | finished
deriving DecidableEq, Repr

/-- The goroutines started so far by a run of `GetFilteredChannels`, and the number of
values the channel `semaphore` holds. -/
structure ProbePool where
  goroutines : List ProbePhase
  semaphore : Nat
deriving DecidableEq, Repr

/-- The steps of the pool: the loop starts a goroutine (`go func`), goroutine `i` sends
into the semaphore, goroutine `i` receives from it on return. -/
inductive PoolAction where
  | start
  | send (i : Nat)
  | receive (i : Nat)
deriving DecidableEq, Repr

/-- One step of the pool; `none` when the step is not enabled. -/
def ProbePool.step (p : ProbePool) : PoolAction → Option ProbePool
  | .start => some { p with goroutines := p.goroutines ++ [.waiting] }
  | .send i =>
    if p.goroutines[i]? = some .waiting ∧ p.semaphore < 5 then
      some { goroutines := p.goroutines.set i .probing, semaphore := p.semaphore + 1 }
    else none
  | .receive i =>
    if p.goroutines[i]? = some .probing ∧ 0 < p.semaphore then
      some { goroutines := p.goroutines.set i .finished, semaphore := p.semaphore - 1 }
    else none

/-- The pool after a sequence of steps; `none` when one of them is not enabled. -/
def ProbePool.run : ProbePool → List PoolAction → Option ProbePool
  | p, [] => some p
  | p, a :: rest =>
    match p.step a with
    | none => none
    | some p1 => ProbePool.run p1 rest

/-- The number of probes in flight. -/
def ProbePool.inFlight (p : ProbePool) : Nat := p.goroutines.count .probing

/-- A disk holding at most one file: its content, if written. -/
def oneFileEnvWrite (_d : Option String) (_path data : String) :
    Option GoError × Option String :=
  (none, some data)

/-- Reading the disk of `oneFileEnvWrite`. -/
def oneFileEnvRead (d : Option String) (_path : String) : Except GoError String :=
  match d with
  | some data => .ok data
  | none => .error (.other "no such file or directory")

/-- A skip map with two names. -/
def twoNameSkipList : GoMap := [("general", true), ("random", true)]

/-- A history whose most recent message carries the timestamp "1e30", a number of
seconds that `int64` cannot hold. -/
def historyAtHugeTimestamp (_p : GetConversationHistoryParameters) : HistoryAnswer :=
  { history := some { Messages := [{ Timestamp := "1e30" }] }, err := none }

/-- The point of the walk of `GetFilteredChannels` reached from the API state `s`, the
cursor `cursor` and the results `results` after `k` listing requests none of which ends
the walk: each either fails and is retried by `handleRateLimit` (same cursor, same
results), or succeeds with a cursor to a next page, whose channels are processed.  It is
`none` when one of the `k` requests ends the walk. -/
def walkAfter {σ : Type} (api : API σ) (c : Cleaner) (ParseFloat : String → Option Float64) :
    Nat → σ → String → List ChannelInfo → Option (σ × String × List ChannelInfo)
  | 0, s, cursor, results => some (s, cursor, results)
  | k + 1, s, cursor, results =>
    match api.GetConversations s (listingParams c cursor) with
    | (ans, s1) =>
      match ans.err with
      | some err =>
        match (handleRateLimit c err).1 with
        | some _ => none
        | none => walkAfter api c ParseFloat k s1 cursor results
      | none =>
        if ans.nextCursor = "" then none
        else
          walkAfter api c ParseFloat k
            (processChannels api c ParseFloat ans.channels s1 results).2.1 ans.nextCursor
            (processChannels api c ParseFloat ans.channels s1 results).1

/-- The listing requests among the events, in order. -/
def listingRequests : List Event → List GetConversationsParameters
  | [] => []
  | .GetConversations p :: evs => p :: listingRequests evs
  | _ :: evs => listingRequests evs

/-! ## GetFilteredChannels as goroutines

The source starts one goroutine per probe (`go func(ch slack.Channel)`) and waits for
them only at the end of the walk (`wg.Wait()`).  The probes started in one iteration of
the outer loop share that iteration's variable `err` (`var err error`): each assigns it
with `history, err = c.API.GetConversationHistory(...)` and tests it with `err != nil`,
without synchronization.  Here the function is a set of threads stepping under a
schedule.  A step is a stretch of one goroutine's code run without interruption, so
every run of this model is a run of the program. -/

/-- Where the goroutine of a probe stands: before `semaphore <- struct{}{}`; holding a
slot and about to evaluate `attempt < 2` and send the request of that attempt; having
assigned `history, err` and about to test `err != nil`; past the loop; returned (slot
released, `wg.Done()` called). -/
inductive ProbePc where
  | acquire
  | request (attempt : Nat)
  | test (attempt : Nat)
  | afterLoop
  | returned
deriving DecidableEq, Repr

/-- A probe goroutine: its argument `ch`, the iteration of the outer loop that started it
(the index of the variable `err` it shares), where it stands, and its local variable
`history`. -/
structure Probe where
  ch : Channel
  page : Nat
  pc : ProbePc
  history : Option GetConversationHistoryResponse
deriving DecidableEq, Repr

/-- Where the goroutine that called `GetFilteredChannels` stands: about to send the
listing request for a cursor, at `wg.Wait()`, or returned with the two Go results. -/
inductive MainPc where
  | listing (cursor : String)
  | wait
  | returned (results : List ChannelInfo) (err : Option GoError)
deriving DecidableEq, Repr

/-- The state of a run of `GetFilteredChannels`: the API state, the calling goroutine,
the variables `err` of the iterations of the outer loop begun so far, the probes started
so far, the shared slice `results`, and the events performed so far. -/
structure Goroutines (σ : Type) where
  api : σ
  main : MainPc
  errs : List (Option GoError)
  probes : List Probe
  results : List ChannelInfo
  events : List Event

/-- The loop `for _, ch := range channels` of the iteration `page`: the probes it
starts. -/
def startProbes (c : Cleaner) (page : Nat) : List Channel → List Probe
  | [] => []
  | ch :: rest =>
    if !ch.IsMember || c.SkipChannels.get ch.Name then startProbes c page rest
    else if c.Keyword != "" && !stringsContains ch.Name c.Keyword then
      startProbes c page rest
    else { ch := ch, page := page, pc := .acquire, history := none } :: startProbes c page rest

/-- Whether a probe holds a slot of the semaphore. -/
def Probe.holdsSlot (p : Probe) : Bool :=
  match p.pc with
  | .acquire => false
  | .returned => false
  | _ => true

/-- One step of the calling goroutine; `none` when it cannot step.  At `listing` it
sends the request, assigns `err`, and either returns the error, or sleeps and retries,
or starts the probes of the page and moves on (to the next iteration, with a fresh
`err`, or to `wg.Wait()`).  At `wait` it returns once every probe has returned. -/
def stepMain {σ : Type} (api : API σ) (c : Cleaner) (g : Goroutines σ) :
    Option (Goroutines σ) :=
  match g.main with
  | .listing cursor =>
    match api.GetConversations g.api (listingParams c cursor) with
    | (ans, s1) =>
      match ans.err with
      | some err =>
        match handleRateLimit c err with
        | (some rateErr, evs) =>
          some { g with
            api := s1, main := .returned [] (some rateErr),
            errs := g.errs.set (g.errs.length - 1) (some err),
            events := g.events ++ .GetConversations (listingParams c cursor) :: evs }
        | (none, evs) =>
          some { g with
            api := s1, main := .listing cursor,
            errs := g.errs.set (g.errs.length - 1) (some err),
            events := g.events ++ .GetConversations (listingParams c cursor) :: evs }
      | none =>
        some { g with
          api := s1,
          main := if ans.nextCursor = "" then .wait else .listing ans.nextCursor,
          errs :=
            if ans.nextCursor = "" then g.errs.set (g.errs.length - 1) none
            else g.errs.set (g.errs.length - 1) none ++ [none],
          probes := g.probes ++ startProbes c (g.errs.length - 1) ans.channels,
          events := g.events ++ [.GetConversations (listingParams c cursor)] }
  | .wait =>
    if g.probes.all (fun p => p.pc = .returned) then
      some { g with main := .returned g.results none }
    else none
  | .returned _ _ => none

/-- One step of the probe `i`; `none` when it cannot step.  The step at `test` reads the
variable `err` of the probe's iteration as it is at that moment. -/
def stepProbe {σ : Type} (api : API σ) (c : Cleaner) (ParseFloat : String → Option Float64)
    (i : Nat) (g : Goroutines σ) : Option (Goroutines σ) :=
  match g.probes[i]? with
  | none => none
  | some p =>
    match p.pc with
    | .acquire =>
      if (g.probes.filter Probe.holdsSlot).length < 5 then
        some { g with probes := g.probes.set i { p with pc := .request 0 } }
      else none
    | .request attempt =>
      if attempt < 2 then
        match api.GetConversationHistory g.api { ChannelID := p.ch.ID, Limit := 1 } with
        | (ans, s1) =>
          some { g with
            api := s1,
            errs := g.errs.set p.page ans.err,
            probes := g.probes.set i { p with pc := .test attempt, history := ans.history },
            events := g.events ++ [.GetConversationHistory { ChannelID := p.ch.ID, Limit := 1 }] }
      else some { g with probes := g.probes.set i { p with pc := .afterLoop } }
    | .test attempt =>
      match g.errs[p.page]? with
      | none => none
      | some (some err) =>
        match handleRateLimit c err with
        | (some _, evs) =>
          some { g with
            probes := g.probes.set i { p with pc := .returned }, events := g.events ++ evs }
        | (none, evs) =>
          some { g with
            probes := g.probes.set i { p with pc := .request (attempt + 1) },
            events := g.events ++ evs }
      | some none => some { g with probes := g.probes.set i { p with pc := .afterLoop } }
    | .afterLoop =>
      match p.history with
      | none => some { g with probes := g.probes.set i { p with pc := .returned } }
      | some history =>
        match history.Messages with
        | [] => some { g with probes := g.probes.set i { p with pc := .returned } }
        | m :: _ =>
          match ParseFloat m.Timestamp with
          | none => some { g with probes := g.probes.set i { p with pc := .returned } }
          | some tsFloat =>
            if !Before (Unix (int64 tsFloat) 0) c.Cutoff then
              some { g with probes := g.probes.set i { p with pc := .returned } }
            else
              some { g with
                probes := g.probes.set i { p with pc := .returned },
                results := g.results ++
                  [{ ID := p.ch.ID, Name := p.ch.Name, LastSeen := Unix (int64 tsFloat) 0,
                     Type_ := if p.ch.IsPrivate then "private" else "public" }],
                events := g.events ++ [.Sleep (1 * Second)] }
    | .returned => none

/-- One step of thread `t`: thread 0 is the calling goroutine, thread `i + 1` the probe
`i` in the order the probes were started. -/
def stepThread {σ : Type} (api : API σ) (c : Cleaner) (ParseFloat : String → Option Float64)
    (t : Nat) (g : Goroutines σ) : Option (Goroutines σ) :=
  match t with
  | 0 => stepMain api c g
  | i + 1 => stepProbe api c ParseFloat i g

/-- The state after the threads step as the schedule says; `none` when a thread that
cannot step is scheduled. -/
def runSchedule {σ : Type} (api : API σ) (c : Cleaner) (ParseFloat : String → Option Float64) :
    List Nat → Goroutines σ → Option (Goroutines σ)
  | [], g => some g
  | t :: rest, g =>
    match stepThread api c ParseFloat t g with
    | none => none
    | some g1 => runSchedule api c ParseFloat rest g1

/-- The method `Cleaner.GetFilteredChannels` run under a schedule, from the API state
`s`. -/
def GetFilteredChannelsScheduled {σ : Type} (api : API σ) (c : Cleaner)
    (ParseFloat : String → Option Float64) (schedule : List Nat) (s : σ) :
    Option (Goroutines σ) :=
  runSchedule api c ParseFloat schedule
    { api := s, main := .listing "", errs := [none], probes := [], results := [], events := [] }

/-! # Properties -/

/-! ## handleRateLimit: classification and wait -/

theorem wrapInt64_of_range {x : Int} (h1 : -(2 ^ 63) ≤ x) (h2 : x < 2 ^ 63) :
    wrapInt64 x = x := by
  unfold wrapInt64
  rw [Int.emod_eq_of_lt (by omega) (by omega)]
  omega

theorem handleRateLimit_pass (c : Cleaner) (err : GoError)
    (h : isRateLimitFailure err = false) : handleRateLimit c err = (some err, []) := by
  cases err <;> simp_all [isRateLimitFailure, handleRateLimit]

theorem handleRateLimit_retry (c : Cleaner) (err : GoError)
    (h : isRateLimitFailure err = true) :
    ∃ d, handleRateLimit c err = (none, [.Sleep d]) := by
  cases err with
  | other msg => exact ⟨30 * Second, by simp_all [isRateLimitFailure, handleRateLimit]⟩
  | wrapped msg inner => exact ⟨30 * Second, by simp_all [isRateLimitFailure, handleRateLimit]⟩
  | rateLimited r msg =>
    unfold handleRateLimit
    split
    · exact ⟨_, rfl⟩
    · exact ⟨_, rfl⟩

/-- C9: an error that is neither an explicit rate-limit signal nor has a message
containing "rate_limited" is returned unchanged and nothing is slept; an error of one of
the two shapes makes `handleRateLimit` return nil. -/
theorem handleRateLimit_classifies (c : Cleaner) (err : GoError) :
    (isRateLimitFailure err = false → handleRateLimit c err = (some err, [])) ∧
    (isRateLimitFailure err = true → (handleRateLimit c err).1 = none) := by
  constructor
  · exact handleRateLimit_pass c err
  · intro h
    obtain ⟨d, hd⟩ := handleRateLimit_retry c err h
    rw [hd]

theorem handleRateLimit_classifies_witness :
    handleRateLimit exampleCleaner (.other "channel_not_found")
        = (some (.other "channel_not_found"), []) ∧
    (handleRateLimit exampleCleaner (.rateLimited 5 "slack rate limit exceeded")).1 = none ∧
    (handleRateLimit exampleCleaner (.other "rate_limited")).1 = none :=
  ⟨(handleRateLimit_classifies exampleCleaner _).1 (by decide),
   (handleRateLimit_classifies exampleCleaner _).2 (by decide),
   (handleRateLimit_classifies exampleCleaner _).2 (by decide)⟩

/-- What `handleRateLimit` computes from the `RetryAfter` field `r` of an explicit
rate-limit signal whose message does not contain "rate_limited": the product of the field
and `time.Second`, in `int64` arithmetic, when that product is positive, and 30 s
otherwise. -/
theorem handleRateLimit_wait (c : Cleaner) (r : Int) (msg : String)
    (hmsg : stringsContains msg "rate_limited" = false) :
    handleRateLimit c (.rateLimited r msg)
      = (none, [.Sleep (if 0 < wrapInt64 (r * Second) then wrapInt64 (r * Second)
                        else 30 * Second)]) ∧
    (0 < r → r ≤ 9223372036 →
      handleRateLimit c (.rateLimited r msg) = (none, [.Sleep (r * Second)])) := by
  have key : handleRateLimit c (.rateLimited r msg)
      = (none, [.Sleep (if 0 < wrapInt64 (r * Second) then wrapInt64 (r * Second)
                        else 30 * Second)]) := by
    simp only [handleRateLimit, GoError.Error, hmsg, Bool.false_eq_true, if_false]
    by_cases h : wrapInt64 (r * Second) ≤ 0
    · rw [if_pos h, if_neg (by omega)]
    · rw [if_neg h, if_pos (by omega)]
  refine ⟨key, fun h1 h2 => ?_⟩
  rw [key]
  have hw : wrapInt64 (r * Second) = r * Second :=
    wrapInt64_of_range (by unfold Second; omega) (by unfold Second; omega)
  rw [hw, if_pos (by unfold Second; omega)]

/-- C8, the code at the failing input.  The client library builds the signal for a
`Retry-After` header of `n` seconds with the field `RetryAfter` set to the duration
`n * time.Second`.  `handleRateLimit` multiplies the field by `time.Second` once more: for
a header of 5 s it sleeps 5000000000000000000 ns, and for a header of 10 s the product
wraps around to a negative number and the sleep is the 30 s fallback.  No floor `F` makes
both waits the larger of the retry-after duration and `F`. -/
theorem handleRateLimit_multiplies_duration_twice :
    handleRateLimit exampleCleaner
        (.rateLimited (5 * Second) "slack rate limit exceeded, retry after 5s")
      = (none, [.Sleep 5000000000000000000]) ∧
    handleRateLimit exampleCleaner
        (.rateLimited (10 * Second) "slack rate limit exceeded, retry after 10s")
      = (none, [.Sleep (30 * Second)]) ∧
    wrapInt64 (10 * Second * Second) = -8446744073709551616 ∧
    ¬ ∃ F : Int,
      handleRateLimit exampleCleaner
          (.rateLimited (5 * Second) "slack rate limit exceeded, retry after 5s")
        = (none, [.Sleep (max (5 * Second) F)]) ∧
      handleRateLimit exampleCleaner
          (.rateLimited (10 * Second) "slack rate limit exceeded, retry after 10s")
        = (none, [.Sleep (max (10 * Second) F)]) := by
  have h5 : handleRateLimit exampleCleaner
      (.rateLimited (5 * Second) "slack rate limit exceeded, retry after 5s")
      = (none, [.Sleep 5000000000000000000]) := by decide
  have h10 : handleRateLimit exampleCleaner
      (.rateLimited (10 * Second) "slack rate limit exceeded, retry after 10s")
      = (none, [.Sleep (30 * Second)]) := by decide
  refine ⟨h5, h10, by decide, ?_⟩
  rintro ⟨F, a, b⟩
  rw [h5] at a
  rw [h10] at b
  simp only [Prod.mk.injEq, List.cons.injEq, Event.Sleep.injEq, and_true, true_and,
    Second] at a b
  omega

/-! ## LoadSkipList: what is normalized -/

theorem GoMap.get_set (m : GoMap) (k k' : String) :
    GoMap.get (GoMap.set m k true) k' = (decide (k = k') || GoMap.get m k') := by
  induction m with
  | nil => simp [GoMap.set, GoMap.get]
  | cons p rest ih =>
    obtain ⟨a, v⟩ := p
    by_cases h : a = k
    · subst h
      by_cases h2 : a = k' <;> simp [GoMap.set, GoMap.get, h2]
    · by_cases h2 : a = k'
      · subst h2
        have h3 : ¬ k = a := fun e => h e.symm
        simp [GoMap.set, GoMap.get, h, h3]
      · simp [GoMap.set, GoMap.get, h, h2, ih]

theorem get_foldl_set (list : List String) (m : GoMap) (k : String) :
    GoMap.get (list.foldl (fun skipMap name => skipMap.set (stringsTrimSpace name) true) m) k
        = true ↔
      GoMap.get m k = true ∨ ∃ name ∈ list, stringsTrimSpace name = k := by
  induction list generalizing m with
  | nil => simp
  | cons n rest ih =>
    rw [List.foldl_cons, ih, GoMap.get_set]
    simp only [Bool.or_eq_true, decide_eq_true_eq, List.mem_cons, exists_eq_or_imp]
    tauto

theorem dropWhile_space_append (pre x : List Char) (hpre : ∀ ch ∈ pre, unicodeIsSpace ch = true) :
    (pre ++ x).dropWhile unicodeIsSpace = x.dropWhile unicodeIsSpace := by
  induction pre with
  | nil => rfl
  | cons a rest ih =>
    have ha : unicodeIsSpace a = true := hpre a (List.mem_cons_self _ _)
    rw [List.cons_append, List.dropWhile_cons_of_pos ha]
    exact ih fun ch hch => hpre ch (List.mem_cons_of_mem _ hch)

theorem dropWhile_space_all (post : List Char) (hpost : ∀ ch ∈ post, unicodeIsSpace ch = true) :
    post.dropWhile unicodeIsSpace = [] := by
  have := dropWhile_space_append post [] hpost
  simpa using this

theorem dropWhile_append_space (x post : List Char)
    (hpost : ∀ ch ∈ post, unicodeIsSpace ch = true) :
    ((x ++ post).dropWhile unicodeIsSpace).reverse.dropWhile unicodeIsSpace
      = (x.dropWhile unicodeIsSpace).reverse.dropWhile unicodeIsSpace := by
  induction x with
  | nil =>
    simp only [List.nil_append, List.dropWhile_nil, List.reverse_nil]
    rw [dropWhile_space_all post hpost]
    rfl
  | cons a rest ih =>
    by_cases ha : unicodeIsSpace a = true
    · rw [List.cons_append, List.dropWhile_cons_of_pos ha, List.dropWhile_cons_of_pos ha]
      exact ih
    · rw [List.cons_append, List.dropWhile_cons_of_neg ha, List.dropWhile_cons_of_neg ha,
        ← List.cons_append, List.reverse_append]
      exact dropWhile_space_append _ _ fun ch hch => hpost ch (List.mem_reverse.mp hch)

theorem stringsTrimSpace_surrounded (name : String) (pre post : List Char)
    (hpre : ∀ ch ∈ pre, unicodeIsSpace ch = true)
    (hpost : ∀ ch ∈ post, unicodeIsSpace ch = true) :
    stringsTrimSpace ⟨pre ++ name.data ++ post⟩ = stringsTrimSpace name := by
  unfold stringsTrimSpace
  simp only [List.append_assoc]
  rw [dropWhile_space_append pre _ hpre, dropWhile_append_space _ post hpost]

/-- C10 as stated fails: letter case is kept.  A file listing "General" and "general"
yields two entries, and a file listing only "General" does not skip "general". -/
theorem LoadSkipList_keeps_letter_case :
    LoadSkipList (fun _ => .ok "data") (fun _ => .ok ["General", "general"])
        "config/skiplist.json"
      = ([("General", true), ("general", true)], none) ∧
    GoMap.get (LoadSkipList (fun _ => .ok "data") (fun _ => .ok ["General"])
        "config/skiplist.json").1 "general" = false := by
  constructor <;> decide

/-- C10 amended: the skip set is normalized for surrounding white space only.  The names
in the loaded set are exactly the trimmed names of the file, so a name and the same name
with white space put before and after it yield the same entry; letter case is kept. -/
theorem LoadSkipList_trims (ReadFile : String → Except GoError String)
    (Unmarshal : String → Except GoError (List String)) (path data : String)
    (list : List String) (hread : ReadFile path = .ok data) (hparse : Unmarshal data = .ok list)
    (name : String) (pre post : List Char)
    (hpre : ∀ ch ∈ pre, unicodeIsSpace ch = true)
    (hpost : ∀ ch ∈ post, unicodeIsSpace ch = true) :
    (LoadSkipList ReadFile Unmarshal path).2 = none ∧
    (∀ k, GoMap.get (LoadSkipList ReadFile Unmarshal path).1 k = true ↔
      ∃ n ∈ list, stringsTrimSpace n = k) ∧
    stringsTrimSpace ⟨pre ++ name.data ++ post⟩ = stringsTrimSpace name := by
  refine ⟨?_, ?_, stringsTrimSpace_surrounded name pre post hpre hpost⟩
  · simp [LoadSkipList, hread, hparse]
  · intro k
    simp only [LoadSkipList, hread, hparse]
    rw [get_foldl_set]
    simp [GoMap.get]

theorem LoadSkipList_trims_witness :
    (∀ k, GoMap.get (LoadSkipList (fun _ => .ok "data") (fun _ => .ok ["general", " random\n"])
        "config/skiplist.json").1 k = true ↔
      ∃ n ∈ ["general", " random\n"], stringsTrimSpace n = k) ∧
    stringsTrimSpace ⟨[' '] ++ "random".data ++ ['\n']⟩ = stringsTrimSpace "random" :=
  (LoadSkipList_trims (fun _ => .ok "data") (fun _ => .ok ["general", " random\n"])
    "config/skiplist.json" "data" ["general", " random\n"] rfl rfl "random" [' '] ['\n']
    (by decide) (by decide)).2

/-! ## LeaveChannels -/

/-- C2, the code at the failing input: the only leave request is answered
"rate_limited"; `LeaveChannels` sleeps 30 s, sends no second request although it would
succeed, and returns the rate-limit failure wrapped. -/
theorem LeaveChannels_returns_rate_limit_failure :
    LeaveChannels rateLimitedOnceAPI exampleCleaner
        [{ ID := "C1", Name := "general", LastSeen := 0, Type_ := "public" }] 0
      = (some (.wrapped "failed to leave #general: rate_limited" (.other "rate_limited")), 1,
          [.LeaveConversation "C1", .Sleep 30000000000]) := by
  decide

/-- C3: when the leave requests for items `0..k-1` succeed and the one for item `k` fails
with an error that is not a rate-limit failure, `LeaveChannels` sends leave requests for
exactly the items `0..k`, in input order and once each, and returns an error; when every
request succeeds it sends one request per item in input order and returns nil. -/
theorem LeaveChannels_sequential {σ : Type} (api : API σ) (c : Cleaner)
    (channels : List ChannelInfo) (s : σ) :
    (∀ k e, (∀ i, i < k → (leaveAnswers api s channels)[i]? = some none) →
        (leaveAnswers api s channels)[k]? = some (some e) →
        isRateLimitFailure e = false →
        (LeaveChannels api c channels s).1 ≠ none ∧
        leaveRequests (LeaveChannels api c channels s).2.2
          = (channels.take (k + 1)).map (·.ID)) ∧
    ((∀ a ∈ leaveAnswers api s channels, a = none) →
        (LeaveChannels api c channels s).1 = none ∧
        leaveRequests (LeaveChannels api c channels s).2.2 = channels.map (·.ID)) := by
  induction channels generalizing s with
  | nil =>
    refine ⟨fun k e _ hfail _ => ?_, fun _ => ⟨rfl, rfl⟩⟩
    simp [leaveAnswers] at hfail
  | cons ch rest ih =>
    rcases hans : api.LeaveConversation s ch.ID with ⟨a, s1⟩
    cases a with
    | none =>
      have hrun : LeaveChannels api c (ch :: rest) s
          = ((LeaveChannels api c rest s1).1, (LeaveChannels api c rest s1).2.1,
              .LeaveConversation ch.ID :: .Sleep (1 * Second)
                :: (LeaveChannels api c rest s1).2.2) := by
        simp [LeaveChannels, hans]
      have hla : leaveAnswers api s (ch :: rest) = none :: leaveAnswers api s1 rest := by
        simp [leaveAnswers, hans]
      rw [hrun, hla]
      refine ⟨fun k e hok hfail hnr => ?_, fun hall => ?_⟩
      · cases k with
        | zero => simp at hfail
        | succ k =>
          have hok' : ∀ i, i < k → (leaveAnswers api s1 rest)[i]? = some none := by
            intro i hi
            have := hok (i + 1) (by omega)
            simpa using this
          have hfail' : (leaveAnswers api s1 rest)[k]? = some (some e) := by
            simpa using hfail
          obtain ⟨h1, h2⟩ := (ih s1).1 k e hok' hfail' hnr
          exact ⟨h1, by simp [leaveRequests, h2]⟩
      · have hall' : ∀ a ∈ leaveAnswers api s1 rest, a = none := fun a ha =>
          hall a (List.mem_cons_of_mem _ ha)
        obtain ⟨h1, h2⟩ := (ih s1).2 hall'
        exact ⟨h1, by simp [leaveRequests, h2]⟩
    | some err =>
      have hla : leaveAnswers api s (ch :: rest)
          = some err :: leaveAnswers api s1 rest := by
        simp [leaveAnswers, hans]
      rw [hla]
      refine ⟨fun k e hok hfail hnr => ?_, fun hall => ?_⟩
      · cases k with
        | zero =>
          have he : err = e := by simpa using hfail
          subst he
          have hrun : LeaveChannels api c (ch :: rest) s
              = (some (.wrapped ("failed to leave #" ++ ch.Name ++ ": " ++ err.Error) err), s1,
                  [.LeaveConversation ch.ID]) := by
            simp [LeaveChannels, hans, handleRateLimit_pass c err hnr]
          rw [hrun]
          simp [leaveRequests]
        | succ k =>
          have := hok 0 (by omega)
          simp at this
      · have := hall (some err) (List.mem_cons_self _ _)
        simp at this

theorem LeaveChannels_sequential_witness :
    (LeaveChannels failSecondLeaveAPI exampleCleaner threeChannels 0).1 ≠ none ∧
    leaveRequests (LeaveChannels failSecondLeaveAPI exampleCleaner threeChannels 0).2.2
      = ["C1", "C2"] :=
  (LeaveChannels_sequential failSecondLeaveAPI exampleCleaner threeChannels 0).1 1
    (.other "channel_not_found") (by decide) (by decide) (by decide)


/-! ## GetFilteredChannels: listing errors -/

theorem handleRateLimit_some (c : Cleaner) (err e : GoError) (evs : List Event)
    (h : handleRateLimit c err = (some e, evs)) :
    e = err ∧ evs = [] ∧ isRateLimitFailure err = false := by
  cases hr : isRateLimitFailure err with
  | true =>
    obtain ⟨d, hd⟩ := handleRateLimit_retry c err hr
    rw [hd] at h
    simp at h
  | false =>
    rw [handleRateLimit_pass c err hr] at h
    simp only [Prod.mk.injEq, Option.some.injEq] at h
    exact ⟨h.1.symm, h.2.symm, rfl⟩

theorem paginate_error_result {σ : Type} (api : API σ) (c : Cleaner)
    (ParseFloat : String → Option Float64) (fuel : Nat) :
    ∀ (s : σ) (cursor : String) (results r : List ChannelInfo) (e : GoError) (s' : σ)
      (evs : List Event),
      paginate api c ParseFloat fuel s cursor results = some ((r, some e), s', evs) →
      r = [] ∧ isRateLimitFailure e = false ∧
        ∃ evs0 cur, evs = evs0 ++ [.GetConversations (listingParams c cur)] := by
  induction fuel with
  | zero => intro s cursor results r e s' evs h; simp [paginate] at h
  | succ fuel ih =>
    intro s cursor results r e s' evs h
    rw [paginate] at h
    rcases hans : api.GetConversations s (listingParams c cursor) with ⟨ans, s1⟩
    rw [hans] at h
    cases herr : ans.err with
    | some err =>
      simp only [herr] at h
      rcases hh : handleRateLimit c err with ⟨rateErr, evsH⟩
      rw [hh] at h
      cases rateErr with
      | some rateErr =>
        simp only [Option.some.injEq, Prod.mk.injEq] at h
        obtain ⟨⟨hr, he⟩, -, hevs⟩ := h
        obtain ⟨h1, h2, h3⟩ := handleRateLimit_some c err rateErr evsH hh
        subst h1 h2
        exact ⟨hr.symm, he ▸ h3, [], cursor, by simp [← hevs]⟩
      | none =>
        simp only [Option.map_eq_some'] at h
        obtain ⟨⟨⟨r2, e2⟩, s2, evs2⟩, hrec, heq⟩ := h
        simp only [Prod.mk.injEq] at heq
        obtain ⟨⟨hr, he⟩, -, hevs⟩ := heq
        subst hr he
        obtain ⟨h1, h2, evs0, cur, h3⟩ := ih s1 cursor results _ e s2 evs2 hrec
        refine ⟨h1, h2, .GetConversations (listingParams c cursor) :: (evsH ++ evs0), cur, ?_⟩
        simp [← hevs, h3]
    | none =>
      simp only [herr] at h
      rcases hp : processChannels api c ParseFloat ans.channels s1 results with ⟨r1, s2, evs1⟩
      rw [hp] at h
      by_cases hc : ans.nextCursor = ""
      · simp [hc] at h
      · simp only [hc, if_false, Option.map_eq_some'] at h
        obtain ⟨⟨⟨r2, e2⟩, s3, evs2⟩, hrec, heq⟩ := h
        simp only [Prod.mk.injEq] at heq
        obtain ⟨⟨hr, he⟩, -, hevs⟩ := heq
        subst hr he
        obtain ⟨h1, h2, evs0, cur, h3⟩ := ih s2 ans.nextCursor r1 _ e s3 evs2 hrec
        refine ⟨h1, h2, .GetConversations (listingParams c cursor) :: (evs1 ++ evs0), cur, ?_⟩
        simp [← hevs, h3]

theorem paginate_fatal_step {σ : Type} (api : API σ) (c : Cleaner)
    (ParseFloat : String → Option Float64) (fuel : Nat) (s : σ) (cursor : String)
    (results : List ChannelInfo) (e : GoError)
    (hfail : (api.GetConversations s (listingParams c cursor)).1.err = some e)
    (hnr : isRateLimitFailure e = false) :
    paginate api c ParseFloat (fuel + 1) s cursor results
      = some (([], some e), (api.GetConversations s (listingParams c cursor)).2,
          [.GetConversations (listingParams c cursor)]) := by
  rw [paginate]
  rcases hans : api.GetConversations s (listingParams c cursor) with ⟨ans, s1⟩
  rw [hans] at hfail
  simp only at hfail
  simp only [hfail, handleRateLimit_pass c e hnr]

theorem GetFilteredChannels_fatal_second_page :
    GetFilteredChannels fatalSecondPageAPI exampleCleaner exampleParseFloat 2 0
      = some (([], some (.other "invalid_auth")), 2,
          [.GetConversations (listingParams exampleCleaner ""),
           .GetConversationHistory { ChannelID := "C1", Limit := 1 },
           .Sleep 1000000000,
           .GetConversations (listingParams exampleCleaner "p2")]) := by
  decide

/-! ## GetFilteredChannels: which channels are returned -/

set_option maxRecDepth 100000 in
/-- C1 as stated fails on the fraction of the timestamp: with cutoff 100.25 s and a last
message at 100.5 s, which is not earlier than the cutoff, the channel is returned, with
last activity 100 s. -/
theorem GetFilteredChannels_drops_fraction :
    GetFilteredChannels (statelessAPI onePage historyAtHalfSecond) exampleCleaner
        exampleParseFloat 1 ()
      = some (([{ ID := "C1", Name := "general", LastSeen := 100000000000,
                  Type_ := "public" }], none), (),
          [.GetConversations (listingParams exampleCleaner ""),
           .GetConversationHistory { ChannelID := "C1", Limit := 1 },
           .Sleep 1000000000]) ∧
    exampleParseFloat "100.5" = some (.finite (201 / 2)) ∧
    ¬ ((201 / 2 : ℚ) * 1000000000 < ((exampleCleaner.Cutoff : ℤ) : ℚ)) := by
  refine ⟨by decide, ?_, ?_⟩
  · have h : ¬ ("100.5" : String) = "50" := by decide
    rw [exampleParseFloat, if_neg h, if_pos rfl]
    norm_num [Rat.mkRat_eq_div]
  · norm_num [exampleCleaner]

theorem processChannel_fst {σ : Type} (api : API σ) (c : Cleaner)
    (ParseFloat : String → Option Float64) (ch : Channel) (s : σ) (results : List ChannelInfo) :
    (processChannel api c ParseFloat ch s results).1
      = results ++ (if passesChecks c ch then
          appendedAfter c ParseFloat ch (historyAttempts api c ch 2 s none).1 else []) := by
  unfold processChannel passesChecks
  by_cases h1 : (!ch.IsMember || c.SkipChannels.get ch.Name) = true
  · rw [if_pos h1]
    have : (ch.IsMember && !c.SkipChannels.get ch.Name) = false := by
      cases hm : ch.IsMember <;> cases hs : c.SkipChannels.get ch.Name <;> simp_all
    simp [this]
  · rw [if_neg h1]
    have hA : (ch.IsMember && !c.SkipChannels.get ch.Name) = true := by
      cases hm : ch.IsMember <;> cases hs : c.SkipChannels.get ch.Name <;> simp_all
    by_cases h2 : (c.Keyword != "" && !stringsContains ch.Name c.Keyword) = true
    · rw [if_pos h2]
      have : (c.Keyword == "" || stringsContains ch.Name c.Keyword) = false := by
        cases hk : (c.Keyword == "") <;> cases hs : stringsContains ch.Name c.Keyword <;>
          simp_all [bne]
      simp [this]
    · rw [if_neg h2]
      have hB : (c.Keyword == "" || stringsContains ch.Name c.Keyword) = true := by
        cases hk : (c.Keyword == "") <;> cases hs : stringsContains ch.Name c.Keyword <;>
          simp_all [bne]
      rw [hA, hB]
      simp only [Bool.and_self, if_true]
      rcases hres : historyAttempts api c ch 2 s none with ⟨o, s1, evs⟩
      cases o with
      | none => simp [appendedAfter]
      | some o =>
        cases o with
        | none => simp [appendedAfter]
        | some history =>
          simp only [appendedAfter]
          cases hm : history.Messages with
          | nil => simp
          | cons m rest =>
            simp only
            cases hp : ParseFloat m.Timestamp with
            | none => simp
            | some ts =>
              simp only [Before]
              by_cases hlt : Unix (int64 ts) 0 < c.Cutoff
              · simp [hlt, infoOf]
              · simp [hlt]

theorem historyAttempts_fst {σ : Type} (api : API σ) (c : Cleaner) (ch : Channel)
    (a : HistoryAnswer)
    (ha : ∀ s, (api.GetConversationHistory s { ChannelID := ch.ID, Limit := 1 }).1 = a) :
    ∀ (n : Nat) (s : σ) (history : Option GetConversationHistoryResponse),
      (historyAttempts api c ch n s history).1 = probeOutcome c a n history := by
  intro n
  induction n with
  | zero => intro s history; rfl
  | succ n ih =>
    intro s history
    rw [historyAttempts, probeOutcome]
    rcases hans : api.GetConversationHistory s { ChannelID := ch.ID, Limit := 1 } with ⟨ans, s1⟩
    have hans' : ans = a := by
      have := ha s
      rw [hans] at this
      exact this
    subst hans'
    cases herr : ans.err with
    | none => simp only [herr]
    | some err =>
      simp only [herr]
      rcases hh : handleRateLimit c err with ⟨rateErr, evs⟩
      cases rateErr with
      | some e => rfl
      | none => exact ih s1 ans.history

theorem processChannel_selected {σ : Type} (api : API σ) (c : Cleaner)
    (ParseFloat : String → Option Float64) (H : GetConversationHistoryParameters → HistoryAnswer)
    (hH : AnswersHistory api H) (ch : Channel) (s : σ) (results : List ChannelInfo) :
    (processChannel api c ParseFloat ch s results).1
      = results ++ selected c ParseFloat H ch := by
  rw [processChannel_fst, historyAttempts_fst api c ch _ (fun s => hH s _)]
  rfl

theorem processChannels_rel {σ : Type} (api : API σ) (c : Cleaner)
    (ParseFloat : String → Option Float64) (R : List Channel → List ChannelInfo → Prop)
    (hstep : ∀ done ch s res, R done res →
      R (done ++ [ch]) (processChannel api c ParseFloat ch s res).1) :
    ∀ (page done : List Channel) (s : σ) (res : List ChannelInfo), R done res →
      R (done ++ page) (processChannels api c ParseFloat page s res).1 := by
  intro page
  induction page with
  | nil => intro done s res h; simpa [processChannels] using h
  | cons ch rest ih =>
    intro done s res h
    rw [processChannels]
    rcases hp : processChannel api c ParseFloat ch s res with ⟨r1, s1, evs1⟩
    have h1 : R (done ++ [ch]) r1 := by
      have := hstep done ch s res h
      rw [hp] at this
      exact this
    have h2 := ih (done ++ [ch]) s1 r1 h1
    simpa using h2

theorem paginate_walk {σ : Type} (api : API σ) (c : Cleaner)
    (ParseFloat : String → Option Float64) (P : GetConversationsParameters → ConversationsAnswer)
    (hL : AnswersListing api P) (R : List Channel → List ChannelInfo → Prop)
    (hstep : ∀ done ch s res, R done res →
      R (done ++ [ch]) (processChannel api c ParseFloat ch s res).1) :
    ∀ (n : Nat) (cursor : String) (chans : List Channel) (s : σ) (done : List Channel)
      (res : List ChannelInfo), walk P c n cursor = some chans → R done res →
      ∃ r s' evs, paginate api c ParseFloat n s cursor res = some ((r, none), s', evs) ∧
        R (done ++ chans) r := by
  intro n
  induction n with
  | zero => intro cursor chans s done res hw; simp [walk] at hw
  | succ n ih =>
    intro cursor chans s done res hw hR
    rw [walk] at hw
    rw [paginate]
    rcases hans : api.GetConversations s (listingParams c cursor) with ⟨ans, s1⟩
    have hans' : P (listingParams c cursor) = ans := by
      have := hL s (listingParams c cursor)
      rw [hans] at this
      exact this.symm
    rw [hans'] at hw
    cases herr : ans.err with
    | some err => simp [herr] at hw
    | none =>
      simp only [herr] at hw ⊢
      have hpage := processChannels_rel api c ParseFloat R hstep ans.channels done s1 res hR
      rcases hp : processChannels api c ParseFloat ans.channels s1 res with ⟨r1, s2, evs1⟩
      rw [hp] at hpage
      by_cases hc : ans.nextCursor = ""
      · simp only [hc, if_true, Option.some.injEq] at hw ⊢
        subst hw
        exact ⟨r1, s2, _, rfl, hpage⟩
      · simp only [hc, if_false, Option.map_eq_some'] at hw ⊢
        obtain ⟨rest, hrest, hchans⟩ := hw
        subst hchans
        obtain ⟨r, s', evs, hrun, hR'⟩ := ih ans.nextCursor rest s2 (done ++ ans.channels) r1
          hrest hpage
        refine ⟨r, s', _, ⟨((r, none), s', evs), hrun, rfl⟩, ?_⟩
        simpa using hR'

theorem mem_selected (c : Cleaner) (ParseFloat : String → Option Float64)
    (H : GetConversationHistoryParameters → HistoryAnswer) (ch : Channel)
    (hok : (H { ChannelID := ch.ID, Limit := 1 }).err = none) (info : ChannelInfo) :
    info ∈ selected c ParseFloat H ch ↔
      ch.IsMember = true ∧ c.SkipChannels.get ch.Name = false ∧
      (c.Keyword = "" ∨ stringsContains ch.Name c.Keyword = true) ∧
      ∃ h m rest ts, (H { ChannelID := ch.ID, Limit := 1 }).history = some h ∧
        h.Messages = m :: rest ∧ ParseFloat m.Timestamp = some ts ∧
        Unix (int64 ts) 0 < c.Cutoff ∧ info = infoOf ch (Unix (int64 ts) 0) := by
  have hout : probeOutcome c (H { ChannelID := ch.ID, Limit := 1 }) 2 none
      = some (H { ChannelID := ch.ID, Limit := 1 }).history := by
    rw [probeOutcome, hok]
  unfold selected
  rw [hout]
  by_cases hp : passesChecks c ch = true
  · rw [if_pos hp]
    have hp' : ch.IsMember = true ∧ c.SkipChannels.get ch.Name = false ∧
        (c.Keyword = "" ∨ stringsContains ch.Name c.Keyword = true) := by
      simpa [passesChecks, and_assoc] using hp
    cases hh : (H { ChannelID := ch.ID, Limit := 1 }).history with
    | none => simp [appendedAfter]
    | some h =>
      cases hm : h.Messages with
      | nil => simp [appendedAfter, hm]
      | cons m rest =>
        cases hpf : ParseFloat m.Timestamp with
        | none => simp [appendedAfter, hm, hpf]
        | some ts =>
          by_cases hlt : Unix (int64 ts) 0 < c.Cutoff
          · simp only [appendedAfter, hm, hpf, hlt, if_true, List.mem_singleton]
            constructor
            · intro hi
              exact ⟨hp'.1, hp'.2.1, hp'.2.2, h, m, rest, ts, rfl, hm, hpf, hlt, hi⟩
            · rintro ⟨-, -, -, h', m', rest', ts', hh', hm', hpf', -, hi⟩
              simp only [Option.some.injEq] at hh'
              subst hh'
              rw [hm] at hm'
              simp only [List.cons.injEq] at hm'
              obtain ⟨rfl, rfl⟩ := hm'
              rw [hpf] at hpf'
              simp only [Option.some.injEq] at hpf'
              subst hpf'
              exact hi
          · simp only [appendedAfter, hm, hpf, hlt, if_false, List.not_mem_nil, false_iff]
            rintro ⟨-, -, -, h', m', rest', ts', hh', hm', hpf', hlt', -⟩
            simp only [Option.some.injEq] at hh'
            subst hh'
            rw [hm] at hm'
            simp only [List.cons.injEq] at hm'
            obtain ⟨rfl, rfl⟩ := hm'
            rw [hpf] at hpf'
            simp only [Option.some.injEq] at hpf'
            subst hpf'
            exact hlt hlt'
  · rw [if_neg hp]
    simp only [List.not_mem_nil, false_iff]
    rintro ⟨h1, h2, h3, -⟩
    apply hp
    simp only [passesChecks, h1, h2, Bool.not_false, Bool.and_self, Bool.true_and,
      Bool.or_eq_true, beq_iff_eq]
    exact h3

theorem paginate_selected {σ : Type} (api : API σ) (c : Cleaner)
    (ParseFloat : String → Option Float64) (P : GetConversationsParameters → ConversationsAnswer)
    (H : GetConversationHistoryParameters → HistoryAnswer)
    (hL : AnswersListing api P) (hH : AnswersHistory api H)
    (n : Nat) (chans : List Channel) (hwalk : walk P c n "" = some chans) (s : σ) :
    ∃ s' evs, GetFilteredChannels api c ParseFloat n s
      = some ((chans.flatMap (selected c ParseFloat H), none), s', evs) := by
  obtain ⟨r, s', evs, hrun, hR⟩ := paginate_walk api c ParseFloat P hL
    (fun done res => res = done.flatMap (selected c ParseFloat H))
    (by
      intro done ch s res hres
      rw [processChannel_selected api c ParseFloat H hH, hres]
      simp)
    n "" chans s [] [] hwalk rfl
  refine ⟨s', evs, ?_⟩
  rw [GetFilteredChannels, hrun]
  simp only [List.nil_append] at hR
  rw [hR]

theorem GetFilteredChannels_selected {σ : Type} (api : API σ) (c : Cleaner)
    (ParseFloat : String → Option Float64) (P : GetConversationsParameters → ConversationsAnswer)
    (H : GetConversationHistoryParameters → HistoryAnswer)
    (hL : AnswersListing api P) (hH : AnswersHistory api H) (hok : ∀ p, (H p).err = none)
    (n : Nat) (chans : List Channel) (hwalk : walk P c n "" = some chans) (s : σ) :
    ∃ results s' evs,
      GetFilteredChannels api c ParseFloat n s = some ((results, none), s', evs) ∧
      ∀ info, info ∈ results ↔
        ∃ ch ∈ chans, ch.IsMember = true ∧ c.SkipChannels.get ch.Name = false ∧
          (c.Keyword = "" ∨ stringsContains ch.Name c.Keyword = true) ∧
          ∃ h m rest ts, (H { ChannelID := ch.ID, Limit := 1 }).history = some h ∧
            h.Messages = m :: rest ∧ ParseFloat m.Timestamp = some ts ∧
            Unix (int64 ts) 0 < c.Cutoff ∧ info = infoOf ch (Unix (int64 ts) 0) := by
  obtain ⟨s', evs, hrun⟩ := paginate_selected api c ParseFloat P H hL hH n chans hwalk s
  refine ⟨_, s', evs, hrun, fun info => ?_⟩
  rw [List.mem_flatMap]
  constructor
  · rintro ⟨ch, hch, hi⟩
    exact ⟨ch, hch, (mem_selected c ParseFloat H ch (hok _) info).1 hi⟩
  · rintro ⟨ch, hch, hi⟩
    exact ⟨ch, hch, (mem_selected c ParseFloat H ch (hok _) info).2 hi⟩

/-! ## The conversion of a timestamp -/

/-- For a finite timestamp whose whole seconds fit `int64` and stay in range when
`time.Unix` adds `unixToInternal`, the instant built is the timestamp cut down to whole
seconds. -/
theorem Unix_int64_finite (q : ℚ) (h1 : -(2 ^ 63) ≤ Int.tdiv q.num q.den)
    (h2 : Int.tdiv q.num q.den < 2 ^ 63 - unixToInternal) :
    Unix (int64 (.finite q)) 0 = Int.tdiv q.num q.den * Second := by
  have hu : unixToInternal = 62135596800 := rfl
  have hr : -(2 ^ 63) ≤ Int.tdiv q.num q.den ∧ Int.tdiv q.num q.den < 2 ^ 63 :=
    ⟨h1, by omega⟩
  have hi : int64 (.finite q) = Int.tdiv q.num q.den := by
    simp only [int64]
    rw [if_pos hr]
  rw [hi]
  unfold Unix
  rw [wrapInt64_of_range (by omega) (by omega)]
  simp

/-- C1 amended: when the API answers every listing and history request without error
(listing per `P`, whose cursor chain ends within `n` pages with the records `chans`;
history per `H`), and every timestamp of a most recent message that parses is a finite
number whose whole seconds (the number cut toward zero) fit `int64` and stay in its
range when `time.Unix` adds `unixToInternal`, then `GetFilteredChannels`
returns, with a nil error, exactly the entries of the records that are members, are not
in the skip set, contain the keyword when one is set, and whose most recent message has
a timestamp that, cut down to whole seconds, is strictly earlier than the cutoff; the
entry carries that whole second as last activity. -/
theorem GetFilteredChannels_filter {σ : Type} (api : API σ) (c : Cleaner)
    (ParseFloat : String → Option Float64) (P : GetConversationsParameters → ConversationsAnswer)
    (H : GetConversationHistoryParameters → HistoryAnswer)
    (hL : AnswersListing api P) (hH : AnswersHistory api H) (hok : ∀ p, (H p).err = none)
    (n : Nat) (chans : List Channel) (hwalk : walk P c n "" = some chans)
    (hrange : ∀ ch ∈ chans, ∀ h m rest ts,
      (H { ChannelID := ch.ID, Limit := 1 }).history = some h → h.Messages = m :: rest →
      ParseFloat m.Timestamp = some ts →
      ∃ q, ts = .finite q ∧ -(2 ^ 63) ≤ Int.tdiv q.num q.den ∧
        Int.tdiv q.num q.den < 2 ^ 63 - unixToInternal)
    (s : σ) :
    ∃ results s' evs,
      GetFilteredChannels api c ParseFloat n s = some ((results, none), s', evs) ∧
      ∀ info, info ∈ results ↔
        ∃ ch ∈ chans, ch.IsMember = true ∧ c.SkipChannels.get ch.Name = false ∧
          (c.Keyword = "" ∨ stringsContains ch.Name c.Keyword = true) ∧
          ∃ h m rest q, (H { ChannelID := ch.ID, Limit := 1 }).history = some h ∧
            h.Messages = m :: rest ∧ ParseFloat m.Timestamp = some (.finite q) ∧
            Int.tdiv q.num q.den * Second < c.Cutoff ∧
            info = infoOf ch (Int.tdiv q.num q.den * Second) := by
  obtain ⟨results, s', evs, hrun, hmem⟩ :=
    GetFilteredChannels_selected api c ParseFloat P H hL hH hok n chans hwalk s
  refine ⟨results, s', evs, hrun, fun info => ?_⟩
  rw [hmem]
  constructor
  · rintro ⟨ch, hch, h1, h2, h3, h, m, rest, ts, hh, hm, hpf, hlt, hi⟩
    obtain ⟨q, rfl, hq1, hq2⟩ := hrange ch hch h m rest ts hh hm hpf
    rw [Unix_int64_finite q hq1 hq2] at hlt hi
    exact ⟨ch, hch, h1, h2, h3, h, m, rest, q, hh, hm, hpf, hlt, hi⟩
  · rintro ⟨ch, hch, h1, h2, h3, h, m, rest, q, hh, hm, hpf, hlt, hi⟩
    obtain ⟨q', hq', hq1, hq2⟩ := hrange ch hch h m rest _ hh hm hpf
    simp only [Float64.finite.injEq] at hq'
    subst hq'
    refine ⟨ch, hch, h1, h2, h3, h, m, rest, .finite q, hh, hm, hpf, ?_, ?_⟩
    · rw [Unix_int64_finite q hq1 hq2]
      exact hlt
    · rw [Unix_int64_finite q hq1 hq2]
      exact hi

theorem historyAtHalfSecond_in_range :
    ∀ ch ∈ [({ ID := "C1", Name := "general", IsMember := true, IsPrivate := false } :
        Channel)], ∀ h m rest ts,
      (historyAtHalfSecond { ChannelID := ch.ID, Limit := 1 }).history = some h →
      h.Messages = m :: rest → exampleParseFloat m.Timestamp = some ts →
      ∃ q, ts = .finite q ∧ -(2 ^ 63) ≤ Int.tdiv q.num q.den ∧
        Int.tdiv q.num q.den < 2 ^ 63 - unixToInternal := by
  intro ch _ h m rest ts hh hm hpf
  simp only [historyAtHalfSecond, Option.some.injEq] at hh
  subst hh
  simp only [List.cons.injEq] at hm
  obtain ⟨rfl, -⟩ := hm
  have h1 : exampleParseFloat "100.5" = some (.finite (mkRat 201 2)) := by decide
  rw [h1] at hpf
  simp only [Option.some.injEq] at hpf
  subst hpf
  exact ⟨mkRat 201 2, rfl, by decide, by decide⟩

theorem GetFilteredChannels_filter_witness :
    ∃ results s' evs,
      GetFilteredChannels (statelessAPI onePage historyAtHalfSecond) exampleCleaner
        exampleParseFloat 1 () = some ((results, none), s', evs) ∧
      ∀ info, info ∈ results ↔
        ∃ ch ∈ [({ ID := "C1", Name := "general", IsMember := true, IsPrivate := false } :
            Channel)],
          ch.IsMember = true ∧ exampleCleaner.SkipChannels.get ch.Name = false ∧
          (exampleCleaner.Keyword = "" ∨
            stringsContains ch.Name exampleCleaner.Keyword = true) ∧
          ∃ h m rest q,
            (historyAtHalfSecond { ChannelID := ch.ID, Limit := 1 }).history = some h ∧
            h.Messages = m :: rest ∧ exampleParseFloat m.Timestamp = some (.finite q) ∧
            Int.tdiv q.num q.den * Second < exampleCleaner.Cutoff ∧
            info = infoOf ch (Int.tdiv q.num q.den * Second) :=
  GetFilteredChannels_filter (statelessAPI onePage historyAtHalfSecond) exampleCleaner
    exampleParseFloat onePage historyAtHalfSecond (fun _ _ => rfl) (fun _ _ => rfl)
    (fun _ => rfl) 1 _ (by decide) historyAtHalfSecond_in_range ()

set_option maxRecDepth 100000 in
/-- A timestamp that `int64` cannot hold: the most recent message of the channel is stamped
"1e30", a number of seconds far after the cutoff of 100.25 s; the conversion gives
-2^63 seconds, an instant before the cutoff, and the channel is returned. -/
theorem GetFilteredChannels_out_of_range_timestamp :
    GetFilteredChannels (statelessAPI onePage historyAtHugeTimestamp) exampleCleaner
        exampleParseFloat 1 ()
      = some (([{ ID := "C1", Name := "general",
                  LastSeen := -9223372036854775808000000000,
                  Type_ := "public" }], none), (),
          [.GetConversations (listingParams exampleCleaner ""),
           .GetConversationHistory { ChannelID := "C1", Limit := 1 },
           .Sleep 1000000000]) ∧
    exampleParseFloat "1e30" = some (.finite 1000000000000000019884624838656) ∧
    int64 (.finite 1000000000000000019884624838656) = -(2 ^ 63) ∧
    int64 .nan = -(2 ^ 63) ∧ int64 (.inf false) = -(2 ^ 63) ∧
    Unix 9223372036854774784 0 = -9223372036854776832000000000 := by
  refine ⟨by decide, by decide, by decide, by decide, by decide, by decide⟩


/-! ## GetFilteredChannels: channels without usable history -/

theorem appendedAfter_ID (c : Cleaner) (ParseFloat : String → Option Float64) (ch : Channel)
    (o : Option (Option GetConversationHistoryResponse)) (info : ChannelInfo)
    (h : info ∈ appendedAfter c ParseFloat ch o) : info.ID = ch.ID := by
  unfold appendedAfter at h
  split at h
  · split at h
    · simp at h
    · split at h
      · simp at h
      · split at h
        · simp only [List.mem_singleton] at h
          rw [h]
          rfl
        · simp at h
  · simp at h

theorem appendedAfter_no_messages (c : Cleaner) (ParseFloat : String → Option Float64)
    (ch : Channel) (history : Option GetConversationHistoryResponse)
    (h : ∀ r, history = some r → r.Messages = []) :
    appendedAfter c ParseFloat ch (some history) = [] := by
  cases history with
  | none => rfl
  | some r =>
    have := h r rfl
    simp [appendedAfter, this]

theorem selected_ID (c : Cleaner) (ParseFloat : String → Option Float64)
    (H : GetConversationHistoryParameters → HistoryAnswer) (ch : Channel) (info : ChannelInfo)
    (h : info ∈ selected c ParseFloat H ch) : info.ID = ch.ID := by
  unfold selected at h
  split at h
  · exact appendedAfter_ID c ParseFloat ch _ info h
  · simp at h

theorem appendedAfter_unusable (c : Cleaner) (ParseFloat : String → Option Float64)
    (ch : Channel) (history : Option GetConversationHistoryResponse)
    (h : unusable ParseFloat history) :
    appendedAfter c ParseFloat ch (some history) = [] := by
  cases history with
  | none => rfl
  | some r =>
    cases hm : r.Messages with
    | nil => simp [appendedAfter, hm]
    | cons m rest =>
      have := h r rfl m rest hm
      simp [appendedAfter, hm, this]

theorem historyAttempts_unusable {σ : Type} (api : API σ) (c : Cleaner)
    (ParseFloat : String → Option Float64) (ch : Channel)
    (hu : ∀ s, givesNoActivity ParseFloat
      (api.GetConversationHistory s { ChannelID := ch.ID, Limit := 1 }).1) :
    ∀ (n : Nat) (s : σ) (history : Option GetConversationHistoryResponse),
      unusable ParseFloat history →
      appendedAfter c ParseFloat ch (historyAttempts api c ch n s history).1 = [] := by
  intro n
  induction n with
  | zero =>
    intro s history h
    exact appendedAfter_unusable c ParseFloat ch history h
  | succ n ih =>
    intro s history _
    have hus := hu s
    rw [historyAttempts]
    rcases hans : api.GetConversationHistory s { ChannelID := ch.ID, Limit := 1 } with ⟨ans, s1⟩
    rw [hans] at hus
    simp only at hus
    cases herr : ans.err with
    | none =>
      simp only [herr]
      rcases hus with ⟨e, he, -⟩ | hun
      · rw [herr] at he
        simp at he
      · exact appendedAfter_unusable c ParseFloat ch ans.history hun
    | some err =>
      simp only [herr]
      rcases hh : handleRateLimit c err with ⟨rateErr, evs⟩
      cases rateErr with
      | some e => rfl
      | none =>
        simp only
        apply ih s1 ans.history
        rcases hus with ⟨e, he, hnr⟩ | hun
        · rw [herr] at he
          simp only [Option.some.injEq] at he
          subst he
          rw [handleRateLimit_pass c err hnr] at hh
          simp at hh
        · exact hun

theorem processChannel_except {σ : Type} (api : API σ) (c : Cleaner)
    (ParseFloat : String → Option Float64) (H : GetConversationHistoryParameters → HistoryAnswer)
    (x : String)
    (hH : ∀ s p, p.ChannelID ≠ x → (api.GetConversationHistory s p).1 = H p)
    (hu : ∀ s, givesNoActivity ParseFloat
      (api.GetConversationHistory s { ChannelID := x, Limit := 1 }).1)
    (ch : Channel) (s : σ) (results : List ChannelInfo) :
    (processChannel api c ParseFloat ch s results).1
      = results ++ (if ch.ID = x then [] else selected c ParseFloat H ch) := by
  by_cases hid : ch.ID = x
  · rw [if_pos hid, processChannel_fst]
    have hu' : ∀ s, givesNoActivity ParseFloat
        (api.GetConversationHistory s { ChannelID := ch.ID, Limit := 1 }).1 := by
      rw [hid]
      exact hu
    rw [historyAttempts_unusable api c ParseFloat ch hu' 2 s none
      (fun r hr => by simp at hr)]
    simp
  · rw [if_neg hid, processChannel_fst,
      historyAttempts_fst api c ch _ (fun s => hH s { ChannelID := ch.ID, Limit := 1 } hid)]
    rfl

theorem paginate_except {σ : Type} (api : API σ) (c : Cleaner)
    (ParseFloat : String → Option Float64) (P : GetConversationsParameters → ConversationsAnswer)
    (H : GetConversationHistoryParameters → HistoryAnswer) (x : String)
    (hL : AnswersListing api P)
    (hH : ∀ s p, p.ChannelID ≠ x → (api.GetConversationHistory s p).1 = H p)
    (hu : ∀ s, givesNoActivity ParseFloat
      (api.GetConversationHistory s { ChannelID := x, Limit := 1 }).1)
    (n : Nat) (chans : List Channel) (hwalk : walk P c n "" = some chans) (s : σ) :
    ∃ s' evs, GetFilteredChannels api c ParseFloat n s
      = some ((chans.flatMap fun ch => if ch.ID = x then [] else selected c ParseFloat H ch,
          none), s', evs) := by
  obtain ⟨r, s', evs, hrun, hR⟩ := paginate_walk api c ParseFloat P hL
    (fun done res =>
      res = done.flatMap fun ch => if ch.ID = x then [] else selected c ParseFloat H ch)
    (by
      intro done ch s res hres
      rw [processChannel_except api c ParseFloat H x hH hu, hres]
      simp)
    n "" chans s [] [] hwalk rfl
  refine ⟨s', evs, ?_⟩
  rw [GetFilteredChannels, hrun]
  simp only [List.nil_append] at hR
  rw [hR]

/-- The run in which the probes go one after the other: let the listing answer without
error, and let every history request for channel `x` either fail with an error, whatever
the error (a rate-limit failure carrying no messages), or hold a most recent message
whose timestamp does not parse.  Then that run returns a nil error and no entry for `x`,
and its result is the one it returns against an API that answers the other channels
alike and the history request of `x` with zero messages. -/
theorem GetFilteredChannels_probe_failure {σ τ : Type} (api : API σ) (api' : API τ)
    (c : Cleaner) (ParseFloat : String → Option Float64)
    (P : GetConversationsParameters → ConversationsAnswer)
    (H : GetConversationHistoryParameters → HistoryAnswer)
    (hL : AnswersListing api P) (hL' : AnswersListing api' P) (x : String)
    (hH : ∀ s p, p.ChannelID ≠ x → (api.GetConversationHistory s p).1 = H p)
    (hH' : ∀ t p, p.ChannelID ≠ x → (api'.GetConversationHistory t p).1 = H p)
    (hnone : ∀ t, (api'.GetConversationHistory t { ChannelID := x, Limit := 1 }).1
      = { history := some { Messages := [] }, err := none })
    (hbad : ∀ s,
      (∃ e, (api.GetConversationHistory s { ChannelID := x, Limit := 1 }).1.err = some e ∧
        (isRateLimitFailure e = false ∨
          ∀ r, (api.GetConversationHistory s { ChannelID := x, Limit := 1 }).1.history = some r →
            r.Messages = [])) ∨
      ((api.GetConversationHistory s { ChannelID := x, Limit := 1 }).1.err = none ∧
        ∃ r m rest,
          (api.GetConversationHistory s { ChannelID := x, Limit := 1 }).1.history = some r ∧
          r.Messages = m :: rest ∧ ParseFloat m.Timestamp = none))
    (n : Nat) (chans : List Channel) (hwalk : walk P c n "" = some chans) (s : σ) (t : τ) :
    ∃ results s' evs t' evs',
      GetFilteredChannels api c ParseFloat n s = some ((results, none), s', evs) ∧
      GetFilteredChannels api' c ParseFloat n t = some ((results, none), t', evs') ∧
      ∀ info ∈ results, info.ID ≠ x := by
  have hu : ∀ s, givesNoActivity ParseFloat
      (api.GetConversationHistory s { ChannelID := x, Limit := 1 }).1 := by
    intro s
    rcases hbad s with ⟨e, he, hnr | hno⟩ | ⟨-, r, m, rest, hr, hm, hp⟩
    · exact Or.inl ⟨e, he, hnr⟩
    · refine Or.inr fun r hr m rest hm => ?_
      rw [hno r hr] at hm
      simp at hm
    · refine Or.inr fun r' hr' m' rest' hm' => ?_
      rw [hr] at hr'
      simp only [Option.some.injEq] at hr'
      subst hr'
      rw [hm] at hm'
      simp only [List.cons.injEq] at hm'
      rw [← hm'.1]
      exact hp
  have hu' : ∀ t, givesNoActivity ParseFloat
      (api'.GetConversationHistory t { ChannelID := x, Limit := 1 }).1 := by
    intro t
    rw [hnone t]
    refine Or.inr fun r hr m rest hm => ?_
    simp only [Option.some.injEq] at hr
    rw [← hr] at hm
    simp at hm
  obtain ⟨s', evs, hrun⟩ := paginate_except api c ParseFloat P H x hL hH hu n chans hwalk s
  obtain ⟨t', evs', hrun'⟩ :=
    paginate_except api' c ParseFloat P H x hL' hH' hu' n chans hwalk t
  refine ⟨_, s', evs, t', evs', hrun, hrun', ?_⟩
  intro info hinfo
  rw [List.mem_flatMap] at hinfo
  obtain ⟨ch, -, hi⟩ := hinfo
  by_cases hid : ch.ID = x
  · rw [if_pos hid] at hi
    simp at hi
  · rw [if_neg hid] at hi
    rw [selected_ID c ParseFloat H ch info hi]
    exact hid

theorem GetFilteredChannels_probe_failure_witness :
    ∃ results s' evs t' evs',
      GetFilteredChannels (failOnceThenAPI (.other "rate_limited") (.other "fatal"))
        exampleCleaner exampleParseFloat 1 0 = some ((results, none), s', evs) ∧
      GetFilteredChannels (statelessAPI twoChannelPage
          (historyExcept { history := some { Messages := [] }, err := none }))
        exampleCleaner exampleParseFloat 1 () = some ((results, none), t', evs') ∧
      ∀ info ∈ results, info.ID ≠ "C1" :=
  GetFilteredChannels_probe_failure
    (failOnceThenAPI (.other "rate_limited") (.other "fatal"))
    (statelessAPI twoChannelPage
      (historyExcept { history := some { Messages := [] }, err := none }))
    exampleCleaner exampleParseFloat twoChannelPage
    (historyExcept { history := none, err := none })
    (fun _ _ => rfl) (fun _ _ => rfl) "C1"
    (fun s p hp => by simp [failOnceThenAPI, historyExcept, hp])
    (fun t p hp => by simp [statelessAPI, historyExcept, hp])
    (fun _ => rfl)
    (fun s => Or.inl (by
      by_cases h : s = 0
      · exact ⟨.other "rate_limited", by simp [failOnceThenAPI, h], Or.inr (by
          simp [failOnceThenAPI, h])⟩
      · exact ⟨.other "fatal", by simp [failOnceThenAPI, h], Or.inl (by decide)⟩))
    1
    [{ ID := "C1", Name := "general", IsMember := true, IsPrivate := false },
     { ID := "C2", Name := "random", IsMember := true, IsPrivate := true }] (by decide) 0 ()

set_option maxRecDepth 100000 in
theorem GetFilteredChannels_probe_failure_run :
    GetFilteredChannels (failOnceThenAPI (.other "rate_limited") (.other "fatal"))
        exampleCleaner exampleParseFloat 1 0
      = some (([{ ID := "C2", Name := "random", LastSeen := 50000000000,
                  Type_ := "private" }], none), 2,
          [.GetConversations (listingParams exampleCleaner ""),
           .GetConversationHistory { ChannelID := "C1", Limit := 1 },
           .Sleep 30000000000,
           .GetConversationHistory { ChannelID := "C1", Limit := 1 },
           .GetConversationHistory { ChannelID := "C2", Limit := 1 },
           .Sleep 1000000000]) := by
  decide

/-! ## GetFilteredChannels: rate-limit failures during the walk -/

theorem insertRetries_noListing (c : Cleaner) (sched : List (List GoError))
    (evs1 evs2 : List Event) (h : noListing evs1 = true) :
    insertRetries c sched (evs1 ++ evs2) = evs1 ++ insertRetries c sched evs2 := by
  induction evs1 with
  | nil => rfl
  | cons ev rest ih =>
    simp only [noListing, List.all_cons, Bool.and_eq_true] at h
    have ih' := ih (by simpa [noListing] using h.2)
    cases ev with
    | GetConversations p => simp at h
    | GetConversationHistory p => simp [insertRetries, ih']
    | LeaveConversation id => simp [insertRetries, ih']
    | Sleep d => simp [insertRetries, ih']

theorem insertRetries_noListing_only (c : Cleaner) (sched : List (List GoError))
    (evs : List Event) (h : noListing evs = true) : insertRetries c sched evs = evs := by
  have := insertRetries_noListing c sched evs [] h
  simpa [insertRetries] using this

theorem noListing_append (evs1 evs2 : List Event) :
    noListing (evs1 ++ evs2) = (noListing evs1 && noListing evs2) := by
  simp [noListing, List.all_append]

theorem noListing_handleRateLimit (c : Cleaner) (err : GoError) :
    noListing (handleRateLimit c err).2 = true := by
  cases hr : isRateLimitFailure err with
  | true =>
    obtain ⟨d, hd⟩ := handleRateLimit_retry c err hr
    rw [hd]
    rfl
  | false =>
    rw [handleRateLimit_pass c err hr]
    rfl

theorem noListing_historyAttempts {σ : Type} (api : API σ) (c : Cleaner) (ch : Channel) :
    ∀ (n : Nat) (s : σ) (history : Option GetConversationHistoryResponse),
      noListing (historyAttempts api c ch n s history).2.2 = true := by
  intro n
  induction n with
  | zero => intro s history; rfl
  | succ n ih =>
    intro s history
    rw [historyAttempts]
    rcases hans : api.GetConversationHistory s { ChannelID := ch.ID, Limit := 1 } with ⟨ans, s1⟩
    cases herr : ans.err with
    | none => simp only [herr]; rfl
    | some err =>
      simp only [herr]
      have hh := noListing_handleRateLimit c err
      rcases hr : handleRateLimit c err with ⟨rateErr, evs⟩
      rw [hr] at hh
      cases rateErr with
      | some e => simpa [noListing] using hh
      | none =>
        have := ih s1 ans.history
        simp only [noListing, List.all_cons, List.all_append, Bool.and_eq_true] at hh this ⊢
        exact ⟨trivial, hh, this⟩

theorem noListing_processChannel {σ : Type} (api : API σ) (c : Cleaner)
    (ParseFloat : String → Option Float64) (ch : Channel) (s : σ) (results : List ChannelInfo) :
    noListing (processChannel api c ParseFloat ch s results).2.2 = true := by
  have hh := noListing_historyAttempts api c ch 2 s none
  unfold processChannel
  split
  · rfl
  · split
    · rfl
    · rcases hres : historyAttempts api c ch 2 s none with ⟨o, s1, evs⟩
      rw [hres] at hh
      simp only at hh
      cases o with
      | none => exact hh
      | some o =>
        cases o with
        | none => exact hh
        | some history =>
          simp only
          split
          · exact hh
          · split
            · exact hh
            · split
              · exact hh
              · rw [noListing_append, hh]
                rfl

theorem noListing_processChannels {σ : Type} (api : API σ) (c : Cleaner)
    (ParseFloat : String → Option Float64) :
    ∀ (page : List Channel) (s : σ) (results : List ChannelInfo),
      noListing (processChannels api c ParseFloat page s results).2.2 = true := by
  intro page
  induction page with
  | nil => intro s results; rfl
  | cons ch rest ih =>
    intro s results
    rw [processChannels]
    have h1 := noListing_processChannel api c ParseFloat ch s results
    rcases hp : processChannel api c ParseFloat ch s results with ⟨r1, s1, evs1⟩
    rw [hp] at h1
    have h2 := ih s1 r1
    simp only at h1 ⊢
    rw [noListing_append, h1, h2]
    rfl

theorem historyAttempts_withListingFailures {σ : Type} (api : API σ) (c : Cleaner)
    (ch : Channel) (sched : List (List GoError)) :
    ∀ (n : Nat) (s : σ) (history : Option GetConversationHistoryResponse),
      historyAttempts (withListingFailures api) c ch n (s, sched) history
        = ((historyAttempts api c ch n s history).1,
            ((historyAttempts api c ch n s history).2.1, sched),
            (historyAttempts api c ch n s history).2.2) := by
  intro n
  induction n with
  | zero => intro s history; rfl
  | succ n ih =>
    intro s history
    rw [historyAttempts, historyAttempts]
    have hcall : (withListingFailures api).GetConversationHistory (s, sched)
          { ChannelID := ch.ID, Limit := 1 }
        = ((api.GetConversationHistory s { ChannelID := ch.ID, Limit := 1 }).1,
            ((api.GetConversationHistory s { ChannelID := ch.ID, Limit := 1 }).2, sched)) := rfl
    rw [hcall]
    rcases hans : api.GetConversationHistory s { ChannelID := ch.ID, Limit := 1 } with ⟨ans, s1⟩
    simp only
    cases herr : ans.err with
    | none => simp only [herr]
    | some err =>
      simp only [herr]
      rcases hh : handleRateLimit c err with ⟨rateErr, evs⟩
      cases rateErr with
      | some e => rfl
      | none =>
        simp only
        rw [ih s1 ans.history]

theorem processChannel_withListingFailures {σ : Type} (api : API σ) (c : Cleaner)
    (ParseFloat : String → Option Float64) (ch : Channel) (sched : List (List GoError)) (s : σ)
    (results : List ChannelInfo) :
    processChannel (withListingFailures api) c ParseFloat ch (s, sched) results
      = ((processChannel api c ParseFloat ch s results).1,
          ((processChannel api c ParseFloat ch s results).2.1, sched),
          (processChannel api c ParseFloat ch s results).2.2) := by
  unfold processChannel
  rw [historyAttempts_withListingFailures]
  split
  · rfl
  · split
    · rfl
    · rcases hres : historyAttempts api c ch 2 s none with ⟨o, s1, evs⟩
      cases o with
      | none => rfl
      | some o =>
        cases o with
        | none => rfl
        | some history =>
          simp only
          split
          · rfl
          · split
            · rfl
            · split
              · rfl
              · rfl

theorem processChannels_withListingFailures {σ : Type} (api : API σ) (c : Cleaner)
    (ParseFloat : String → Option Float64) (sched : List (List GoError)) :
    ∀ (page : List Channel) (s : σ) (results : List ChannelInfo),
      processChannels (withListingFailures api) c ParseFloat page (s, sched) results
        = ((processChannels api c ParseFloat page s results).1,
            ((processChannels api c ParseFloat page s results).2.1, sched),
            (processChannels api c ParseFloat page s results).2.2) := by
  intro page
  induction page with
  | nil => intro s results; rfl
  | cons ch rest ih =>
    intro s results
    rw [processChannels, processChannels, processChannel_withListingFailures]
    rcases hp : processChannel api c ParseFloat ch s results with ⟨r1, s1, evs1⟩
    simp only
    rw [ih s1 r1]

theorem paginate_failed_attempts {σ : Type} (api : API σ) (c : Cleaner)
    (ParseFloat : String → Option Float64) (k : Nat) (s : σ) (sched : List (List GoError))
    (cursor : String) (results : List ChannelInfo) :
    ∀ (es : List GoError), (∀ e ∈ es, isRateLimitFailure e = true) →
      paginate (withListingFailures api) c ParseFloat (k + es.length) (s, es :: sched)
          cursor results
        = (paginate (withListingFailures api) c ParseFloat k (s, [] :: sched) cursor
            results).map fun x =>
              (x.1, x.2.1, retryEvents c (listingParams c cursor) es ++ x.2.2) := by
  intro es
  induction es with
  | nil =>
    intro _
    simp [retryEvents]
  | cons e es ih =>
    intro hes
    have he : isRateLimitFailure e = true := hes e (List.mem_cons_self _ _)
    have hes' : ∀ e' ∈ es, isRateLimitFailure e' = true := fun e' h =>
      hes e' (List.mem_cons_of_mem _ h)
    obtain ⟨d, hd⟩ := handleRateLimit_retry c e he
    have hfuel : k + (e :: es).length = (k + es.length) + 1 := by simp [Nat.add_assoc]
    rw [hfuel, paginate]
    have hcall : (withListingFailures api).GetConversations (s, (e :: es) :: sched)
          (listingParams c cursor)
        = ({ channels := [], nextCursor := "", err := some e }, (s, es :: sched)) := rfl
    rw [hcall]
    simp only [hd]
    rw [ih hes', Option.map_map]
    congr 1
    funext x
    simp [retryEvents, hd]

theorem paginate_withListingFailures {σ : Type} (api : API σ) (c : Cleaner)
    (ParseFloat : String → Option Float64) :
    ∀ (fuel : Nat) (s : σ) (sched : List (List GoError)) (cursor : String)
      (results : List ChannelInfo) (r : List ChannelInfo × Option GoError) (s' : σ)
      (evs : List Event),
      (∀ es ∈ sched, ∀ e ∈ es, isRateLimitFailure e = true) →
      paginate api c ParseFloat fuel s cursor results = some (r, s', evs) →
      ∃ rest, paginate (withListingFailures api) c ParseFloat (fuel + failureCount sched)
          (s, sched) cursor results
        = some (r, (s', rest), insertRetries c sched evs) := by
  intro fuel
  induction fuel with
  | zero => intro s sched cursor results r s' evs _ h; simp [paginate] at h
  | succ fuel ih =>
    intro s sched cursor results r s' evs hs hbase
    have core : ∀ (sched0 tl : List (List GoError)),
        ((sched0 = [] ∧ tl = []) ∨ sched0 = [] :: tl) →
        (∀ es ∈ tl, ∀ e ∈ es, isRateLimitFailure e = true) →
        ∃ rest evsTail, evs = .GetConversations (listingParams c cursor) :: evsTail ∧
          paginate (withListingFailures api) c ParseFloat (fuel + failureCount tl + 1)
              (s, sched0) cursor results
            = some (r, (s', rest),
                .GetConversations (listingParams c cursor) :: insertRetries c tl evsTail) := by
      intro sched0 tl hrel htl
      have hcall : (withListingFailures api).GetConversations (s, sched0)
            (listingParams c cursor)
          = ((api.GetConversations s (listingParams c cursor)).1,
              ((api.GetConversations s (listingParams c cursor)).2, tl)) := by
        rcases hrel with ⟨rfl, rfl⟩ | rfl <;> rfl
      rw [paginate] at hbase ⊢
      rw [hcall]
      rcases hans : api.GetConversations s (listingParams c cursor) with ⟨ans, s1⟩
      rw [hans] at hbase
      simp only at hbase ⊢
      cases herr : ans.err with
      | some err =>
        simp only [herr] at hbase ⊢
        have hnl := noListing_handleRateLimit c err
        rcases hh : handleRateLimit c err with ⟨rateErr, evsH⟩
        rw [hh] at hbase hnl
        simp only at hnl
        cases rateErr with
        | some e' =>
          simp only [Option.some.injEq, Prod.mk.injEq] at hbase
          obtain ⟨hr, hs', hevs⟩ := hbase
          subst hr hs' hevs
          exact ⟨tl, evsH, rfl, by rw [insertRetries_noListing_only c tl evsH hnl]⟩
        | none =>
          simp only [Option.map_eq_some'] at hbase
          obtain ⟨⟨r2, s2, evs2⟩, hrec, heq⟩ := hbase
          simp only [Prod.mk.injEq] at heq
          obtain ⟨hr, hs', hevs⟩ := heq
          subst hr hs' hevs
          obtain ⟨rest, hrun⟩ := ih s1 tl cursor results r2 s2 evs2 htl hrec
          refine ⟨rest, evsH ++ evs2, rfl, ?_⟩
          simp only
          rw [hrun, insertRetries_noListing c tl evsH evs2 hnl]
          rfl
      | none =>
        simp only [herr] at hbase ⊢
        rw [processChannels_withListingFailures]
        have hnl := noListing_processChannels api c ParseFloat ans.channels s1 results
        rcases hp : processChannels api c ParseFloat ans.channels s1 results with ⟨r1, s2, evs1⟩
        rw [hp] at hbase hnl
        simp only at hbase hnl ⊢
        by_cases hc : ans.nextCursor = ""
        · simp only [hc, if_true, Option.some.injEq, Prod.mk.injEq] at hbase ⊢
          obtain ⟨hr, hs', hevs⟩ := hbase
          subst hr hs' hevs
          exact ⟨tl, evs1, rfl, by rw [insertRetries_noListing_only c tl evs1 hnl]; simp⟩
        · simp only [hc, if_false, Option.map_eq_some'] at hbase ⊢
          obtain ⟨⟨r2, s3, evs2⟩, hrec, heq⟩ := hbase
          simp only [Prod.mk.injEq] at heq
          obtain ⟨hr, hs', hevs⟩ := heq
          subst hr hs' hevs
          obtain ⟨rest, hrun⟩ := ih s2 tl ans.nextCursor r1 r2 s3 evs2 htl hrec
          refine ⟨rest, evs1 ++ evs2, rfl, ?_⟩
          rw [hrun, insertRetries_noListing c tl evs1 evs2 hnl]
          exact ⟨_, rfl, rfl⟩
    cases sched with
    | nil =>
      obtain ⟨rest, evsTail, hevs, hrun⟩ := core [] [] (Or.inl ⟨rfl, rfl⟩) (by simp)
      refine ⟨rest, ?_⟩
      have hfuel : fuel + 1 + failureCount [] = fuel + failureCount [] + 1 := by
        simp [failureCount]
      rw [hfuel, hrun, hevs]
      simp [insertRetries, retryEvents]
    | cons es tl =>
      have htl : ∀ es' ∈ tl, ∀ e ∈ es', isRateLimitFailure e = true := fun es' h =>
        hs es' (List.mem_cons_of_mem _ h)
      obtain ⟨rest, evsTail, hevs, hrun⟩ := core ([] :: tl) tl (Or.inr rfl) htl
      refine ⟨rest, ?_⟩
      have hfuel : fuel + 1 + failureCount (es :: tl)
          = (fuel + failureCount tl + 1) + es.length := by
        simp [failureCount]
        omega
      rw [hfuel, paginate_failed_attempts api c ParseFloat _ s tl cursor results es
        (hs es (List.mem_cons_self _ _)), hrun, hevs]
      simp [insertRetries]

/-- C4: putting any finite number of rate-limit failures in front of any listing answers
does not change what `GetFilteredChannels` does.  Whenever the run against `api` returns,
the run against the failing API returns the same results and error and leaves `api` in
the same state, and its events are those of the failure-free run with, in front of each
listing request, one failed attempt per scheduled failure carrying the same request (same
cursor) followed by the wait: no page is processed twice and none is skipped. -/
theorem GetFilteredChannels_rate_limit_retries {σ : Type} (api : API σ) (c : Cleaner)
    (ParseFloat : String → Option Float64) (fuel : Nat) (s : σ) (sched : List (List GoError))
    (r : List ChannelInfo × Option GoError) (s' : σ) (evs : List Event)
    (hsched : ∀ es ∈ sched, ∀ e ∈ es, isRateLimitFailure e = true)
    (hbase : GetFilteredChannels api c ParseFloat fuel s = some (r, s', evs)) :
    ∃ rest, GetFilteredChannels (withListingFailures api) c ParseFloat
        (fuel + failureCount sched) (s, sched)
      = some (r, (s', rest), insertRetries c sched evs) :=
  paginate_withListingFailures api c ParseFloat fuel s sched "" [] r s' evs hsched hbase

theorem GetFilteredChannels_rate_limit_retries_witness :
    ∃ rest, GetFilteredChannels (withListingFailures (statelessAPI twoPages historyAtFifty))
        exampleCleaner exampleParseFloat (2 + failureCount failuresBeforeSecondPage)
        ((), failuresBeforeSecondPage)
      = some (([{ ID := "C1", Name := "general", LastSeen := 50000000000, Type_ := "public" },
                { ID := "C2", Name := "random", LastSeen := 50000000000, Type_ := "private" }],
              none), ((), rest),
          insertRetries exampleCleaner failuresBeforeSecondPage
            [.GetConversations (listingParams exampleCleaner ""),
             .GetConversationHistory { ChannelID := "C1", Limit := 1 },
             .Sleep 1000000000,
             .GetConversations (listingParams exampleCleaner "p2"),
             .GetConversationHistory { ChannelID := "C2", Limit := 1 },
             .Sleep 1000000000]) :=
  GetFilteredChannels_rate_limit_retries (statelessAPI twoPages historyAtFifty)
    exampleCleaner exampleParseFloat 2 () failuresBeforeSecondPage _ () _ (by decide)
    (by decide)

theorem GetFilteredChannels_two_failures_run :
    GetFilteredChannels (withListingFailures (statelessAPI twoPages historyAtFifty))
        exampleCleaner exampleParseFloat 4 ((), failuresBeforeSecondPage)
      = some (([{ ID := "C1", Name := "general", LastSeen := 50000000000, Type_ := "public" },
                { ID := "C2", Name := "random", LastSeen := 50000000000, Type_ := "private" }],
              none), ((), []),
          [.GetConversations (listingParams exampleCleaner ""),
           .GetConversationHistory { ChannelID := "C1", Limit := 1 },
           .Sleep 1000000000,
           .GetConversations (listingParams exampleCleaner "p2"),
           .Sleep 30000000000,
           .GetConversations (listingParams exampleCleaner "p2"),
           .Sleep 2000000000,
           .GetConversations (listingParams exampleCleaner "p2"),
           .GetConversationHistory { ChannelID := "C2", Limit := 1 },
           .Sleep 1000000000]) := by
  decide

/-! ## config: ValidateConfig and LoadConfig -/

theorem validateTypes_eq_find (types : List String) :
    validateTypes types
      = match types.find? (fun t => decide (t ≠ "public" ∧ t ≠ "private")) with
        | some t =>
          some (.other ("invalid channel type: " ++ t ++ " (must be 'public' or 'private')"))
        | none => none := by
  induction types with
  | nil => rfl
  | cons t rest ih =>
    by_cases h : t ≠ "public" ∧ t ≠ "private"
    · simp [validateTypes, List.find?, h]
    · rw [validateTypes, if_neg h, ih]
      simp [List.find?, h]

theorem validateTypes_none_iff (types : List String) :
    validateTypes types = none ↔ ∀ t ∈ types, t = "public" ∨ t = "private" := by
  induction types with
  | nil => simp [validateTypes]
  | cons t rest ih =>
    by_cases h : t ≠ "public" ∧ t ≠ "private"
    · simp only [validateTypes, if_pos h, List.mem_cons, forall_eq_or_imp]
      constructor
      · intro hh
        simp at hh
      · rintro ⟨h1 | h1, -⟩
        · exact absurd h1 h.1
        · exact absurd h1 h.2
    · rw [validateTypes, if_neg h, ih]
      simp only [List.mem_cons, forall_eq_or_imp]
      constructor
      · intro hr
        refine ⟨?_, hr⟩
        by_cases h1 : t = "public"
        · exact Or.inl h1
        · by_cases h2 : t = "private"
          · exact Or.inr h2
          · exact absurd ⟨h1, h2⟩ h
      · exact fun hr => hr.2

theorem ValidateConfig_none_iff (config : AppConfig) :
    ValidateConfig config = none ↔
      1 ≤ config.Days ∧ 1 ≤ config.Limit ∧ config.Types ≠ [] ∧
        ∀ t ∈ config.Types, t = "public" ∨ t = "private" := by
  unfold ValidateConfig
  by_cases h1 : config.Days < 1
  · simp only [if_pos h1]
    constructor
    · intro h; simp at h
    · rintro ⟨h, -⟩; omega
  · by_cases h2 : config.Limit < 1
    · simp only [if_neg h1, if_pos h2]
      constructor
      · intro h; simp at h
      · rintro ⟨-, h, -⟩; omega
    · by_cases h3 : config.Types.length = 0
      · simp only [if_neg h1, if_neg h2, if_pos h3]
        constructor
        · intro h; simp at h
        · rintro ⟨-, -, h, -⟩
          exact absurd (List.length_eq_zero.mp h3) h
      · simp only [if_neg h1, if_neg h2, if_neg h3, validateTypes_none_iff]
        constructor
        · intro h
          exact ⟨by omega, by omega, fun hn => h3 (by simp [hn]), h⟩
        · exact fun h => h.2.2.2

/-- C11: `ValidateConfig` returns nil exactly when `Days >= 1`, `Limit >= 1`, `Types` is
not empty and every element of `Types` is "public" or "private"; otherwise the error is
that of the first violated condition, in the order days, limit, empty types, first
invalid type. -/
theorem ValidateConfig_spec (config : AppConfig) :
    (ValidateConfig config = none ↔
      1 ≤ config.Days ∧ 1 ≤ config.Limit ∧ config.Types ≠ [] ∧
        ∀ t ∈ config.Types, t = "public" ∨ t = "private") ∧
    ValidateConfig config
      = if config.Days < 1 then some (.other "days must be at least 1")
        else if config.Limit < 1 then some (.other "limit must be at least 1")
        else if config.Types = [] then
          some (.other "at least one channel type must be specified")
        else
          match config.Types.find? (fun t => decide (t ≠ "public" ∧ t ≠ "private")) with
          | some t =>
            some (.other ("invalid channel type: " ++ t ++ " (must be 'public' or 'private')"))
          | none => none := by
  constructor
  · exact ValidateConfig_none_iff config
  · unfold ValidateConfig
    rw [validateTypes_eq_find]
    simp only [List.length_eq_zero]

/-- C16 as stated fails: a file whose `types` holds a name other than "public" and
"private" is returned by `LoadConfig` as it is, and `ValidateConfig` rejects it. -/
theorem LoadConfig_keeps_unknown_type :
    LoadConfig (fun _ => .ok "data") (fun _ => .ok archivedTypeConfig) "config/app.json"
      = (some archivedTypeConfig, none) ∧
    ValidateConfig archivedTypeConfig
      = some (.other "invalid channel type: archived (must be 'public' or 'private')") := by
  constructor <;> decide

theorem LoadConfig_ok (ReadFile : String → Except GoError String)
    (Unmarshal : String → Except GoError AppConfig) (path data : String) (parsed : AppConfig)
    (hread : ReadFile path = .ok data) (hparse : Unmarshal data = .ok parsed) :
    LoadConfig ReadFile Unmarshal path = (some (withDefaults parsed), none) := by
  obtain ⟨d, l, t, v, k⟩ := parsed
  simp only [LoadConfig, hread, hparse, withDefaults]
  by_cases h1 : d ≤ 0 <;> by_cases h2 : l ≤ 0 <;> by_cases h3 : t.length = 0 <;>
    simp [h1, h2, h3]

theorem ValidateConfig_withDefaults (parsed : AppConfig) :
    ValidateConfig (withDefaults parsed) = none ↔
      ∀ t ∈ parsed.Types, t = "public" ∨ t = "private" := by
  have hD : ¬ (withDefaults parsed).Days < 1 := by
    simp only [withDefaults]
    split <;> omega
  have hL : ¬ (withDefaults parsed).Limit < 1 := by
    simp only [withDefaults]
    split <;> omega
  by_cases h3 : parsed.Types.length = 0
  · have hT : (withDefaults parsed).Types = ["public"] := by
      simp only [withDefaults, if_pos h3]
    have hnil : parsed.Types = [] := List.length_eq_zero.mp h3
    simp [ValidateConfig, hD, hL, hT, hnil, validateTypes]
  · have hT : (withDefaults parsed).Types = parsed.Types := by
      simp only [withDefaults, if_neg h3]
    rw [ValidateConfig, if_neg hD, if_neg hL, hT, if_neg h3, validateTypes_none_iff]

/-- C16 amended: for every parsed file content, the configuration `LoadConfig` returns
has `Days >= 1`, `Limit >= 1` and a non-empty `Types`; the elements of `Types` are not
checked, so `ValidateConfig` accepts the result exactly when every type of the file is
"public" or "private". -/
theorem LoadConfig_defaults (ReadFile : String → Except GoError String)
    (Unmarshal : String → Except GoError AppConfig) (path data : String) (parsed : AppConfig)
    (hread : ReadFile path = .ok data) (hparse : Unmarshal data = .ok parsed) :
    ∃ config, LoadConfig ReadFile Unmarshal path = (some config, none) ∧
      1 ≤ config.Days ∧ 1 ≤ config.Limit ∧ config.Types ≠ [] ∧
      (ValidateConfig config = none ↔ ∀ t ∈ parsed.Types, t = "public" ∨ t = "private") := by
  refine ⟨withDefaults parsed, LoadConfig_ok ReadFile Unmarshal path data parsed hread hparse,
    ?_, ?_, ?_, ValidateConfig_withDefaults parsed⟩
  · simp only [withDefaults]
    split <;> omega
  · simp only [withDefaults]
    split <;> omega
  · simp only [withDefaults]
    split
    · exact List.cons_ne_nil _ _
    · intro hn
      simp_all

theorem LoadConfig_defaults_witness :
    ∃ config, LoadConfig (fun _ => .ok "data") (fun _ => .ok archivedTypeConfig)
        "config/app.json" = (some config, none) ∧
      1 ≤ config.Days ∧ 1 ≤ config.Limit ∧ config.Types ≠ [] ∧
      (ValidateConfig config = none ↔
        ∀ t ∈ archivedTypeConfig.Types, t = "public" ∨ t = "private") :=
  LoadConfig_defaults (fun _ => .ok "data") (fun _ => .ok archivedTypeConfig)
    "config/app.json" "data" archivedTypeConfig rfl rfl

/-! ## GetChannelTypes -/

theorem getChannelTypesLoop_eq (ToLower : String → String) (types result : List String) :
    getChannelTypesLoop ToLower types result
      = result ++ types.filterMap (apiTypeOf ToLower) := by
  induction types generalizing result with
  | nil => simp [getChannelTypesLoop]
  | cons t rest ih =>
    rw [getChannelTypesLoop]
    by_cases h1 : stringsTrimSpace (ToLower t) = "public"
    · simp [h1, ih, apiTypeOf, List.filterMap_cons]
    · by_cases h2 : stringsTrimSpace (ToLower t) = "private"
      · simp [h1, h2, ih, apiTypeOf, List.filterMap_cons]
      · simp [h1, h2, ih, apiTypeOf, List.filterMap_cons]

/-- C14: `GetChannelTypes` returns the input with each element lower-cased and trimmed,
"public" turned into "public_channel", "private" into "private_channel" and every other
element dropped, in input order, or exactly ["public_channel"] when nothing remains; the
result is never empty and holds only these two names. -/
theorem GetChannelTypes_spec (ToLower : String → String) (types : List String) :
    GetChannelTypes ToLower types
      = (if types.filterMap (apiTypeOf ToLower) = [] then ["public_channel"]
         else types.filterMap (apiTypeOf ToLower)) ∧
    GetChannelTypes ToLower types ≠ [] ∧
    ∀ x ∈ GetChannelTypes ToLower types, x = "public_channel" ∨ x = "private_channel" := by
  have hmem : ∀ x ∈ types.filterMap (apiTypeOf ToLower),
      x = "public_channel" ∨ x = "private_channel" := by
    intro x hx
    rw [List.mem_filterMap] at hx
    obtain ⟨t, -, ht⟩ := hx
    unfold apiTypeOf at ht
    split at ht
    · simp only [Option.some.injEq] at ht
      exact Or.inl ht.symm
    · split at ht
      · simp only [Option.some.injEq] at ht
        exact Or.inr ht.symm
      · simp at ht
  have heq : GetChannelTypes ToLower types
      = (if types.filterMap (apiTypeOf ToLower) = [] then ["public_channel"]
         else types.filterMap (apiTypeOf ToLower)) := by
    simp only [GetChannelTypes, getChannelTypesLoop_eq, List.nil_append, List.length_eq_zero]
  refine ⟨heq, ?_, ?_⟩
  · rw [heq]
    split
    · exact List.cons_ne_nil _ _
    · assumption
  · rw [heq]
    split
    · intro x hx
      simp only [List.mem_singleton] at hx
      exact Or.inl hx
    · exact hmem

/-! ## LeaveChannels: the error returned -/

/-- C12: when the leave requests for the items before item `k` succeed and the one for
item `k`, a channel named `n`, fails with an error `e` that is not a rate-limit failure,
the error `LeaveChannels` returns has the message "failed to leave #" followed by `n`,
": " and the message of `e`, and wraps `e`. -/
theorem LeaveChannels_error_message {σ : Type} (api : API σ) (c : Cleaner)
    (channels : List ChannelInfo) (s : σ) (k : Nat) (e : GoError)
    (hok : ∀ i, i < k → (leaveAnswers api s channels)[i]? = some none)
    (hfail : (leaveAnswers api s channels)[k]? = some (some e))
    (hnr : isRateLimitFailure e = false) :
    ∃ ch err, channels[k]? = some ch ∧ (LeaveChannels api c channels s).1 = some err ∧
      err.Error = "failed to leave #" ++ ch.Name ++ ": " ++ e.Error ∧
      err.Unwrap = some e := by
  induction channels generalizing s k with
  | nil => simp [leaveAnswers] at hfail
  | cons ch rest ih =>
    rcases hans : api.LeaveConversation s ch.ID with ⟨a, s1⟩
    have hla : leaveAnswers api s (ch :: rest) = a :: leaveAnswers api s1 rest := by
      simp [leaveAnswers, hans]
    rw [hla] at hok hfail
    cases k with
    | zero =>
      have ha : a = some e := by simpa using hfail
      subst ha
      refine ⟨ch, .wrapped ("failed to leave #" ++ ch.Name ++ ": " ++ e.Error) e, by simp, ?_,
        rfl, rfl⟩
      simp [LeaveChannels, hans, handleRateLimit_pass c e hnr]
    | succ k =>
      have ha : a = none := by
        have := hok 0 (by omega)
        simpa using this
      subst ha
      have hok' : ∀ i, i < k → (leaveAnswers api s1 rest)[i]? = some none := by
        intro i hi
        have := hok (i + 1) (by omega)
        simpa using this
      have hfail' : (leaveAnswers api s1 rest)[k]? = some (some e) := by simpa using hfail
      obtain ⟨ch', err, h1, h2, h3, h4⟩ := ih s1 k hok' hfail'
      refine ⟨ch', err, by simpa using h1, ?_, h3, h4⟩
      simp [LeaveChannels, hans, h2]

theorem LeaveChannels_error_message_witness :
    ∃ ch err, threeChannels[1]? = some ch ∧
      (LeaveChannels failSecondLeaveAPI exampleCleaner threeChannels 0).1 = some err ∧
      err.Error = "failed to leave #" ++ ch.Name ++ ": "
        ++ (GoError.other "channel_not_found").Error ∧
      err.Unwrap = some (.other "channel_not_found") :=
  LeaveChannels_error_message failSecondLeaveAPI exampleCleaner threeChannels 0 1
    (.other "channel_not_found") (by decide) (by decide) (by decide)

/-! ## GetFilteredChannels: the attempts of one probe -/

theorem historyAttempts_succ_ok {σ : Type} (api : API σ) (c : Cleaner) (ch : Channel)
    (n : Nat) (s : σ) (history : Option GetConversationHistoryResponse)
    (h : (api.GetConversationHistory s { ChannelID := ch.ID, Limit := 1 }).1.err = none) :
    historyAttempts api c ch (n + 1) s history
      = (some (api.GetConversationHistory s { ChannelID := ch.ID, Limit := 1 }).1.history,
          (api.GetConversationHistory s { ChannelID := ch.ID, Limit := 1 }).2,
          [.GetConversationHistory { ChannelID := ch.ID, Limit := 1 }]) := by
  rw [historyAttempts]
  rcases hans : api.GetConversationHistory s { ChannelID := ch.ID, Limit := 1 } with ⟨a, s1⟩
  rw [hans] at h
  simp only at h
  simp only [h]

theorem historyAttempts_succ_fatal {σ : Type} (api : API σ) (c : Cleaner) (ch : Channel)
    (n : Nat) (s : σ) (history : Option GetConversationHistoryResponse) (e : GoError)
    (h : (api.GetConversationHistory s { ChannelID := ch.ID, Limit := 1 }).1.err = some e)
    (hnr : isRateLimitFailure e = false) :
    historyAttempts api c ch (n + 1) s history
      = (none, (api.GetConversationHistory s { ChannelID := ch.ID, Limit := 1 }).2,
          [.GetConversationHistory { ChannelID := ch.ID, Limit := 1 }]) := by
  rw [historyAttempts]
  rcases hans : api.GetConversationHistory s { ChannelID := ch.ID, Limit := 1 } with ⟨a, s1⟩
  rw [hans] at h
  simp only at h
  simp only [h, handleRateLimit_pass c e hnr]

theorem historyAttempts_succ_retry {σ : Type} (api : API σ) (c : Cleaner) (ch : Channel)
    (n : Nat) (s : σ) (history : Option GetConversationHistoryResponse) (e : GoError)
    (h : (api.GetConversationHistory s { ChannelID := ch.ID, Limit := 1 }).1.err = some e)
    (hr : isRateLimitFailure e = true) :
    ∃ d, historyAttempts api c ch (n + 1) s history
      = ((historyAttempts api c ch n
            (api.GetConversationHistory s { ChannelID := ch.ID, Limit := 1 }).2
            (api.GetConversationHistory s { ChannelID := ch.ID, Limit := 1 }).1.history).1,
          (historyAttempts api c ch n
            (api.GetConversationHistory s { ChannelID := ch.ID, Limit := 1 }).2
            (api.GetConversationHistory s { ChannelID := ch.ID, Limit := 1 }).1.history).2.1,
          .GetConversationHistory { ChannelID := ch.ID, Limit := 1 } :: .Sleep d ::
            (historyAttempts api c ch n
              (api.GetConversationHistory s { ChannelID := ch.ID, Limit := 1 }).2
              (api.GetConversationHistory s { ChannelID := ch.ID, Limit := 1 }).1.history).2.2) := by
  obtain ⟨d, hd⟩ := handleRateLimit_retry c e hr
  refine ⟨d, ?_⟩
  rw [historyAttempts]
  rcases hans : api.GetConversationHistory s { ChannelID := ch.ID, Limit := 1 } with ⟨a, s1⟩
  rw [hans] at h
  simp only at h
  simp only [h, hd, List.singleton_append]

theorem historyRequests_append (evs1 evs2 : List Event) :
    historyRequests (evs1 ++ evs2) = historyRequests evs1 ++ historyRequests evs2 := by
  induction evs1 with
  | nil => rfl
  | cons ev rest ih =>
    cases ev <;> simp [historyRequests, ih]

theorem processChannel_events {σ : Type} (api : API σ) (c : Cleaner)
    (ParseFloat : String → Option Float64) (ch : Channel) (s : σ) (results : List ChannelInfo)
    (hp : passesChecks c ch = true) :
    historyRequests (processChannel api c ParseFloat ch s results).2.2
      = historyRequests (historyAttempts api c ch 2 s none).2.2 := by
  have h1 : (!ch.IsMember || c.SkipChannels.get ch.Name) = false := by
    simp only [passesChecks, Bool.and_eq_true, Bool.not_eq_true'] at hp
    simp [hp.1.1, hp.1.2]
  have h2 : (c.Keyword != "" && !stringsContains ch.Name c.Keyword) = false := by
    simp only [passesChecks, Bool.and_eq_true, Bool.or_eq_true, beq_iff_eq] at hp
    rcases hp.2 with hk | hk
    · simp [hk]
    · simp [hk]
  unfold processChannel
  rw [h1, h2]
  simp only [Bool.false_eq_true, if_false]
  rcases hres : historyAttempts api c ch 2 s none with ⟨o, s1, evs⟩
  cases o with
  | none => rfl
  | some o =>
    cases o with
    | none => rfl
    | some history =>
      simp only
      split
      · rfl
      · split
        · rfl
        · split
          · rfl
          · simp [historyRequests_append, historyRequests]

/-- A probe that runs to its end on its own: for a channel that passes the membership,
skip-list and keyword checks it sends one or two history requests, each for that channel
with `Limit` 1; it sends two exactly when the first is answered with a rate-limit
failure; and when the attempts made all fail (a rate-limit failure at the second attempt
carrying no messages) nothing is appended for the channel. -/
theorem processChannel_attempts {σ : Type} (api : API σ) (c : Cleaner)
    (ParseFloat : String → Option Float64) (ch : Channel) (s : σ) (results : List ChannelInfo)
    (hp : passesChecks c ch = true) :
    (historyRequests (processChannel api c ParseFloat ch s results).2.2
        = [{ ChannelID := ch.ID, Limit := 1 }] ∨
      historyRequests (processChannel api c ParseFloat ch s results).2.2
        = [{ ChannelID := ch.ID, Limit := 1 }, { ChannelID := ch.ID, Limit := 1 }]) ∧
    (historyRequests (processChannel api c ParseFloat ch s results).2.2
        = [{ ChannelID := ch.ID, Limit := 1 }, { ChannelID := ch.ID, Limit := 1 }] ↔
      ∃ e, (api.GetConversationHistory s { ChannelID := ch.ID, Limit := 1 }).1.err = some e ∧
        isRateLimitFailure e = true) ∧
    (∀ e1, (api.GetConversationHistory s { ChannelID := ch.ID, Limit := 1 }).1.err = some e1 →
      (isRateLimitFailure e1 = true →
        ∃ e2, (api.GetConversationHistory
            (api.GetConversationHistory s { ChannelID := ch.ID, Limit := 1 }).2
            { ChannelID := ch.ID, Limit := 1 }).1.err = some e2 ∧
          (isRateLimitFailure e2 = true →
            ∀ r, (api.GetConversationHistory
                (api.GetConversationHistory s { ChannelID := ch.ID, Limit := 1 }).2
                { ChannelID := ch.ID, Limit := 1 }).1.history = some r → r.Messages = [])) →
      (processChannel api c ParseFloat ch s results).1 = results) := by
  rw [processChannel_events api c ParseFloat ch s results hp, processChannel_fst, if_pos hp]
  cases herr : (api.GetConversationHistory s { ChannelID := ch.ID, Limit := 1 }).1.err with
  | none =>
    rw [historyAttempts_succ_ok api c ch 1 s none herr]
    refine ⟨Or.inl rfl, ?_, ?_⟩
    · simp [historyRequests]
    · intro e1 he1
      simp at he1
  | some e =>
    cases hr : isRateLimitFailure e with
    | false =>
      rw [historyAttempts_succ_fatal api c ch 1 s none e herr hr]
      refine ⟨Or.inl rfl, ?_, ?_⟩
      · simp only [historyRequests, List.cons.injEq, true_and, Option.some.injEq,
          exists_eq_left', hr]
        simp
      · intro e1 _ _
        simp [appendedAfter]
    | true =>
      obtain ⟨d, hd⟩ := historyAttempts_succ_retry api c ch 1 s none e herr hr
      rw [hd]
      have hreq : historyRequests
          (historyAttempts api c ch 1
            (api.GetConversationHistory s { ChannelID := ch.ID, Limit := 1 }).2
            (api.GetConversationHistory s { ChannelID := ch.ID, Limit := 1 }).1.history).2.2
          = [{ ChannelID := ch.ID, Limit := 1 }] := by
        cases herr2 : (api.GetConversationHistory
            (api.GetConversationHistory s { ChannelID := ch.ID, Limit := 1 }).2
            { ChannelID := ch.ID, Limit := 1 }).1.err with
        | none =>
          rw [historyAttempts_succ_ok api c ch 0 _ _ herr2]
          rfl
        | some e2 =>
          cases hr2 : isRateLimitFailure e2 with
          | false =>
            rw [historyAttempts_succ_fatal api c ch 0 _ _ e2 herr2 hr2]
            rfl
          | true =>
            obtain ⟨d2, hd2⟩ := historyAttempts_succ_retry api c ch 0 _ _ e2 herr2 hr2
            rw [hd2]
            rfl
      refine ⟨Or.inr ?_, ?_, ?_⟩
      · simp [historyRequests, hreq]
      · simp only [historyRequests, hreq, Option.some.injEq, exists_eq_left', hr]
      · intro e1 he1 hboth
        simp only [Option.some.injEq] at he1
        subst he1
        obtain ⟨e2, herr2, hno⟩ := hboth hr
        simp only
        cases hr2 : isRateLimitFailure e2 with
        | false =>
          rw [historyAttempts_succ_fatal api c ch 0 _ _ e2 herr2 hr2]
          simp [appendedAfter]
        | true =>
          obtain ⟨d2, hd2⟩ := historyAttempts_succ_retry api c ch 0 _ _ e2 herr2 hr2
          rw [hd2]
          simp only [historyAttempts]
          rw [appendedAfter_no_messages c ParseFloat ch _ (hno hr2)]
          simp

theorem processChannel_attempts_witness :
    (historyRequests (processChannel (failOnceThenAPI (.other "rate_limited") (.other "fatal"))
          exampleCleaner exampleParseFloat
          { ID := "C1", Name := "general", IsMember := true, IsPrivate := false } 0 []).2.2
        = [{ ChannelID := "C1", Limit := 1 }, { ChannelID := "C1", Limit := 1 }] ↔
      ∃ e, ((failOnceThenAPI (.other "rate_limited") (.other "fatal")).GetConversationHistory 0
          { ChannelID := "C1", Limit := 1 }).1.err = some e ∧
        isRateLimitFailure e = true) :=
  (processChannel_attempts (failOnceThenAPI (.other "rate_limited") (.other "fatal"))
    exampleCleaner exampleParseFloat
    { ID := "C1", Name := "general", IsMember := true, IsPrivate := false } 0 []
    (by decide)).2.1

/-! ## model: lookups and slices of the views -/

/-- C17, the code at the failing input: a search that finds no channel leads to the
results screen with an empty list; "G" sets the cursor to `len(channels) - 1 = -1`,
space puts -1 into the selection and enter opens the confirmation screen.  There the
guard `i < len(m.channels)` holds for -1, and the lookup `m.channels[i]` of
`renderConfirmationScreen` and of `leaveSelectedChannels` panics. -/
theorem Update_selects_negative_index :
    emptyResultsRun.map (fun r => r.1.state) = some .ConfirmationScreen ∧
    emptyResultsRun.map (fun r => r.1.channels) = some [] ∧
    emptyResultsRun.map (fun r => r.1.selected) = some [-1] ∧
    emptyResultsRun.map (fun r => renderConfirmationScreen r.1) = some none ∧
    emptyResultsRun.map (fun r => leaveSelectedChannels r.1) = some none := by
  refine ⟨by decide, by decide, by decide, by decide, by decide⟩

set_option maxRecDepth 100000 in
/-- C18, the code at the failing input: with twelve names in the skip list, moving down
to the last one sets `skipListOffset` to 2; removing eleven names leaves one name and
the offset at 2, and the slice `m.skipChoices[2:1]` of `renderSkipListView` panics. -/
theorem Update_leaves_offset_behind :
    removeElevenRun.map (fun r => r.1.state) = some .SkipListScreen ∧
    removeElevenRun.map (fun r => r.1.skipListMode) = some "view" ∧
    removeElevenRun.map (fun r => r.1.skipChoices) = some ["c01"] ∧
    removeElevenRun.map (fun r => r.1.skipListOffset) = some 2 ∧
    removeElevenRun.map (fun r => renderSkipListView r.1) = some none := by
  refine ⟨by decide, by decide, by decide, by decide, by decide⟩

/-! ## model: the window of the results screen -/

theorem handleResultsScreen_keeps (m : model) (key : String)
    (hinv : resultsInvariant m) :
    resultsInvariant (handleResultsScreen m key) ∧
      (handleResultsScreen m key).channels = m.channels := by
  obtain ⟨h1, h2, h3, h4⟩ := hinv
  unfold handleResultsScreen
  by_cases k1 : key = "ctrl+c" ∨ key = "q"
  · rw [if_pos k1]
    exact ⟨⟨h1, h2, h3, h4⟩, rfl⟩
  rw [if_neg k1]
  by_cases k2 : key = "up" ∨ key = "k"
  · rw [if_pos k2]
    by_cases c1 : m.cursor > 0
    · simp only [c1, ↓reduceIte]
      split_ifs <;> exact ⟨by simp only [resultsInvariant]; omega, rfl⟩
    · simp only [c1, ↓reduceIte]
      split_ifs <;> exact ⟨by simp only [resultsInvariant]; omega, rfl⟩
  rw [if_neg k2]
  by_cases k3 : key = "down" ∨ key = "j"
  · rw [if_pos k3]
    by_cases c1 : m.cursor < (m.channels.length : Int) - 1
    · simp only [c1, ↓reduceIte]
      split_ifs <;> exact ⟨by simp only [resultsInvariant]; omega, rfl⟩
    · simp only [c1, ↓reduceIte]
      split_ifs <;> exact ⟨by simp only [resultsInvariant]; omega, rfl⟩
  rw [if_neg k3]
  by_cases k4 : key = " "
  · rw [if_pos k4]
    split_ifs <;> exact ⟨⟨h1, h2, h3, h4⟩, rfl⟩
  rw [if_neg k4]
  by_cases k5 : key = "enter"
  · rw [if_pos k5]
    split_ifs <;> exact ⟨⟨h1, h2, h3, h4⟩, rfl⟩
  rw [if_neg k5]
  by_cases k6 : key = "pageup" ∨ key = "b"
  · rw [if_pos k6]
    split_ifs <;> exact ⟨by simp only [resultsInvariant]; omega, rfl⟩
  rw [if_neg k6]
  by_cases k7 : key = "pagedown" ∨ key = "f"
  · rw [if_pos k7]
    by_cases c1 : m.cursor + 12 < (m.channels.length : Int)
    · simp only [c1, ↓reduceIte]
      exact ⟨by simp only [resultsInvariant]; omega, trivial⟩
    · simp only [c1, ↓reduceIte]
      split_ifs <;> exact ⟨by simp only [resultsInvariant]; omega, rfl⟩
  rw [if_neg k7]
  by_cases k8 : key = "home" ∨ key = "g"
  · rw [if_pos k8]
    exact ⟨by simp only [resultsInvariant]; omega, rfl⟩
  rw [if_neg k8]
  by_cases k9 : key = "end" ∨ key = "G"
  · rw [if_pos k9]
    simp only
    split_ifs <;> exact ⟨by simp only [resultsInvariant]; omega, rfl⟩
  rw [if_neg k9]
  by_cases k10 : key = "t"
  · rw [if_pos k10]
    exact ⟨⟨h1, h2, h3, h4⟩, rfl⟩
  rw [if_neg k10]
  exact ⟨⟨h1, h2, h3, h4⟩, rfl⟩

theorem renderResultsScreen_shows_cursor (m : model) (hinv : resultsInvariant m) :
    ∃ page, renderResultsScreen m = some page ∧
      goIndex page (m.cursor - m.resultsOffset) = goIndex m.channels m.cursor ∧
      (goIndex m.channels m.cursor).isSome = true := by
  obtain ⟨h1, h2, h3, h4⟩ := hinv
  have hlen : m.channels.length ≠ 0 := by
    intro h
    rw [h] at h3
    simp at h3
    omega
  have hcur : goIndex m.channels m.cursor = m.channels[m.cursor.toNat]? := by
    rw [goIndex, if_pos ⟨by omega, h3⟩]
  have hsome : (goIndex m.channels m.cursor).isSome = true := by
    rw [hcur]
    have : m.cursor.toNat < m.channels.length := by omega
    simp [this]
  unfold renderResultsScreen
  rw [if_neg hlen]
  simp only
  by_cases hend : m.resultsOffset + 12 > (m.channels.length : Int)
  · rw [if_pos hend, goSlice, if_pos ⟨h1, by omega, le_refl _⟩]
    refine ⟨_, rfl, ?_, hsome⟩
    rw [hcur, goIndex, if_pos]
    · rw [List.getElem?_take, if_pos (by omega), List.getElem?_drop]
      congr 1
      omega
    · constructor
      · omega
      · simp only [List.length_take, List.length_drop]
        omega
  · rw [if_neg hend, goSlice, if_pos ⟨h1, by omega, by omega⟩]
    refine ⟨_, rfl, ?_, hsome⟩
    rw [hcur, goIndex, if_pos]
    · rw [List.getElem?_take, if_pos (by omega), List.getElem?_drop]
      congr 1
      omega
    · constructor
      · omega
      · simp only [List.length_take, List.length_drop]
        omega

/-- C19: for a non-empty channel list, the state `channelsLoadedMsg` sets has
`0 <= resultsOffset <= cursor < len(channels)` and `cursor < resultsOffset + 12`; every
key handled by `handleResultsScreen` keeps this and the list; and under it the page
`renderResultsScreen` slices exists and holds the row of the cursor. -/
theorem handleResultsScreen_window {δ : Type} (env : Env δ) (m : model) (d : δ)
    (channels : List ChannelInfo) (hne : channels ≠ []) :
    (∃ m1 cmd, Update env m d (.channelsLoadedMsg channels) = some (m1, d, cmd) ∧
      m1.channels = channels ∧ m1.cursor = 0 ∧ m1.resultsOffset = 0 ∧ resultsInvariant m1) ∧
    (∀ (m1 : model) (key : String), resultsInvariant m1 →
      resultsInvariant (handleResultsScreen m1 key) ∧
      (handleResultsScreen m1 key).channels = m1.channels) ∧
    (∀ m1 : model, resultsInvariant m1 →
      ∃ page, renderResultsScreen m1 = some page ∧
        goIndex page (m1.cursor - m1.resultsOffset) = goIndex m1.channels m1.cursor ∧
        (goIndex m1.channels m1.cursor).isSome = true) := by
  refine ⟨⟨_, _, rfl, rfl, rfl, rfl, ?_⟩, fun m1 key h =>
    handleResultsScreen_keeps m1 key h,
    renderResultsScreen_shows_cursor⟩
  have hlen : 0 < channels.length := List.length_pos.mpr hne
  simp only [resultsInvariant]
  omega

theorem handleResultsScreen_window_witness :
    ∃ m1 cmd, Update noFilesEnv (InitialModel noFilesEnv ()) ()
        (.channelsLoadedMsg threeChannels) = some (m1, (), cmd) ∧
      m1.channels = threeChannels ∧ m1.cursor = 0 ∧ m1.resultsOffset = 0 ∧
      resultsInvariant m1 :=
  (handleResultsScreen_window noFilesEnv (InitialModel noFilesEnv ()) () threeChannels
    (by decide)).1

/-! ## model: saveConfigField -/

theorem validTypesLoop_valid (types validTypes : List String)
    (h : ∀ t ∈ validTypes, t = "public" ∨ t = "private") :
    ∀ t ∈ validTypesLoop types validTypes, t = "public" ∨ t = "private" := by
  induction types generalizing validTypes with
  | nil => simpa [validTypesLoop] using h
  | cons t rest ih =>
    rw [validTypesLoop]
    split
    · apply ih
      intro x hx
      rw [List.mem_append, List.mem_singleton] at hx
      rcases hx with hx | hx
      · exact h x hx
      · rw [hx]
        assumption
    · exact ih validTypes h

theorem saveConfigFieldSwitch_valid (Atoi : String → Option Int) (m : model)
    (hvalid : ValidateConfig m.config = none) :
    ValidateConfig (saveConfigFieldSwitch Atoi m).config = none := by
  rw [ValidateConfig_none_iff] at hvalid ⊢
  obtain ⟨h1, h2, h3, h4⟩ := hvalid
  unfold saveConfigFieldSwitch
  by_cases e1 : m.editingField = "days"
  · rw [if_pos e1]
    cases Atoi m.configInput with
    | none => exact ⟨h1, h2, h3, h4⟩
    | some days =>
      simp only
      split_ifs
      · exact ⟨by simp only; omega, h2, h3, h4⟩
      · exact ⟨h1, h2, h3, h4⟩
  rw [if_neg e1]
  by_cases e2 : m.editingField = "limit"
  · rw [if_pos e2]
    cases Atoi m.configInput with
    | none => exact ⟨h1, h2, h3, h4⟩
    | some limit =>
      simp only
      split_ifs
      · exact ⟨h1, by simp only; omega, h3, h4⟩
      · exact ⟨h1, h2, h3, h4⟩
  rw [if_neg e2]
  by_cases e3 : m.editingField = "types"
  · rw [if_pos e3]
    split_ifs with hlen
    · refine ⟨h1, h2, ?_, ?_⟩
      · simp only
        intro hn
        rw [hn] at hlen
        simp at hlen
      · exact validTypesLoop_valid _ [] (by simp)
    · exact ⟨h1, h2, h3, h4⟩
  rw [if_neg e3]
  by_cases e4 : m.editingField = "verbose"
  · rw [if_pos e4]
    split_ifs <;> exact ⟨h1, h2, h3, h4⟩
  rw [if_neg e4]
  by_cases e5 : m.editingField = "keyword"
  · rw [if_pos e5]
    exact ⟨h1, h2, h3, h4⟩
  rw [if_neg e5]
  exact ⟨h1, h2, h3, h4⟩

theorem saveConfigFieldSwitch_rejects (Atoi : String → Option Int) (m : model)
    (hfield : m.editingField = "days" ∨ m.editingField = "limit")
    (hbad : ∀ n, Atoi m.configInput = some n → n ≤ 0) :
    saveConfigFieldSwitch Atoi m = m := by
  unfold saveConfigFieldSwitch
  by_cases e1 : m.editingField = "days"
  · rw [if_pos e1]
    cases ha : Atoi m.configInput with
    | none => rfl
    | some days =>
      have := hbad days ha
      simp only
      rw [if_neg (by omega)]
  rw [if_neg e1]
  have e2 : m.editingField = "limit" := hfield.resolve_left e1
  rw [if_pos e2]
  cases ha : Atoi m.configInput with
  | none => rfl
  | some limit =>
    have := hbad limit ha
    simp only
    rw [if_neg (by omega)]

theorem saveConfigFieldSwitch_rejects_types (Atoi : String → Option Int) (m : model)
    (hfield : m.editingField = "types")
    (hbad : validTypesLoop (stringsSplit m.configInput ',') [] = []) :
    saveConfigFieldSwitch Atoi m = m := by
  unfold saveConfigFieldSwitch
  have e1 : ¬ m.editingField = "days" := by rw [hfield]; decide
  have e2 : ¬ m.editingField = "limit" := by rw [hfield]; decide
  rw [if_neg e1, if_neg e2, if_pos hfield, hbad]
  rfl

/-- C20: `saveConfigField` turns a configuration that `ValidateConfig` accepts into one
it accepts, whatever the field being edited and the input, and clears `editingField`
and `configInput`; an input for days or limit that is not a number or is not positive,
and an input for types without a valid type, leave the configuration as it was. -/
theorem saveConfigField_valid (Atoi : String → Option Int) (m : model)
    (hvalid : ValidateConfig m.config = none) :
    ValidateConfig (saveConfigField Atoi m).config = none ∧
    (saveConfigField Atoi m).editingField = "" ∧
    (saveConfigField Atoi m).configInput = "" ∧
    ((m.editingField = "days" ∨ m.editingField = "limit") →
      (∀ n, Atoi m.configInput = some n → n ≤ 0) →
      (saveConfigField Atoi m).config = m.config) ∧
    (m.editingField = "types" →
      validTypesLoop (stringsSplit m.configInput ',') [] = [] →
      (saveConfigField Atoi m).config = m.config) := by
  refine ⟨saveConfigFieldSwitch_valid Atoi m hvalid, rfl, rfl, fun hfield hbad => ?_,
    fun hfield hbad => ?_⟩
  · show (saveConfigFieldSwitch Atoi m).config = m.config
    rw [saveConfigFieldSwitch_rejects Atoi m hfield hbad]
  · show (saveConfigFieldSwitch Atoi m).config = m.config
    rw [saveConfigFieldSwitch_rejects_types Atoi m hfield hbad]

theorem saveConfigField_valid_witness :
    ValidateConfig (saveConfigField (fun s => s.toInt?)
        { InitialModel noFilesEnv () with editingField := "days", configInput := "7" }).config
      = none :=
  (saveConfigField_valid (fun s => s.toInt?)
    { InitialModel noFilesEnv () with editingField := "days", configInput := "7" }
    (by decide)).1

/-! ## The probe pool -/

theorem count_set_of_ne (l : List ProbePhase) (i : Nat) (old new target : ProbePhase)
    (hget : l[i]? = some old) (hold : old ≠ target) (hnew : new = target) :
    (l.set i new).count target = l.count target + 1 := by
  induction l generalizing i with
  | nil => simp at hget
  | cons a rest ih =>
    cases i with
    | zero =>
      simp only [List.getElem?_cons_zero, Option.some.injEq] at hget
      subst hget hnew
      simp [List.count_cons, hold]
    | succ i =>
      simp only [List.getElem?_cons_succ] at hget
      simp only [List.set_cons_succ, List.count_cons, ih i hget]
      omega

theorem count_set_to_ne (l : List ProbePhase) (i : Nat) (old new target : ProbePhase)
    (hget : l[i]? = some old) (hold : old = target) (hnew : new ≠ target) :
    (l.set i new).count target + 1 = l.count target := by
  induction l generalizing i with
  | nil => simp at hget
  | cons a rest ih =>
    cases i with
    | zero =>
      simp only [List.getElem?_cons_zero, Option.some.injEq] at hget
      subst hget hold
      simp [List.count_cons, hnew]
    | succ i =>
      simp only [List.getElem?_cons_succ] at hget
      simp only [List.set_cons_succ, List.count_cons]
      have := ih i hget
      omega

theorem ProbePool.step_invariant (p p1 : ProbePool) (a : PoolAction)
    (hinv : p.inFlight = p.semaphore ∧ p.semaphore ≤ 5) (hstep : p.step a = some p1) :
    p1.inFlight = p1.semaphore ∧ p1.semaphore ≤ 5 := by
  obtain ⟨h1, h2⟩ := hinv
  cases a with
  | start =>
    simp only [ProbePool.step, Option.some.injEq] at hstep
    subst hstep
    simp only [ProbePool.inFlight] at h1 ⊢
    simp [List.count_append, List.count_cons, h1, h2]
  | send i =>
    simp only [ProbePool.step] at hstep
    split at hstep
    · rename_i hc
      simp only [Option.some.injEq] at hstep
      subst hstep
      simp only [ProbePool.inFlight] at h1 ⊢
      rw [count_set_of_ne p.goroutines i .waiting .probing .probing hc.1 (by decide) rfl, h1]
      exact ⟨rfl, by omega⟩
    · simp at hstep
  | receive i =>
    simp only [ProbePool.step] at hstep
    split at hstep
    · rename_i hc
      simp only [Option.some.injEq] at hstep
      subst hstep
      simp only [ProbePool.inFlight] at h1 ⊢
      have := count_set_to_ne p.goroutines i .probing .finished .probing hc.1 rfl (by decide)
      exact ⟨by omega, by omega⟩
    · simp at hstep

theorem ProbePool.run_invariant (actions : List PoolAction) :
    ∀ (p p1 : ProbePool), (p.inFlight = p.semaphore ∧ p.semaphore ≤ 5) →
      p.run actions = some p1 → p1.inFlight = p1.semaphore ∧ p1.semaphore ≤ 5 := by
  induction actions with
  | nil =>
    intro p p1 hinv hrun
    simp only [ProbePool.run, Option.some.injEq] at hrun
    subst hrun
    exact hinv
  | cons a rest ih =>
    intro p p1 hinv hrun
    rw [ProbePool.run] at hrun
    cases hs : p.step a with
    | none => simp [hs] at hrun
    | some p2 =>
      simp only [hs] at hrun
      exact ih p2 p1 (ProbePool.step_invariant p p2 a hinv hs) hrun

/-- C13: in every state the probe goroutines of a run of `GetFilteredChannels` can reach,
however many are started and however their steps interleave, at most 5 probes are in
flight. -/
theorem GetFilteredChannels_probes_in_flight (actions : List PoolAction) (p : ProbePool)
    (hrun : ProbePool.run { goroutines := [], semaphore := 0 } actions = some p) :
    p.inFlight ≤ 5 := by
  have := ProbePool.run_invariant actions { goroutines := [], semaphore := 0 } p
    ⟨rfl, by decide⟩ hrun
  omega

theorem ProbePool.sixth_send_blocked :
    ProbePool.step { goroutines := [.probing, .probing, .probing, .probing, .probing, .waiting],
                     semaphore := 5 } (.send 5) = none := by
  decide

theorem GetFilteredChannels_probes_in_flight_witness :
    (ProbePool.run { goroutines := [], semaphore := 0 }
        [.start, .start, .send 1, .start, .send 0, .receive 1, .send 2]
      = some { goroutines := [.probing, .finished, .probing], semaphore := 2 }) ∧
    ProbePool.inFlight { goroutines := [.probing, .finished, .probing], semaphore := 2 } ≤ 5 :=
  ⟨by decide, GetFilteredChannels_probes_in_flight
    [.start, .start, .send 1, .start, .send 0, .receive 1, .send 2] _ (by decide)⟩

/-! ## SaveSkipList and LoadSkipList: round trip -/

theorem GoMap.mem_keys_set (m : GoMap) (k k' : String) :
    k' ∈ (GoMap.set m k true).keys ↔ k' = k ∨ k' ∈ m.keys := by
  induction m with
  | nil => simp [GoMap.set, GoMap.keys]
  | cons p rest ih =>
    obtain ⟨a, v⟩ := p
    by_cases h : a = k
    · subst h
      simp [GoMap.set, GoMap.keys]
    · simp only [GoMap.keys] at ih
      simp only [GoMap.set, if_neg h, GoMap.keys, List.map_cons, List.mem_cons, ih]
      tauto

theorem GoMap.get_set_self (m : GoMap) (k : String) :
    GoMap.get (GoMap.set m k true) k = true := by
  rw [GoMap.get_set]
  simp

theorem mem_keys_foldl_set (list : List String) (m : GoMap) (k : String) :
    k ∈ (list.foldl (fun skipMap name => skipMap.set (stringsTrimSpace name) true) m).keys ↔
      k ∈ m.keys ∨ ∃ name ∈ list, stringsTrimSpace name = k := by
  induction list generalizing m with
  | nil => simp
  | cons n rest ih =>
    rw [List.foldl_cons, ih, GoMap.mem_keys_set]
    simp only [List.mem_cons, exists_eq_or_imp]
    constructor
    · rintro ((h | h) | h)
      · exact Or.inr (Or.inl h.symm)
      · exact Or.inl h
      · exact Or.inr (Or.inr h)
    · rintro (h | h | h)
      · exact Or.inl (Or.inr h)
      · exact Or.inl (Or.inl h.symm)
      · exact Or.inr h

theorem get_of_mem_keys_true (m : GoMap) (h : ∀ k ∈ m.keys, GoMap.get m k = true)
    (k : String) : ∀ k' ∈ (GoMap.set m k true).keys, GoMap.get (GoMap.set m k true) k' = true := by
  intro k' hk'
  rw [GoMap.mem_keys_set] at hk'
  rw [GoMap.get_set]
  rcases hk' with hk' | hk'
  · simp [hk']
  · simp [h k' hk']

theorem get_foldl_set_true (list : List String) (m : GoMap)
    (h : ∀ k ∈ m.keys, GoMap.get m k = true) :
    ∀ k ∈ (list.foldl (fun skipMap name => skipMap.set (stringsTrimSpace name) true) m).keys,
      GoMap.get (list.foldl (fun skipMap name => skipMap.set (stringsTrimSpace name) true) m) k
        = true := by
  induction list generalizing m with
  | nil => simpa using h
  | cons n rest ih =>
    rw [List.foldl_cons]
    exact ih _ (get_of_mem_keys_true m h _)

/-- C21: for a skip map whose keys carry no leading or trailing white space, when the
name array `SaveSkipList` marshals is written and read back as it is, `SaveSkipList`
returns nil, and `LoadSkipList` returns nil and a map with exactly the keys of the saved
map, each mapped to true; the empty map comes back as the empty map. -/
theorem SkipList_round_trip {δ : Type} (MarshalIndent : List String → Except GoError String)
    (WriteFile : δ → String → String → Option GoError × δ)
    (ReadFile : δ → String → Except GoError String)
    (Unmarshal : String → Except GoError (List String)) (path : String) (skipList : GoMap)
    (d : δ) (data : String)
    (hkeys : ∀ k ∈ skipList.keys, stringsTrimSpace k = k)
    (hmarshal : MarshalIndent skipList.keys = .ok data)
    (hjson : Unmarshal data = .ok skipList.keys)
    (hwrite : (WriteFile d path data).1 = none)
    (hread : ReadFile (WriteFile d path data).2 path = .ok data) :
    (SaveSkipList MarshalIndent WriteFile path skipList d).1 = none ∧
    (LoadSkipList (ReadFile (SaveSkipList MarshalIndent WriteFile path skipList d).2)
      Unmarshal path).2 = none ∧
    (∀ k, k ∈ (LoadSkipList (ReadFile (SaveSkipList MarshalIndent WriteFile path skipList d).2)
        Unmarshal path).1.keys ↔ k ∈ skipList.keys) ∧
    (∀ k ∈ (LoadSkipList (ReadFile (SaveSkipList MarshalIndent WriteFile path skipList d).2)
        Unmarshal path).1.keys,
      GoMap.get (LoadSkipList (ReadFile (SaveSkipList MarshalIndent WriteFile path skipList d).2)
        Unmarshal path).1 k = true) ∧
    (skipList = [] →
      (LoadSkipList (ReadFile (SaveSkipList MarshalIndent WriteFile path skipList d).2)
        Unmarshal path).1 = []) := by
  have hsave : SaveSkipList MarshalIndent WriteFile path skipList d
      = WriteFile d path data := by
    simp only [SaveSkipList, hmarshal]
  have hload : LoadSkipList (ReadFile (WriteFile d path data).2) Unmarshal path
      = (skipList.keys.foldl
          (fun (skipMap : GoMap) name => skipMap.set (stringsTrimSpace name) true) [],
          none) := by
    simp only [LoadSkipList, hread, hjson]
  rw [hsave, hload]
  refine ⟨hwrite, rfl, fun k => ?_, ?_, fun hempty => ?_⟩
  · simp only [mem_keys_foldl_set]
    constructor
    · rintro (h | ⟨name, hname, htrim⟩)
      · simp [GoMap.keys] at h
      · rw [← htrim, hkeys name hname]
        exact hname
    · intro h
      exact Or.inr ⟨k, h, hkeys k h⟩
  · exact get_foldl_set_true skipList.keys [] (by simp [GoMap.keys])
  · rw [hempty]
    rfl

theorem SkipList_round_trip_witness :
    (LoadSkipList (oneFileEnvRead (SaveSkipList (fun _ => .ok "names") oneFileEnvWrite
        "config/skiplist.json" twoNameSkipList none).2)
      (fun _ => .ok ["general", "random"]) "config/skiplist.json").2 = none ∧
    (∀ k, k ∈ (LoadSkipList (oneFileEnvRead (SaveSkipList (fun _ => .ok "names")
          oneFileEnvWrite "config/skiplist.json" twoNameSkipList none).2)
        (fun _ => .ok ["general", "random"]) "config/skiplist.json").1.keys ↔
      k ∈ twoNameSkipList.keys) :=
  ⟨(SkipList_round_trip (fun _ => .ok "names") oneFileEnvWrite oneFileEnvRead
      (fun _ => .ok ["general", "random"]) "config/skiplist.json" twoNameSkipList none
      "names" (by decide) rfl rfl rfl rfl).2.1,
   (SkipList_round_trip (fun _ => .ok "names") oneFileEnvWrite oneFileEnvRead
      (fun _ => .ok ["general", "random"]) "config/skiplist.json" twoNameSkipList none
      "names" (by decide) rfl rfl rfl rfl).2.2.1⟩

theorem SkipList_round_trip_run :
    LoadSkipList (oneFileEnvRead (SaveSkipList (fun _ => .ok "names") oneFileEnvWrite
        "config/skiplist.json" twoNameSkipList none).2)
      (fun _ => .ok ["general", "random"]) "config/skiplist.json"
      = ([("general", true), ("random", true)], none) := by
  decide

/-! ## GetFilteredChannels: a listing request that fails for good -/

theorem listingRequests_noListing (evs1 evs2 : List Event) (h : noListing evs1 = true) :
    listingRequests (evs1 ++ evs2) = listingRequests evs2 := by
  induction evs1 with
  | nil => rfl
  | cons ev evs1 ih =>
    simp only [noListing, List.all_cons, Bool.and_eq_true] at h
    have ih' := ih (by simpa [noListing] using h.2)
    cases ev with
    | GetConversations p => simp at h
    | GetConversationHistory p => simpa [listingRequests] using ih'
    | LeaveConversation id => simpa [listingRequests] using ih'
    | Sleep d => simpa [listingRequests] using ih'

theorem paginate_walkAfter {σ : Type} (api : API σ) (c : Cleaner)
    (ParseFloat : String → Option Float64) (s : σ) (cursor : String)
    (results : List ChannelInfo) (e : GoError)
    (hfail : (api.GetConversations s (listingParams c cursor)).1.err = some e)
    (hnr : isRateLimitFailure e = false) (k : Nat) :
    ∀ (s0 : σ) (cursor0 : String) (results0 : List ChannelInfo),
      walkAfter api c ParseFloat k s0 cursor0 results0 = some (s, cursor, results) →
      ∃ evs0, (listingRequests evs0).length = k ∧
        ∀ extra, paginate api c ParseFloat (k + 1 + extra) s0 cursor0 results0
          = some (([], some e), (api.GetConversations s (listingParams c cursor)).2,
              evs0 ++ [.GetConversations (listingParams c cursor)]) := by
  induction k with
  | zero =>
    intro s0 cursor0 results0 hw
    simp only [walkAfter, Option.some.injEq, Prod.mk.injEq] at hw
    obtain ⟨rfl, rfl, rfl⟩ := hw
    refine ⟨[], rfl, fun extra => ?_⟩
    have : 0 + 1 + extra = extra + 1 := by omega
    rw [this, paginate_fatal_step api c ParseFloat extra s0 cursor0 results0 e hfail hnr]
    rfl
  | succ k ih =>
    intro s0 cursor0 results0 hw
    rw [walkAfter] at hw
    rcases hans : api.GetConversations s0 (listingParams c cursor0) with ⟨ans, s1⟩
    rw [hans] at hw
    cases herr : ans.err with
    | some err =>
      simp only [herr] at hw
      rcases hh : handleRateLimit c err with ⟨rateErr, evsH⟩
      rw [hh] at hw
      cases rateErr with
      | some rateErr => simp at hw
      | none =>
        simp only at hw
        obtain ⟨evs0, hlen, hrun⟩ := ih s1 cursor0 results0 hw
        have hnl : noListing evsH = true := by
          have := noListing_handleRateLimit c err
          rw [hh] at this
          exact this
        refine ⟨.GetConversations (listingParams c cursor0) :: (evsH ++ evs0), ?_, fun extra => ?_⟩
        · simp only [listingRequests, List.length_cons]
          rw [listingRequests_noListing evsH evs0 hnl, hlen]
        · have : k + 1 + 1 + extra = (k + 1 + extra) + 1 := by omega
          rw [this, paginate, hans]
          simp only [herr, hh]
          rw [hrun extra]
          simp
    | none =>
      simp only [herr] at hw
      by_cases hc : ans.nextCursor = ""
      · simp [hc] at hw
      · rw [if_neg hc] at hw
        obtain ⟨evs0, hlen, hrun⟩ := ih _ _ _ hw
        have hnl := noListing_processChannels api c ParseFloat ans.channels s1 results0
        rcases hp : processChannels api c ParseFloat ans.channels s1 results0 with
          ⟨r1, s2, evs1⟩
        rw [hp] at hrun hnl
        simp only at hrun hnl
        refine ⟨.GetConversations (listingParams c cursor0) :: (evs1 ++ evs0), ?_, fun extra => ?_⟩
        · simp only [listingRequests, List.length_cons]
          rw [listingRequests_noListing evs1 evs0 hnl, hlen]
        · have : k + 1 + 1 + extra = (k + 1 + extra) + 1 := by omega
          rw [this, paginate, hans]
          simp only [herr, hp, hc, if_false]
          rw [hrun extra]
          simp

/-- C5: let the walk of `GetFilteredChannels` from the API state `s0` reach, after `k`
listing requests (pages listed and processed, or failures that were retried), the API
state `s` with the cursor `cursor`, earlier pages having appended `results`.  If the
listing request sent there fails with an error that is not a rate-limit failure, then
`GetFilteredChannels`, given fuel for these `k + 1` requests, returns that same error
with nil results, whatever `results` holds; it sends `k + 1` listing requests in all,
the failed one being its last event.  Conversely a run that returns an error returns
nil results, the error is not a rate-limit failure, and the last event of the run is a
listing request. -/
theorem GetFilteredChannels_fatal_listing_error {σ : Type} (api : API σ) (c : Cleaner)
    (ParseFloat : String → Option Float64) :
    (∀ (k : Nat) (s0 s : σ) (cursor : String) (results : List ChannelInfo) (e : GoError),
      walkAfter api c ParseFloat k s0 "" [] = some (s, cursor, results) →
      (api.GetConversations s (listingParams c cursor)).1.err = some e →
      isRateLimitFailure e = false →
      ∃ evs0, (listingRequests evs0).length = k ∧
        ∀ extra, GetFilteredChannels api c ParseFloat (k + 1 + extra) s0
          = some (([], some e), (api.GetConversations s (listingParams c cursor)).2,
              evs0 ++ [.GetConversations (listingParams c cursor)])) ∧
    (∀ (fuel : Nat) (s : σ) (r : List ChannelInfo) (e : GoError) (s' : σ) (evs : List Event),
      GetFilteredChannels api c ParseFloat fuel s = some ((r, some e), s', evs) →
      r = [] ∧ isRateLimitFailure e = false ∧
        ∃ evs0 cur, evs = evs0 ++ [.GetConversations (listingParams c cur)]) := by
  constructor
  · intro k s0 s cursor results e hw hfail hnr
    exact paginate_walkAfter api c ParseFloat s cursor results e hfail hnr k s0 "" [] hw
  · intro fuel s r e s' evs h
    exact paginate_error_result api c ParseFloat fuel s "" [] r e s' evs h

set_option maxRecDepth 100000 in
theorem GetFilteredChannels_fatal_listing_error_witness :
    walkAfter fatalSecondPageAPI exampleCleaner exampleParseFloat 1 0 "" []
      = some (1, "p2",
          [{ ID := "C1", Name := "general", LastSeen := 50000000000, Type_ := "public" }]) ∧
    ∃ evs0, (listingRequests evs0).length = 1 ∧
      ∀ extra, GetFilteredChannels fatalSecondPageAPI exampleCleaner exampleParseFloat
          (1 + 1 + extra) 0
        = some (([], some (.other "invalid_auth")),
            (fatalSecondPageAPI.GetConversations 1 (listingParams exampleCleaner "p2")).2,
            evs0 ++ [.GetConversations (listingParams exampleCleaner "p2")]) :=
  ⟨by decide,
    (GetFilteredChannels_fatal_listing_error fatalSecondPageAPI exampleCleaner
      exampleParseFloat).1 1 0 1 "p2"
      [{ ID := "C1", Name := "general", LastSeen := 50000000000, Type_ := "public" }]
      (.other "invalid_auth") (by decide) (by decide) (by decide)⟩

/-! ## GetFilteredChannels: the variable `err` the probes of a page share -/

set_option maxRecDepth 100000 in
/-- C7, the code at the failing input.  The page holds the channels "C1" and "C2"; every
history request for "C1" fails with "channel_not_found", and the most recent message of
"C2" was sent at 50 s, before the cutoff of 100.25 s.  Under the schedule where the
probe of "C2" gets its answer, the probe of "C1" then gets its failure, and only then the
probe of "C2" tests `err`, the probe of "C2" reads the error of "C1" and returns: the
call returns no channel.  Under the schedule where the probe of "C1" runs to its end
before the probe of "C2" starts, and when "C1" has no history instead, "C2" is
returned. -/
theorem GetFilteredChannels_probe_failure_drops_other_channel :
    (GetFilteredChannelsScheduled
        (statelessAPI twoChannelPage
          (historyExcept { history := none, err := some (.other "channel_not_found") }))
        exampleCleaner exampleParseFloat [0, 1, 2, 2, 1, 2, 1, 0] ()).map (fun g => g.main)
      = some (.returned [] none) ∧
    (GetFilteredChannelsScheduled
        (statelessAPI twoChannelPage
          (historyExcept { history := none, err := some (.other "channel_not_found") }))
        exampleCleaner exampleParseFloat [0, 1, 2, 2, 1, 2, 1, 0] ()).map (fun g => g.events)
      = some [.GetConversations (listingParams exampleCleaner ""),
          .GetConversationHistory { ChannelID := "C2", Limit := 1 },
          .GetConversationHistory { ChannelID := "C1", Limit := 1 }] ∧
    (GetFilteredChannelsScheduled
        (statelessAPI twoChannelPage
          (historyExcept { history := none, err := some (.other "channel_not_found") }))
        exampleCleaner exampleParseFloat [0, 1, 1, 1, 2, 2, 2, 2, 0] ()).map (fun g => g.main)
      = some (.returned [{ ID := "C2", Name := "random", LastSeen := 50000000000,
                           Type_ := "private" }] none) ∧
    (GetFilteredChannelsScheduled
        (statelessAPI twoChannelPage
          (historyExcept { history := some { Messages := [] }, err := none }))
        exampleCleaner exampleParseFloat [0, 1, 2, 2, 1, 2, 2, 1, 1, 0] ()).map
        (fun g => g.main)
      = some (.returned [{ ID := "C2", Name := "random", LastSeen := 50000000000,
                           Type_ := "private" }] none) ∧
    (GetFilteredChannels
        (statelessAPI twoChannelPage
          (historyExcept { history := some { Messages := [] }, err := none }))
        exampleCleaner exampleParseFloat 1 ()).map (fun r => r.1)
      = some ([{ ID := "C2", Name := "random", LastSeen := 50000000000,
                 Type_ := "private" }], none) := by
  refine ⟨by decide, by decide, by decide, by decide, by decide⟩

set_option maxRecDepth 100000 in
/-- C15, the code at the failing input.  The page holds the channels "C1" and "C2"; every
history request for "C1" fails with "rate_limited", and every history request for "C2"
is answered without error.  Under the schedule where the probe of "C2" gets its answer,
the probe of "C1" then gets its failure, and only then the probe of "C2" tests `err`,
the probe of "C2" reads the failure of "C1", sleeps 30 s and sends a second history
request, though its first did not fail; the probe of "C1" then reads the nil error of
"C2" and leaves its loop after one request. -/
theorem GetFilteredChannels_retries_after_another_probes_failure :
    (GetFilteredChannelsScheduled
        (statelessAPI twoChannelPage
          (historyExcept { history := none, err := some (.other "rate_limited") }))
        exampleCleaner exampleParseFloat [0, 1, 2, 2, 1, 2, 2, 2, 2, 1, 1, 0] ()).map
        (fun g => g.events)
      = some [.GetConversations (listingParams exampleCleaner ""),
          .GetConversationHistory { ChannelID := "C2", Limit := 1 },
          .GetConversationHistory { ChannelID := "C1", Limit := 1 },
          .Sleep (30 * Second),
          .GetConversationHistory { ChannelID := "C2", Limit := 1 },
          .Sleep (1 * Second)] ∧
    (GetFilteredChannelsScheduled
        (statelessAPI twoChannelPage
          (historyExcept { history := none, err := some (.other "rate_limited") }))
        exampleCleaner exampleParseFloat [0, 1, 2, 2, 1, 2, 2, 2, 2, 1, 1, 0] ()).map
        (fun g => g.main)
      = some (.returned [{ ID := "C2", Name := "random", LastSeen := 50000000000,
                           Type_ := "private" }] none) ∧
    (∀ s, ((statelessAPI twoChannelPage
          (historyExcept { history := none, err := some (.other "rate_limited") })
        ).GetConversationHistory s { ChannelID := "C2", Limit := 1 }).1.err = none) ∧
    passesChecks exampleCleaner
      { ID := "C2", Name := "random", IsMember := true, IsPrivate := true } = true := by
  refine ⟨by decide, by decide, fun _ => rfl, by decide⟩

/-! ## The run with the probes one after the other is a scheduled run -/

theorem runSchedule_append {σ : Type} (api : API σ) (c : Cleaner)
    (ParseFloat : String → Option Float64) (a b : List Nat) :
    ∀ (g g1 : Goroutines σ), runSchedule api c ParseFloat a g = some g1 →
      runSchedule api c ParseFloat (a ++ b) g = runSchedule api c ParseFloat b g1 := by
  induction a with
  | nil =>
    intro g g1 h
    simp only [runSchedule, Option.some.injEq] at h
    subst h
    rfl
  | cons t a ih =>
    intro g g1 h
    simp only [runSchedule, List.cons_append] at h ⊢
    cases hs : stepThread api c ParseFloat t g with
    | none => simp [hs] at h
    | some g2 =>
      simp only [hs] at h ⊢
      exact ih g2 g1 h

theorem stepProbe_acquire {σ : Type} (api : API σ) (c : Cleaner)
    (ParseFloat : String → Option Float64) (i : Nat) (g : Goroutines σ) (p : Probe)
    (hi : g.probes[i]? = some p) (hpc : p.pc = .acquire)
    (hslot : (g.probes.filter Probe.holdsSlot).length < 5) :
    stepProbe api c ParseFloat i g
      = some { g with probes := g.probes.set i { p with pc := .request 0 } } := by
  unfold stepProbe
  simp only [hi, hpc]
  rw [if_pos hslot]

theorem stepProbe_request {σ : Type} (api : API σ) (c : Cleaner)
    (ParseFloat : String → Option Float64) (i : Nat) (g : Goroutines σ) (p : Probe) (a : Nat)
    (hi : g.probes[i]? = some p) (hpc : p.pc = .request a) (ha : a < 2) :
    stepProbe api c ParseFloat i g
      = some { g with
          api := (api.GetConversationHistory g.api { ChannelID := p.ch.ID, Limit := 1 }).2,
          errs := g.errs.set p.page
            (api.GetConversationHistory g.api { ChannelID := p.ch.ID, Limit := 1 }).1.err,
          probes := g.probes.set i
            { p with
              pc := .test a,
              history :=
                (api.GetConversationHistory g.api { ChannelID := p.ch.ID, Limit := 1 }).1.history },
          events := g.events ++ [.GetConversationHistory { ChannelID := p.ch.ID, Limit := 1 }] } := by
  unfold stepProbe
  simp only [hi, hpc]
  rw [if_pos ha]

theorem stepProbe_request_done {σ : Type} (api : API σ) (c : Cleaner)
    (ParseFloat : String → Option Float64) (i : Nat) (g : Goroutines σ) (p : Probe) (a : Nat)
    (hi : g.probes[i]? = some p) (hpc : p.pc = .request a) (ha : ¬ a < 2) :
    stepProbe api c ParseFloat i g
      = some { g with probes := g.probes.set i { p with pc := .afterLoop } } := by
  unfold stepProbe
  simp only [hi, hpc]
  rw [if_neg ha]

theorem stepProbe_test_nil {σ : Type} (api : API σ) (c : Cleaner)
    (ParseFloat : String → Option Float64) (i : Nat) (g : Goroutines σ) (p : Probe) (a : Nat)
    (hi : g.probes[i]? = some p) (hpc : p.pc = .test a) (herr : g.errs[p.page]? = some none) :
    stepProbe api c ParseFloat i g
      = some { g with probes := g.probes.set i { p with pc := .afterLoop } } := by
  unfold stepProbe
  simp only [hi, hpc, herr]

theorem stepProbe_test_return {σ : Type} (api : API σ) (c : Cleaner)
    (ParseFloat : String → Option Float64) (i : Nat) (g : Goroutines σ) (p : Probe) (a : Nat)
    (err rateErr : GoError) (evs : List Event)
    (hi : g.probes[i]? = some p) (hpc : p.pc = .test a)
    (herr : g.errs[p.page]? = some (some err))
    (hh : handleRateLimit c err = (some rateErr, evs)) :
    stepProbe api c ParseFloat i g
      = some { g with
          probes := g.probes.set i { p with pc := .returned }, events := g.events ++ evs } := by
  unfold stepProbe
  simp only [hi, hpc, herr, hh]

theorem stepProbe_test_retry {σ : Type} (api : API σ) (c : Cleaner)
    (ParseFloat : String → Option Float64) (i : Nat) (g : Goroutines σ) (p : Probe) (a : Nat)
    (err : GoError) (evs : List Event)
    (hi : g.probes[i]? = some p) (hpc : p.pc = .test a)
    (herr : g.errs[p.page]? = some (some err))
    (hh : handleRateLimit c err = (none, evs)) :
    stepProbe api c ParseFloat i g
      = some { g with
          probes := g.probes.set i { p with pc := .request (a + 1) },
          events := g.events ++ evs } := by
  unfold stepProbe
  simp only [hi, hpc, herr, hh]

theorem stepProbe_loop {σ : Type} (api : API σ) (c : Cleaner)
    (ParseFloat : String → Option Float64) (i : Nat) (n : Nat) :
    ∀ (g : Goroutines σ) (p : Probe) (a : Nat), a + n = 2 → g.probes[i]? = some p →
      p.pc = .request a → p.page < g.errs.length →
      ∃ sched g', runSchedule api c ParseFloat sched g = some g' ∧
        g'.main = g.main ∧ g'.errs.length = g.errs.length ∧ g'.results = g.results ∧
        g'.api = (historyAttempts api c p.ch n g.api p.history).2.1 ∧
        g'.events = g.events ++ (historyAttempts api c p.ch n g.api p.history).2.2 ∧
        ∃ p', g'.probes = g.probes.set i p' ∧ p'.ch = p.ch ∧ p'.page = p.page ∧
          ((historyAttempts api c p.ch n g.api p.history).1 = none → p'.pc = .returned) ∧
          ∀ h, (historyAttempts api c p.ch n g.api p.history).1 = some h →
            p'.pc = .afterLoop ∧ p'.history = h := by
  induction n with
  | zero =>
    intro g p a han hi hpc _
    have ha : ¬ a < 2 := by omega
    refine ⟨[i + 1], { g with probes := g.probes.set i { p with pc := .afterLoop } }, ?_,
      rfl, rfl, rfl, rfl, by simp [historyAttempts], { p with pc := .afterLoop }, rfl, rfl, rfl,
      by simp [historyAttempts], ?_⟩
    · simp only [runSchedule, stepThread]
      rw [stepProbe_request_done api c ParseFloat i g p a hi hpc ha]
    · intro h hh
      simp only [historyAttempts, Option.some.injEq] at hh
      exact ⟨rfl, hh⟩
  | succ n ih =>
    intro g p a han hi hpc hpage
    have ha : a < 2 := by omega
    have hlt : i < g.probes.length := by
      rcases List.getElem?_eq_some_iff.1 hi with ⟨h, -⟩
      exact h
    have hstep1 := stepProbe_request api c ParseFloat i g p a hi hpc ha
    rcases hans : api.GetConversationHistory g.api { ChannelID := p.ch.ID, Limit := 1 } with
      ⟨ans, s1⟩
    rw [hans] at hstep1
    simp only at hstep1
    have hi1 : (g.probes.set i { p with pc := .test a, history := ans.history })[i]?
        = some { p with pc := .test a, history := ans.history } :=
      List.getElem?_set_self hlt
    have he1 : (g.errs.set p.page ans.err)[p.page]? = some ans.err :=
      List.getElem?_set_self hpage
    cases herr : ans.err with
    | none =>
      rw [herr] at he1
      have hstep2 := stepProbe_test_nil api c ParseFloat i
        { g with
            api := s1, errs := g.errs.set p.page ans.err,
            probes := g.probes.set i { p with pc := .test a, history := ans.history },
            events := g.events ++ [.GetConversationHistory { ChannelID := p.ch.ID, Limit := 1 }] }
        { p with pc := .test a, history := ans.history } a hi1 rfl (by rw [herr]; exact he1)
      simp only [List.set_set] at hstep2
      refine ⟨[i + 1, i + 1],
        { g with
            api := s1, errs := g.errs.set p.page ans.err,
            probes := g.probes.set i { p with pc := .afterLoop, history := ans.history },
            events := g.events ++ [.GetConversationHistory { ChannelID := p.ch.ID, Limit := 1 }] },
        ?_, ?_, ?_, ?_, ?_, ?_,
        { p with pc := .afterLoop, history := ans.history }, ?_, rfl, rfl, ?_, ?_⟩
      · simp only [runSchedule, stepThread]
        rw [hstep1]
        simp only
        rw [hstep2]
      · rfl
      · simp
      · rfl
      · simp [historyAttempts, hans, herr]
      · simp [historyAttempts, hans, herr]
      · simp
      · simp [historyAttempts, hans, herr]
      · intro h hh
        simp only [historyAttempts, hans, herr, Option.some.injEq] at hh
        exact ⟨rfl, hh⟩
    | some err =>
      rw [herr] at he1
      rcases hh : handleRateLimit c err with ⟨rateErr, evsH⟩
      cases rateErr with
      | some rateErr =>
        have hstep2 := stepProbe_test_return api c ParseFloat i
          { g with
              api := s1, errs := g.errs.set p.page ans.err,
              probes := g.probes.set i { p with pc := .test a, history := ans.history },
              events := g.events ++
                [.GetConversationHistory { ChannelID := p.ch.ID, Limit := 1 }] }
          { p with pc := .test a, history := ans.history } a err rateErr evsH hi1 rfl
          (by rw [herr]; exact he1) hh
        simp only [List.set_set] at hstep2
        refine ⟨[i + 1, i + 1],
          { g with
              api := s1, errs := g.errs.set p.page ans.err,
              probes := g.probes.set i { p with pc := .returned, history := ans.history },
              events := g.events ++
                [.GetConversationHistory { ChannelID := p.ch.ID, Limit := 1 }] ++ evsH },
          ?_, ?_, ?_, ?_, ?_, ?_,
          { p with pc := .returned, history := ans.history }, ?_, rfl, rfl, fun _ => rfl, ?_⟩
        · simp only [runSchedule, stepThread]
          rw [hstep1]
          simp only
          rw [hstep2]
        · rfl
        · simp
        · rfl
        · simp [historyAttempts, hans, herr, hh]
        · simp [historyAttempts, hans, herr, hh]
        · simp
        · intro h hcontra
          simp [historyAttempts, hans, herr, hh] at hcontra
      | none =>
        have hstep2 := stepProbe_test_retry api c ParseFloat i
          { g with
              api := s1, errs := g.errs.set p.page ans.err,
              probes := g.probes.set i { p with pc := .test a, history := ans.history },
              events := g.events ++
                [.GetConversationHistory { ChannelID := p.ch.ID, Limit := 1 }] }
          { p with pc := .test a, history := ans.history } a err evsH hi1 rfl
          (by rw [herr]; exact he1) hh
        simp only [List.set_set] at hstep2
        obtain ⟨sched, g', hrun, hmain, herrs, hres, hapi, hevs, p', hprobes, hch, hpg, hret,
            hafter⟩ :=
          ih { g with
              api := s1, errs := g.errs.set p.page ans.err,
              probes := g.probes.set i { p with pc := .request (a + 1), history := ans.history },
              events := g.events ++
                [.GetConversationHistory { ChannelID := p.ch.ID, Limit := 1 }] ++ evsH }
            { p with pc := .request (a + 1), history := ans.history } (a + 1) (by omega)
            (List.getElem?_set_self hlt) rfl (by simpa using hpage)
        refine ⟨[i + 1, i + 1] ++ sched, g', ?_, hmain, by simpa using herrs, hres, ?_, ?_, p', ?_,
          hch, hpg, ?_, ?_⟩
        · rw [runSchedule_append api c ParseFloat [i + 1, i + 1] sched g _ ?_]
          · exact hrun
          · simp only [runSchedule, stepThread]
            rw [hstep1]
            simp only
            rw [hstep2]
        · simpa [historyAttempts, hans, herr, hh] using hapi
        · simpa [historyAttempts, hans, herr, hh] using hevs
        · simpa using hprobes
        · simpa [historyAttempts, hans, herr, hh] using hret
        · simpa [historyAttempts, hans, herr, hh] using hafter

theorem processChannel_probe {σ : Type} (api : API σ) (c : Cleaner)
    (ParseFloat : String → Option Float64) (ch : Channel) (s : σ) (results : List ChannelInfo)
    (h1 : ¬ (!ch.IsMember || c.SkipChannels.get ch.Name) = true)
    (h2 : ¬ (c.Keyword != "" && !stringsContains ch.Name c.Keyword) = true) :
    processChannel api c ParseFloat ch s results
      = (results ++ appendedAfter c ParseFloat ch (historyAttempts api c ch 2 s none).1,
          (historyAttempts api c ch 2 s none).2.1,
          (historyAttempts api c ch 2 s none).2.2 ++
            (appendedAfter c ParseFloat ch (historyAttempts api c ch 2 s none).1).map
              fun _ => .Sleep (1 * Second)) := by
  unfold processChannel
  rw [if_neg h1, if_neg h2]
  rcases hres : historyAttempts api c ch 2 s none with ⟨o, s1, evs⟩
  cases o with
  | none => simp [appendedAfter]
  | some o =>
    cases o with
    | none => simp [appendedAfter]
    | some history =>
      simp only [appendedAfter]
      cases hm : history.Messages with
      | nil => simp
      | cons m rest =>
        simp only
        cases hp : ParseFloat m.Timestamp with
        | none => simp
        | some ts =>
          simp only [Before]
          by_cases hlt : Unix (int64 ts) 0 < c.Cutoff
          · simp [hlt, infoOf]
          · simp [hlt]

theorem stepProbe_afterLoop {σ : Type} (api : API σ) (c : Cleaner)
    (ParseFloat : String → Option Float64) (i : Nat) (g : Goroutines σ) (p : Probe)
    (hi : g.probes[i]? = some p) (hpc : p.pc = .afterLoop) :
    stepProbe api c ParseFloat i g
      = some { g with
          probes := g.probes.set i { p with pc := .returned },
          results := g.results ++ appendedAfter c ParseFloat p.ch (some p.history),
          events := g.events ++
            (appendedAfter c ParseFloat p.ch (some p.history)).map
              fun _ => .Sleep (1 * Second) } := by
  unfold stepProbe
  simp only [hi, hpc]
  cases hh : p.history with
  | none => simp [appendedAfter]
  | some history =>
    simp only [appendedAfter]
    cases hm : history.Messages with
    | nil => simp
    | cons m rest =>
      simp only
      cases hp : ParseFloat m.Timestamp with
      | none => simp
      | some ts =>
        simp only [Before]
        by_cases hlt : Unix (int64 ts) 0 < c.Cutoff
        · simp [hlt, infoOf]
        · simp [hlt]

theorem stepProbe_alone {σ : Type} (api : API σ) (c : Cleaner)
    (ParseFloat : String → Option Float64) (i : Nat) (g : Goroutines σ) (ch : Channel)
    (page : Nat)
    (hi : g.probes[i]? = some { ch := ch, page := page, pc := .acquire, history := none })
    (hslot : (g.probes.filter Probe.holdsSlot).length < 5)
    (hpage : page < g.errs.length)
    (h1 : ¬ (!ch.IsMember || c.SkipChannels.get ch.Name) = true)
    (h2 : ¬ (c.Keyword != "" && !stringsContains ch.Name c.Keyword) = true) :
    ∃ sched g', runSchedule api c ParseFloat sched g = some g' ∧
      g'.main = g.main ∧ g'.errs.length = g.errs.length ∧
      g'.results = (processChannel api c ParseFloat ch g.api g.results).1 ∧
      g'.api = (processChannel api c ParseFloat ch g.api g.results).2.1 ∧
      g'.events = g.events ++ (processChannel api c ParseFloat ch g.api g.results).2.2 ∧
      ∃ p', g'.probes = g.probes.set i p' ∧ p'.pc = .returned := by
  have hlt : i < g.probes.length := by
    rcases List.getElem?_eq_some_iff.1 hi with ⟨h, -⟩
    exact h
  have hstep0 := stepProbe_acquire api c ParseFloat i g _ hi rfl hslot
  obtain ⟨sched, g2, hrun, hmain, herrs, hres, hapi, hevs, p', hprobes, hch, hpg, hret, hafter⟩ :=
    stepProbe_loop api c ParseFloat i 2
      { g with probes := g.probes.set i { ch := ch, page := page, pc := .request 0, history := none } }
      { ch := ch, page := page, pc := .request 0, history := none } 0 rfl
      (List.getElem?_set_self hlt) rfl hpage
  simp only [List.set_set] at hprobes
  simp only at hmain herrs hres hapi hevs hch hpg hret hafter
  have hrun0 : runSchedule api c ParseFloat ([i + 1] ++ sched) g = some g2 := by
    rw [runSchedule_append api c ParseFloat [i + 1] sched g _ ?_]
    · exact hrun
    · simp only [runSchedule, stepThread]
      rw [hstep0]
  rw [processChannel_probe api c ParseFloat ch g.api g.results h1 h2]
  cases ho : (historyAttempts api c ch 2 g.api none).1 with
  | none =>
    refine ⟨[i + 1] ++ sched, g2, hrun0, hmain, herrs, ?_, hapi, ?_, p', hprobes, hret ho⟩
    · simp [hres, appendedAfter]
    · simp [hevs, appendedAfter]
  | some h =>
    obtain ⟨hpc', hhist'⟩ := hafter h ho
    have hi2 : g2.probes[i]? = some p' := by
      rw [hprobes]
      exact List.getElem?_set_self hlt
    have hstep2 := stepProbe_afterLoop api c ParseFloat i g2 p' hi2 hpc'
    rw [hch, hhist'] at hstep2
    refine ⟨([i + 1] ++ sched) ++ [i + 1],
      { g2 with
          probes := g2.probes.set i { p' with pc := .returned },
          results := g2.results ++ appendedAfter c ParseFloat ch (some h),
          events := g2.events ++
            (appendedAfter c ParseFloat ch (some h)).map fun _ => .Sleep (1 * Second) },
      ?_, ?_, ?_, ?_, ?_, ?_, { p' with pc := .returned }, ?_, rfl⟩
    · rw [runSchedule_append api c ParseFloat ([i + 1] ++ sched) [i + 1] g g2 hrun0]
      simp only [runSchedule, stepThread]
      rw [hstep2]
      simp [hch, hhist']
    · exact hmain
    · exact herrs
    · simp [hres]
    · exact hapi
    · simp [hevs]
    · simp [hprobes]

theorem startProbes_acquire (c : Cleaner) (page : Nat) (chans : List Channel) :
    ∀ q ∈ startProbes c page chans, q.pc = .acquire := by
  induction chans with
  | nil => intro q hq; simp [startProbes] at hq
  | cons ch rest ih =>
    intro q hq
    unfold startProbes at hq
    split at hq
    · exact ih q hq
    · split at hq
      · exact ih q hq
      · rcases List.mem_cons.1 hq with h | h
        · rw [h]
        · exact ih q h

theorem runSchedule_page {σ : Type} (api : API σ) (c : Cleaner)
    (ParseFloat : String → Option Float64) (page : Nat) (chans : List Channel) :
    ∀ (g : Goroutines σ) (pre : List Probe),
      g.probes = pre ++ startProbes c page chans → (∀ q ∈ pre, q.pc = .returned) →
      page < g.errs.length →
      ∃ sched g', runSchedule api c ParseFloat sched g = some g' ∧
        g'.main = g.main ∧ g'.errs.length = g.errs.length ∧
        g'.results = (processChannels api c ParseFloat chans g.api g.results).1 ∧
        g'.api = (processChannels api c ParseFloat chans g.api g.results).2.1 ∧
        g'.events = g.events ++ (processChannels api c ParseFloat chans g.api g.results).2.2 ∧
        ∀ q ∈ g'.probes, q.pc = .returned := by
  induction chans with
  | nil =>
    intro g pre hprobes hpre _
    refine ⟨[], g, rfl, rfl, rfl, rfl, rfl, by simp [processChannels], ?_⟩
    intro q hq
    rw [hprobes] at hq
    simp only [startProbes, List.append_nil] at hq
    exact hpre q hq
  | cons ch rest ih =>
    intro g pre hprobes hpre hpage
    rcases hpc : processChannel api c ParseFloat ch g.api g.results with ⟨r1, s1, e1⟩
    rcases hpcs : processChannels api c ParseFloat rest s1 r1 with ⟨r2, s2, e2⟩
    have hall : processChannels api c ParseFloat (ch :: rest) g.api g.results
        = (r2, s2, e1 ++ e2) := by
      simp only [processChannels, hpc, hpcs]
    rw [hall]
    by_cases h1 : (!ch.IsMember || c.SkipChannels.get ch.Name) = true
    · have hskip : processChannel api c ParseFloat ch g.api g.results = (g.results, g.api, []) := by
        unfold processChannel
        rw [if_pos h1]
      rw [hskip] at hpc
      simp only [Prod.mk.injEq] at hpc
      obtain ⟨rfl, rfl, rfl⟩ := hpc
      have hsp : startProbes c page (ch :: rest) = startProbes c page rest := by
        rw [startProbes, if_pos h1]
      rw [hsp] at hprobes
      obtain ⟨sched, g', hrun, hm, he, hr, ha, hev, hq⟩ := ih g pre hprobes hpre hpage
      rw [hpcs] at hr ha hev
      exact ⟨sched, g', hrun, hm, he, hr, ha, by simpa using hev, hq⟩
    · by_cases h2 : (c.Keyword != "" && !stringsContains ch.Name c.Keyword) = true
      · have hskip : processChannel api c ParseFloat ch g.api g.results
            = (g.results, g.api, []) := by
          unfold processChannel
          rw [if_neg h1, if_pos h2]
        rw [hskip] at hpc
        simp only [Prod.mk.injEq] at hpc
        obtain ⟨rfl, rfl, rfl⟩ := hpc
        have hsp : startProbes c page (ch :: rest) = startProbes c page rest := by
          rw [startProbes, if_neg h1, if_pos h2]
        rw [hsp] at hprobes
        obtain ⟨sched, g', hrun, hm, he, hr, ha, hev, hq⟩ := ih g pre hprobes hpre hpage
        rw [hpcs] at hr ha hev
        exact ⟨sched, g', hrun, hm, he, hr, ha, by simpa using hev, hq⟩
      · have hsp : startProbes c page (ch :: rest)
            = { ch := ch, page := page, pc := .acquire, history := none }
                :: startProbes c page rest := by
          rw [startProbes, if_neg h1, if_neg h2]
        rw [hsp] at hprobes
        have hi : g.probes[pre.length]?
            = some { ch := ch, page := page, pc := .acquire, history := none } := by
          rw [hprobes, List.getElem?_append_right (le_refl _)]
          simp
        have hslot : (g.probes.filter Probe.holdsSlot).length < 5 := by
          have : g.probes.filter Probe.holdsSlot = [] := by
            rw [List.filter_eq_nil_iff]
            intro q hq
            rw [hprobes] at hq
            rcases List.mem_append.1 hq with h | h
            · simp [Probe.holdsSlot, hpre q h]
            · rcases List.mem_cons.1 h with h | h
              · simp [Probe.holdsSlot, h]
              · simp [Probe.holdsSlot, startProbes_acquire c page rest q h]
          rw [this]
          simp
        obtain ⟨sched1, g1, hrun1, hm1, he1, hr1, ha1, hev1, p', hp1, hpc1⟩ :=
          stepProbe_alone api c ParseFloat pre.length g ch page hi hslot hpage h1 h2
        rw [hpc] at hr1 ha1 hev1
        simp only at hr1 ha1 hev1
        have hprobes1 : g1.probes = (pre ++ [p']) ++ startProbes c page rest := by
          rw [hp1, hprobes]
          simp
        have hpre1 : ∀ q ∈ pre ++ [p'], q.pc = .returned := by
          intro q hq
          rcases List.mem_append.1 hq with h | h
          · exact hpre q h
          · simp only [List.mem_singleton] at h
            rw [h]
            exact hpc1
        obtain ⟨sched, g', hrun, hm, he, hr, ha, hev, hq⟩ :=
          ih g1 (pre ++ [p']) hprobes1 hpre1 (by rw [he1]; exact hpage)
        rw [ha1, hr1, hpcs] at hr ha hev
        refine ⟨sched1 ++ sched, g', ?_, by rw [hm, hm1], by rw [he, he1], hr, ha, ?_, hq⟩
        · rw [runSchedule_append api c ParseFloat sched1 sched g g1 hrun1]
          exact hrun
        · rw [hev, hev1]
          simp

theorem runSchedule_paginate {σ : Type} (api : API σ) (c : Cleaner)
    (ParseFloat : String → Option Float64) (fuel : Nat) :
    ∀ (g : Goroutines σ) (cursor : String) (r : List ChannelInfo) (e : Option GoError)
      (s' : σ) (evs : List Event),
      g.main = .listing cursor → (∀ q ∈ g.probes, q.pc = .returned) → 0 < g.errs.length →
      paginate api c ParseFloat fuel g.api cursor g.results = some ((r, e), s', evs) →
      ∃ sched g', runSchedule api c ParseFloat sched g = some g' ∧
        g'.main = .returned r e ∧ g'.api = s' ∧ g'.events = g.events ++ evs := by
  induction fuel with
  | zero => intro g cursor r e s' evs _ _ _ h; simp [paginate] at h
  | succ fuel ih =>
    intro g cursor r e s' evs hmain hq herrs h
    rw [paginate] at h
    rcases hans : api.GetConversations g.api (listingParams c cursor) with ⟨ans, s1⟩
    rw [hans] at h
    cases herr : ans.err with
    | some err =>
      simp only [herr] at h
      rcases hh : handleRateLimit c err with ⟨rateErr, evsH⟩
      rw [hh] at h
      cases rateErr with
      | some rateErr =>
        simp only [Option.some.injEq, Prod.mk.injEq] at h
        obtain ⟨⟨hr, he⟩, hs, hevs⟩ := h
        refine ⟨[0],
          { g with
            api := s1, main := .returned [] (some rateErr),
            errs := g.errs.set (g.errs.length - 1) (some err),
            events := g.events ++ .GetConversations (listingParams c cursor) :: evsH },
          ?_, by rw [← hr, ← he], hs, by rw [← hevs]⟩
        simp only [runSchedule, stepThread]
        unfold stepMain
        simp only [hmain, hans, herr, hh]
      | none =>
        simp only [Option.map_eq_some'] at h
        obtain ⟨⟨⟨r2, e2⟩, s2, evs2⟩, hrec, heq⟩ := h
        simp only [Prod.mk.injEq] at heq
        obtain ⟨⟨hr, he⟩, hs, hevs⟩ := heq
        obtain ⟨sched, g', hrun, hm, ha, hev⟩ :=
          ih { g with
              api := s1, main := .listing cursor,
              errs := g.errs.set (g.errs.length - 1) (some err),
              events := g.events ++ .GetConversations (listingParams c cursor) :: evsH }
            cursor r2 e2 s2 evs2 rfl hq (by simpa using herrs) hrec
        refine ⟨[0] ++ sched, g', ?_, by rw [hm, hr, he], by rw [ha, hs], ?_⟩
        · rw [runSchedule_append api c ParseFloat [0] sched g _ ?_]
          · exact hrun
          · simp only [runSchedule, stepThread]
            unfold stepMain
            simp only [hmain, hans, herr, hh]
        · rw [hev, ← hevs]
          simp
    | none =>
      simp only [herr] at h
      rcases hp : processChannels api c ParseFloat ans.channels s1 g.results with ⟨r1, s2, evs1⟩
      rw [hp] at h
      simp only at h
      have hstep : stepMain api c g
          = some { g with
              api := s1,
              main := if ans.nextCursor = "" then .wait else .listing ans.nextCursor,
              errs :=
                if ans.nextCursor = "" then g.errs.set (g.errs.length - 1) none
                else g.errs.set (g.errs.length - 1) none ++ [none],
              probes := g.probes ++ startProbes c (g.errs.length - 1) ans.channels,
              events := g.events ++ [.GetConversations (listingParams c cursor)] } := by
        unfold stepMain
        simp only [hmain, hans, herr]
      obtain ⟨sched1, g2, hrun1, hm1, he1, hr1, ha1, hev1, hq1⟩ :=
        runSchedule_page api c ParseFloat (g.errs.length - 1) ans.channels
          { g with
              api := s1,
              main := if ans.nextCursor = "" then .wait else .listing ans.nextCursor,
              errs :=
                if ans.nextCursor = "" then g.errs.set (g.errs.length - 1) none
                else g.errs.set (g.errs.length - 1) none ++ [none],
              probes := g.probes ++ startProbes c (g.errs.length - 1) ans.channels,
              events := g.events ++ [.GetConversations (listingParams c cursor)] }
          g.probes rfl hq (by
            simp only
            split <;> simp <;> omega)
      simp only [hp] at hm1 he1 hr1 ha1 hev1
      have hrun01 : runSchedule api c ParseFloat ([0] ++ sched1) g = some g2 := by
        rw [runSchedule_append api c ParseFloat [0] sched1 g _ ?_]
        · exact hrun1
        · simp only [runSchedule, stepThread]
          rw [hstep]
      by_cases hc : ans.nextCursor = ""
      · simp only [hc, if_true, Option.some.injEq, Prod.mk.injEq] at h hm1
        obtain ⟨⟨hr, he⟩, hs, hevs⟩ := h
        have hall : g2.probes.all (fun p => decide (p.pc = .returned)) = true := by
          rw [List.all_eq_true]
          intro q hq
          simp [hq1 q hq]
        refine ⟨([0] ++ sched1) ++ [0], { g2 with main := .returned g2.results none }, ?_,
          by simp only [hr1, ← hr, ← he], by simp only [ha1, hs], ?_⟩
        · rw [runSchedule_append api c ParseFloat ([0] ++ sched1) [0] g g2 hrun01]
          simp only [runSchedule, stepThread]
          unfold stepMain
          simp only [hm1]
          rw [if_pos hall]
        · simp only [hev1, ← hevs]
          simp
      · simp only [hc, if_false, Option.map_eq_some'] at h hm1
        obtain ⟨⟨⟨r2, e2⟩, s3, evs2⟩, hrec, heq⟩ := h
        simp only [Prod.mk.injEq] at heq
        obtain ⟨⟨hr, he⟩, hs, hevs⟩ := heq
        obtain ⟨sched, g', hrun, hm, ha, hev⟩ :=
          ih g2 ans.nextCursor r2 e2 s3 evs2 hm1 hq1
            (by
              rw [he1, if_neg hc]
              simp)
            (by rw [ha1, hr1]; exact hrec)
        refine ⟨([0] ++ sched1) ++ sched, g', ?_, by rw [hm, hr, he], by rw [ha, hs], ?_⟩
        · rw [runSchedule_append api c ParseFloat ([0] ++ sched1) sched g g2 hrun01]
          exact hrun
        · rw [hev, hev1, ← hevs]
          simp

/-- The run of `GetFilteredChannels` in which the probes go one after the other is one of
the scheduled runs: whatever `GetFilteredChannels` returns, with whatever API state and
events, some schedule makes `GetFilteredChannelsScheduled` return the same results and
error with the same API state and the same events. -/
theorem GetFilteredChannels_is_scheduled {σ : Type} (api : API σ) (c : Cleaner)
    (ParseFloat : String → Option Float64) (fuel : Nat) (s s' : σ) (r : List ChannelInfo)
    (e : Option GoError) (evs : List Event)
    (h : GetFilteredChannels api c ParseFloat fuel s = some ((r, e), s', evs)) :
    ∃ schedule g, GetFilteredChannelsScheduled api c ParseFloat schedule s = some g ∧
      g.main = .returned r e ∧ g.api = s' ∧ g.events = evs := by
  obtain ⟨sched, g', hrun, hm, ha, hev⟩ :=
    runSchedule_paginate api c ParseFloat fuel
      { api := s, main := .listing "", errs := [none], probes := [], results := [], events := [] }
      "" r e s' evs rfl (by simp) (by simp) h
  exact ⟨sched, g', hrun, hm, ha, by simpa using hev⟩

end SlackCleaner
